import Mathlib

/-!
# OpenMesh: the OM binary writer (`OMWriter.cc`)

A shallow embedding of `_OMWriter_::write_binary` and
`_OMWriter_::store_binary_custom_chunk`.  The output stream is modelled as the
list of `store` calls performed on it, in order; every call keeps the `swap`
argument it was given.  A second layer turns the calls into bytes.

The declarations of `OMFormat.hh` that `OMWriter.cc` uses (enumerator values,
the layout of the chunk header, `mk_version`) are parameters of the encoder
(`OMFormat.Decls`).

The member functions of `VectorT<Scalar, DIM>` (`Vector11T.hh`) are embedded as
functions on `VectorT Scalar DIM`; a function that modifies its receiver returns
the new value of the receiver.
-/

namespace OpenMesh

/-! ## Scalars, vectors, handles -/

/-- The C type `unsigned char`. -/
abbrev uchar := Fin 256

/-- The C type `float`, identified with its 32 bit pattern. -/
abbrev float := Fin 4294967296

/-- The C type `double`, identified with its 64 bit pattern. -/
abbrev double := Fin 18446744073709551616

/-- The class `VectorT<Scalar, DIM>`: `std::array<Scalar, DIM> values_`. -/
structure VectorT (Scalar : Type) (DIM : Nat) where
  values_ : Fin DIM → Scalar

instance VectorT.instDecidableEq {Scalar : Type} {DIM : Nat} [DecidableEq Scalar] :
    DecidableEq (VectorT Scalar DIM) := fun a b =>
  decidable_of_iff (List.ofFn a.values_ = List.ofFn b.values_) (by
    cases a; cases b
    simp [List.ofFn_inj])

abbrev Vec3f := VectorT float 3
abbrev Vec3d := VectorT double 3
abbrev Vec2f := VectorT float 2
abbrev Vec3uc := VectorT uchar 3

/-- The bit field of `Attributes::StatusInfo`. -/
abbrev StatusInfo := Nat

/-- Conversion of an `unsigned int` to `int` (`int(x)`, `static_cast<int>(x)`),
two's complement on 32 bits. -/
def static_cast_int (x : Nat) : Int :=
  if x % 4294967296 < 2147483648 then ((x % 4294967296 : Nat) : Int)
  else ((x % 4294967296 : Nat) : Int) - 4294967296

/-- The handle `VertexHandle(i)` for an `unsigned int i`: its `int` index. -/
def VertexHandle (i : Nat) : Int := static_cast_int i

/-- The handle `FaceHandle(i)`. -/
def FaceHandle (i : Nat) : Int := static_cast_int i

/-- The handle `EdgeHandle(i)`. -/
def EdgeHandle (i : Nat) : Int := static_cast_int i

/-- The handle `HalfedgeHandle(i)`. -/
def HalfedgeHandle (i : Nat) : Int := static_cast_int i

/-! ## Options and host byte order -/

/-- The byte order of the host, `Endian::local()`. -/
inductive Endian
  | LSB
  | MSB
  deriving DecidableEq, Repr

/-- The flags of `IO::Options` the writer looks at. -/
inductive Flag
  | Binary
  | MSB
  | LSB
  | Swap
  | VertexNormal
  | VertexColor
  | VertexTexCoord
  | FaceNormal
  | FaceColor
  | FaceTexCoord
  | Custom
  | Status
  deriving DecidableEq, Repr

/-- The class `IO::Options`: a set of flags. -/
structure Options where
  flags_ : Flag → Bool

/-- The test `Options::check(flag)`. -/
def Options.check (o : Options) (f : Flag) : Bool := o.flags_ f

/-! ## The declarations of `OMFormat.hh` -/

namespace OMFormat

/-- The file header `OMFormat::Header`. The counts are `uint32`. -/
structure Header where
  magic_0 : Char
  magic_1 : Char
  mesh_ : Char
  version_ : Nat
  n_vertices_ : Nat
  n_faces_ : Nat
  n_edges_ : Nat
  deriving DecidableEq

namespace Chunk

/-- The chunk header `OMFormat::Chunk::Header`. The one bit fields `name_`,
`signed_`, `float_` are booleans (zero is `false`); the other fields hold the
numeric value assigned to them, an enumerator or, for `bits_` of a Custom
chunk, the element size; the widths of the bit fields are not modelled. -/
structure Header where
  reserved_ : Nat
  name_ : Bool
  entity_ : Nat
  type_ : Nat
  signed_ : Bool
  float_ : Bool
  dim_ : Nat
  bits_ : Nat
  deriving DecidableEq

end Chunk

/-- What `OMWriter.cc` takes from the header `OMFormat.hh`, as parameters of the
encoder: the numeric values of the enumerators of `Chunk::Entity`,
`Chunk::Type`, `Chunk::Dim`, `Chunk::Integer_Size`, `Chunk::Float_Size`, the
function `mk_version`, the bits code and byte size of a status value, the
packing of a chunk header into its 16 bit stored form and the byte size of the
length prefix of a stored string. -/
structure Decls where
  Entity_Vertex : Nat
  Entity_Mesh : Nat
  Entity_Face : Nat
  Entity_Edge : Nat
  Entity_Halfedge : Nat
  Entity_Sentinel : Nat
  Type_Pos : Nat
  Type_Normal : Nat
  Type_Texcoord : Nat
  Type_Status : Nat
  Type_Color : Nat
  Type_Custom : Nat
  Type_Topology : Nat
  Dim_1D : Nat
  Dim_2D : Nat
  Dim_3D : Nat
  Integer_8 : Nat
  Integer_16 : Nat
  Integer_32 : Nat
  Integer_64 : Nat
  Float_32 : Nat
  Float_64 : Nat
  mk_version : Nat → Nat → Nat
  bits_status : Nat
  sizeof_status : Nat
  pack : Chunk.Header → Nat
  sizeof_strlen : Nat

/-- The enumerators of one enumeration have pairwise different values. -/
def Decls.WellFormed (F : Decls) : Prop :=
  [F.Entity_Vertex, F.Entity_Mesh, F.Entity_Face, F.Entity_Edge, F.Entity_Halfedge,
    F.Entity_Sentinel].Nodup ∧
  [F.Type_Pos, F.Type_Normal, F.Type_Texcoord, F.Type_Status, F.Type_Color, F.Type_Custom,
    F.Type_Topology].Nodup ∧
  [F.Integer_8, F.Integer_16, F.Integer_32, F.Integer_64].Nodup

instance Decls.instDecidableWellFormed (F : Decls) : Decidable F.WellFormed := by
  unfold Decls.WellFormed
  exact inferInstance

/-- The scalar types whose traits the writer asks for. -/
inductive ScalarType
  | float
  | double
  | uchar
  | status
  deriving DecidableEq, Repr

/-- Modelled from the spec: the Scalar Trait Inspector `OMFormat::is_signed`,
declared in `OMFormat.hh`: whether the scalar type is signed. -/
def is_signed : ScalarType → Bool
  | .float => true
  | .double => true
  | .uchar => false
  | .status => false

/-- Modelled from the spec: the Scalar Trait Inspector `OMFormat::is_float`,
declared in `OMFormat.hh`: whether the scalar type is a floating point type. -/
def is_float : ScalarType → Bool
  | .float => true
  | .double => true
  | .uchar => false
  | .status => false

/-- Modelled from the spec: the Scalar Trait Inspector `OMFormat::bits`,
declared in `OMFormat.hh`: the bits code of the component type. -/
def bits (F : Decls) : ScalarType → Nat
  | .float => F.Float_32
  | .double => F.Float_64
  | .uchar => F.Integer_8
  | .status => F.bits_status

/-- Modelled from the spec: the Scalar Trait Inspector `OMFormat::dim`, declared
in `OMFormat.hh`: the dimensionality code of a vector with `n` components, for
the two and three component vectors the writer stores. -/
def dim (F : Decls) (n : Nat) : Nat :=
  if n = 3 then F.Dim_3D else if n = 2 then F.Dim_2D else F.Dim_1D

/-- Modelled from the spec: the Bit-Width Planner `OMFormat::needed_bits`,
declared in `OMFormat.hh`: the smallest width among 8, 16, 32, 64 bits whose
maximum representable unsigned value is at least `max_value`, as its
`Integer_Size` code. -/
def needed_bits (F : Decls) (max_value : Nat) : Nat :=
  if max_value ≤ 255 then F.Integer_8
  else if max_value ≤ 65535 then F.Integer_16
  else if max_value ≤ 4294967295 then F.Integer_32
  else F.Integer_64

end OMFormat

/-! ## The export surface -/

/-- One stored scalar of a property: its size in bytes and its bit pattern. -/
structure StoredScalar where
  size : Nat
  value : Nat
  deriving DecidableEq

/-- The interface `BaseProperty` as the writer uses it. `elements` stands for
what the self-serializing call `store` writes: the scalars of the property, in
order. -/
structure BaseProperty where
  name : String
  persistent : Bool
  element_size : Nat
  get_storage_name : String
  size_of : Nat
  elements : List StoredScalar
  deriving DecidableEq

/-- The property containers of `BaseKernel`, one per element kind; an entry may
be a null pointer. -/
structure BaseKernel where
  vprops : List (Option BaseProperty)
  fprops : List (Option BaseProperty)
  eprops : List (Option BaseProperty)
  hprops : List (Option BaseProperty)
  mprops : List (Option BaseProperty)

/-- The interface `BaseExporter`. The counts are `size_t`; the accessors take
the `int` index of a handle. Accessors overloaded on the handle type carry the
element kind in their name. -/
structure BaseExporter where
  kernel : Option BaseKernel
  is_triangle_mesh : Bool
  n_vertices : Nat
  n_faces : Nat
  n_edges : Nat
  is_point_double : Bool
  is_normal_double : Bool
  point : Int → Vec3f
  pointd : Int → Vec3d
  normal : Int → Vec3f
  normald : Int → Vec3d
  color : Int → Vec3uc
  texcoord : Int → Vec2f
  get_next_halfedge_id : Int → Int
  get_to_vertex_id : Int → Int
  get_face_id : Int → Int
  texcoord_halfedge : Int → Vec2f
  get_halfedge_id : Int → Int
  get_halfedge_id_face : Int → Int
  normal_face : Int → Vec3f
  normald_face : Int → Vec3d
  color_face : Int → Vec3uc
  status : Int → StatusInfo
  status_edge : Int → StatusInfo
  status_halfedge : Int → StatusInfo
  status_face : Int → StatusInfo
  has_vertex_normals : Bool
  has_vertex_colors : Bool
  has_vertex_texcoords : Bool
  has_face_normals : Bool
  has_face_colors : Bool
  has_vertex_status : Bool
  has_edge_status : Bool
  has_halfedge_status : Bool
  has_face_status : Bool

/-! ## The stream: the store calls performed on it -/

/-- One call that writes to the stream, with the `swap` argument it is given. -/
inductive Record
  | header (h : OMFormat.Header) (swap : Bool)
  | chunk_header (h : OMFormat.Chunk.Header) (swap : Bool)
  | vec3f (v : Vec3f) (swap : Bool)
  | vec3d (v : Vec3d) (swap : Bool)
  | vec3uc (v : Vec3uc) (swap : Bool)
  | vec2f (v : Vec2f) (swap : Bool)
  | integer (v : Int) (size : Nat) (swap : Bool)
  | status (s : StatusInfo) (swap : Bool)
  | property_name (s : String) (swap : Bool)
  | property (bp : BaseProperty) (swap : Bool)
  deriving DecidableEq

/-- The `swap` argument of a store call. -/
def Record.swap : Record → Bool
  | .header _ s => s
  | .chunk_header _ s => s
  | .vec3f _ s => s
  | .vec3d _ s => s
  | .vec3uc _ s => s
  | .vec2f _ s => s
  | .integer _ _ s => s
  | .status _ s => s
  | .property_name _ s => s
  | .property _ s => s

/-- The same store call with another `swap` argument. -/
def Record.withSwap (b : Bool) : Record → Record
  | .header h _ => .header h b
  | .chunk_header h _ => .chunk_header h b
  | .vec3f v _ => .vec3f v b
  | .vec3d v _ => .vec3d v b
  | .vec3uc v _ => .vec3uc v b
  | .vec2f v _ => .vec2f v b
  | .integer v n _ => .integer v n b
  | .status s _ => .status s b
  | .property_name s _ => .property_name s b
  | .property p _ => .property p b

/-! ## `_OMWriter_::write_binary` -/

open OMFormat

/-- The constant `_OMWriter_::version_  = OMFormat::mk_version(2,2)`. -/
def version_ (F : Decls) : Nat := F.mk_version 2 2

/-- One built-in chunk of `write_binary`, a statement of the form
`if (cond) { assign fields of chunk_header; store(_os, chunk_header, swap_required);
store the payload }`. The payload may read the header just assigned. -/
structure Block where
  cond : Bool
  assign : Chunk.Header → Chunk.Header
  payload : Chunk.Header → List Record

/-- Executes one block on the current value of the variable `chunk_header`:
the store calls performed and the new value of `chunk_header`. -/
def Block.run (swap_required : Bool) (b : Block) (chunk_header : Chunk.Header) :
    List Record × Chunk.Header :=
  if b.cond then
    (Record.chunk_header (b.assign chunk_header) swap_required
      :: b.payload (b.assign chunk_header), b.assign chunk_header)
  else ([], chunk_header)

/-- Executes blocks one after the other. -/
def run_blocks (swap_required : Bool) :
    List Block → Chunk.Header → List Record × Chunk.Header
  | [], chunk_header => ([], chunk_header)
  | b :: bs, chunk_header =>
    ((b.run swap_required chunk_header).1
        ++ (run_blocks swap_required bs (b.run swap_required chunk_header).2).1,
      (run_blocks swap_required bs (b.run swap_required chunk_header).2).2)

/-- Lines 215 to 244: write vertex position. -/
def write_vertex_position (F : Decls) (be : BaseExporter) (header : Header)
    (swap_required : Bool) : Block where
  cond := decide (be.n_vertices ≠ 0)
  assign := fun chunk_header =>
    if be.is_point_double then
      { chunk_header with
        reserved_ := 0, name_ := false, entity_ := F.Entity_Vertex, type_ := F.Type_Pos,
        signed_ := is_signed .double, float_ := is_float .double,
        dim_ := dim F 3, bits_ := bits F .double }
    else
      { chunk_header with
        reserved_ := 0, name_ := false, entity_ := F.Entity_Vertex, type_ := F.Type_Pos,
        signed_ := is_signed .float, float_ := is_float .float,
        dim_ := dim F 3, bits_ := bits F .float }
  payload := fun _ =>
    if be.is_point_double then
      (List.range header.n_vertices_).map fun i =>
        Record.vec3d (be.pointd (VertexHandle i)) swap_required
    else
      (List.range header.n_vertices_).map fun i =>
        Record.vec3f (be.point (VertexHandle i)) swap_required

/-- Lines 248 to 279: write vertex normal. -/
def write_vertex_normal (F : Decls) (be : BaseExporter) (writeOptions : Options)
    (header : Header) (swap_required : Bool) : Block where
  cond := decide (be.n_vertices ≠ 0) && writeOptions.check Flag.VertexNormal
  assign := fun chunk_header =>
    if be.is_normal_double then
      { chunk_header with
        name_ := false, entity_ := F.Entity_Vertex, type_ := F.Type_Normal,
        signed_ := is_signed .double, float_ := is_float .double,
        dim_ := dim F 3, bits_ := bits F .double }
    else
      { chunk_header with
        name_ := false, entity_ := F.Entity_Vertex, type_ := F.Type_Normal,
        signed_ := is_signed .float, float_ := is_float .float,
        dim_ := dim F 3, bits_ := bits F .float }
  payload := fun _ =>
    if be.is_normal_double then
      (List.range header.n_vertices_).map fun i =>
        Record.vec3d (be.normald (VertexHandle i)) swap_required
    else
      (List.range header.n_vertices_).map fun i =>
        Record.vec3f (be.normal (VertexHandle i)) swap_required

/-- Lines 282 to 297: write vertex color. -/
def write_vertex_color (F : Decls) (be : BaseExporter) (writeOptions : Options)
    (header : Header) (swap_required : Bool) : Block where
  cond := decide (be.n_vertices ≠ 0) && writeOptions.check Flag.VertexColor
    && be.has_vertex_colors
  assign := fun chunk_header =>
    { chunk_header with
      name_ := false, entity_ := F.Entity_Vertex, type_ := F.Type_Color,
      signed_ := is_signed .uchar, float_ := is_float .uchar,
      dim_ := dim F 3, bits_ := bits F .uchar }
  payload := fun _ =>
    (List.range header.n_vertices_).map fun i =>
      Record.vec3uc (be.color (VertexHandle i)) swap_required

/-- Lines 300 to 317: write vertex texture coords. -/
def write_vertex_texcoord (F : Decls) (be : BaseExporter) (writeOptions : Options)
    (header : Header) (swap_required : Bool) : Block where
  cond := decide (be.n_vertices ≠ 0) && writeOptions.check Flag.VertexTexCoord
  assign := fun chunk_header =>
    { chunk_header with
      name_ := false, entity_ := F.Entity_Vertex, type_ := F.Type_Texcoord,
      signed_ := is_signed .float, float_ := is_float .float,
      dim_ := dim F 2, bits_ := bits F .float }
  payload := fun _ =>
    (List.range header.n_vertices_).map fun i =>
      Record.vec2f (be.texcoord (VertexHandle i)) swap_required

/-- Lines 320 to 343: write halfedge data. `_be.n_edges()*4` is a `size_t`
product (64 bits); `nE = header.n_edges_*2` is an `unsigned int` product. -/
def write_halfedge_topology (F : Decls) (be : BaseExporter) (header : Header)
    (swap_required : Bool) : Block where
  cond := decide (be.n_edges ≠ 0)
  assign := fun chunk_header =>
    { chunk_header with
      reserved_ := 0, name_ := false, entity_ := F.Entity_Halfedge,
      type_ := F.Type_Topology, signed_ := true, float_ := true,
      dim_ := F.Dim_3D,
      bits_ := needed_bits F (be.n_edges * 4 % 18446744073709551616) }
  payload := fun chunk_header =>
    ((List.range (header.n_edges_ * 2 % 4294967296)).map fun i =>
      [ Record.integer (be.get_next_halfedge_id (HalfedgeHandle i)) chunk_header.bits_
          swap_required,
        Record.integer (be.get_to_vertex_id (HalfedgeHandle i)) chunk_header.bits_
          swap_required,
        Record.integer (be.get_face_id (HalfedgeHandle i)) chunk_header.bits_
          swap_required ]).flatten

/-- Lines 347 to 366: write face texture coords (per halfedge). -/
def write_halfedge_texcoord (F : Decls) (be : BaseExporter) (writeOptions : Options)
    (header : Header) (swap_required : Bool) : Block where
  cond := decide (version_ F > F.mk_version 2 1) && decide (be.n_edges ≠ 0)
    && writeOptions.check Flag.FaceTexCoord
  assign := fun chunk_header =>
    { chunk_header with
      name_ := false, entity_ := F.Entity_Halfedge, type_ := F.Type_Texcoord,
      signed_ := is_signed .float, float_ := is_float .float,
      dim_ := dim F 2, bits_ := bits F .float }
  payload := fun _ =>
    (List.range (header.n_edges_ * 2 % 4294967296)).map fun i =>
      Record.vec2f (be.texcoord_halfedge (HalfedgeHandle i)) swap_required

/-- Lines 370 to 384: write vertex topology (outgoing halfedge). -/
def write_vertex_topology (F : Decls) (be : BaseExporter) (header : Header)
    (swap_required : Bool) : Block where
  cond := decide (be.n_vertices ≠ 0)
  assign := fun chunk_header =>
    { chunk_header with
      reserved_ := 0, name_ := false, entity_ := F.Entity_Vertex,
      type_ := F.Type_Topology, signed_ := true, float_ := true,
      dim_ := F.Dim_1D,
      bits_ := needed_bits F (be.n_edges * 4 % 18446744073709551616) }
  payload := fun chunk_header =>
    (List.range header.n_vertices_).map fun i =>
      Record.integer (be.get_halfedge_id (VertexHandle i)) chunk_header.bits_ swap_required

/-- Lines 390 to 406: write face topology; the block is not guarded. -/
def write_face_topology (F : Decls) (be : BaseExporter) (header : Header)
    (swap_required : Bool) : Block where
  cond := true
  assign := fun chunk_header =>
    { chunk_header with
      name_ := false, entity_ := F.Entity_Face,
      type_ := F.Type_Topology, signed_ := true, float_ := true,
      dim_ := F.Dim_1D,
      bits_ := needed_bits F (be.n_edges * 4 % 18446744073709551616) }
  payload := fun chunk_header =>
    (List.range header.n_faces_).map fun i =>
      Record.integer (be.get_halfedge_id_face (FaceHandle i)) chunk_header.bits_
        swap_required

/-- Lines 410 to 457: write face normals. -/
def write_face_normal (F : Decls) (be : BaseExporter) (writeOptions : Options)
    (header : Header) (swap_required : Bool) : Block where
  cond := decide (be.n_faces ≠ 0) && be.has_face_normals
    && writeOptions.check Flag.FaceNormal
  assign := fun chunk_header =>
    if be.is_normal_double then
      { chunk_header with
        name_ := false, entity_ := F.Entity_Face, type_ := F.Type_Normal,
        signed_ := is_signed .double, float_ := is_float .double,
        dim_ := dim F 3, bits_ := bits F .double }
    else
      { chunk_header with
        name_ := false, entity_ := F.Entity_Face, type_ := F.Type_Normal,
        signed_ := is_signed .float, float_ := is_float .float,
        dim_ := dim F 3, bits_ := bits F .float }
  payload := fun _ =>
    if be.is_normal_double then
      (List.range header.n_faces_).map fun i =>
        Record.vec3d (be.normald_face (FaceHandle i)) swap_required
    else
      (List.range header.n_faces_).map fun i =>
        Record.vec3f (be.normal_face (FaceHandle i)) swap_required

/-- Lines 462 to 491: write face color. -/
def write_face_color (F : Decls) (be : BaseExporter) (writeOptions : Options)
    (header : Header) (swap_required : Bool) : Block where
  cond := decide (be.n_faces ≠ 0) && be.has_face_colors
    && writeOptions.check Flag.FaceColor
  assign := fun chunk_header =>
    { chunk_header with
      name_ := false, entity_ := F.Entity_Face, type_ := F.Type_Color,
      signed_ := is_signed .uchar, float_ := is_float .uchar,
      dim_ := dim F 3, bits_ := bits F .uchar }
  payload := fun _ =>
    (List.range header.n_faces_).map fun i =>
      Record.vec3uc (be.color_face (FaceHandle i)) swap_required

/-- Lines 494 to 510: write vertex status. -/
def write_vertex_status (F : Decls) (be : BaseExporter) (writeOptions : Options)
    (header : Header) (swap_required : Bool) : Block where
  cond := decide (be.n_vertices ≠ 0) && be.has_vertex_status
    && writeOptions.check Flag.Status
  assign := fun chunk_header =>
    { chunk_header with
      name_ := false, entity_ := F.Entity_Vertex, type_ := F.Type_Status,
      signed_ := false, float_ := false,
      dim_ := F.Dim_1D, bits_ := bits F .status }
  payload := fun _ =>
    (List.range header.n_vertices_).map fun i =>
      Record.status (be.status (VertexHandle i)) swap_required

/-- Lines 513 to 529: write edge status. -/
def write_edge_status (F : Decls) (be : BaseExporter) (writeOptions : Options)
    (header : Header) (swap_required : Bool) : Block where
  cond := decide (be.n_edges ≠ 0) && be.has_edge_status
    && writeOptions.check Flag.Status
  assign := fun chunk_header =>
    { chunk_header with
      name_ := false, entity_ := F.Entity_Edge, type_ := F.Type_Status,
      signed_ := false, float_ := false,
      dim_ := F.Dim_1D, bits_ := bits F .status }
  payload := fun _ =>
    (List.range header.n_edges_).map fun i =>
      Record.status (be.status_edge (EdgeHandle i)) swap_required

/-- Lines 532 to 548: write halfedge status. -/
def write_halfedge_status (F : Decls) (be : BaseExporter) (writeOptions : Options)
    (header : Header) (swap_required : Bool) : Block where
  cond := decide (be.n_edges ≠ 0) && be.has_halfedge_status
    && writeOptions.check Flag.Status
  assign := fun chunk_header =>
    { chunk_header with
      name_ := false, entity_ := F.Entity_Halfedge, type_ := F.Type_Status,
      signed_ := false, float_ := false,
      dim_ := F.Dim_1D, bits_ := bits F .status }
  payload := fun _ =>
    (List.range (header.n_edges_ * 2 % 4294967296)).map fun i =>
      Record.status (be.status_halfedge (HalfedgeHandle i)) swap_required

/-- Lines 551 to 567: write face status. -/
def write_face_status (F : Decls) (be : BaseExporter) (writeOptions : Options)
    (header : Header) (swap_required : Bool) : Block where
  cond := decide (be.n_faces ≠ 0) && be.has_face_status
    && writeOptions.check Flag.Status
  assign := fun chunk_header =>
    { chunk_header with
      name_ := false, entity_ := F.Entity_Face, type_ := F.Type_Status,
      signed_ := false, float_ := false,
      dim_ := F.Dim_1D, bits_ := bits F .status }
  payload := fun _ =>
    (List.range header.n_faces_).map fun i =>
      Record.status (be.status_face (FaceHandle i)) swap_required

/-- The built-in chunks of `write_binary` in the order of the source text,
lines 215 to 567. -/
def builtin_blocks (F : Decls) (be : BaseExporter) (writeOptions : Options)
    (header : Header) (swap_required : Bool) : List Block :=
  [ write_vertex_position F be header swap_required,
    write_vertex_normal F be writeOptions header swap_required,
    write_vertex_color F be writeOptions header swap_required,
    write_vertex_texcoord F be writeOptions header swap_required,
    write_halfedge_topology F be header swap_required,
    write_halfedge_texcoord F be writeOptions header swap_required,
    write_vertex_topology F be header swap_required,
    write_face_topology F be header swap_required,
    write_face_normal F be writeOptions header swap_required,
    write_face_color F be writeOptions header swap_required,
    write_vertex_status F be writeOptions header swap_required,
    write_edge_status F be writeOptions header swap_required,
    write_halfedge_status F be writeOptions header swap_required,
    write_face_status F be writeOptions header swap_required ]

/-- The test `std::string::empty()`. -/
def empty (s : String) : Bool := s.data.isEmpty

/-- The test `name().size() > 1 && name()[1] == ':'` of the `store_property`
lambda: the name is of the form `?:*`. -/
def reserved_name (s : String) : Bool :=
  decide (s.data.length > 1) && (s.data.get? 1 == some ':')

/-- The function `_OMWriter_::store_binary_custom_chunk`: the store calls it performs. `chdr`
is the content of the local variable `chdr` before the assignments, of which
only `reserved_` survives. -/
def store_binary_custom_chunk (F : Decls) (bp : BaseProperty) (entity : Nat)
    (swap : Bool) (chdr : Chunk.Header) : List Record :=
  if !bp.persistent || empty bp.name then []
  else
    [ Record.chunk_header
        { chdr with
          name_ := true, entity_ := entity, type_ := F.Type_Custom,
          signed_ := false, float_ := false,
          dim_ := F.Dim_1D, bits_ := bp.element_size } swap,
      Record.property_name bp.name swap ]
    ++ (if version_ F > F.mk_version 2 1 then
          [Record.property_name bp.get_storage_name swap] else [])
    ++ [ Record.integer (bp.size_of : Int) F.Integer_32 swap,
         Record.property bp swap ]

/-- The lambda `store_property` of `write_binary`, lines 573 to 587, on the
range of properties of one element kind. -/
def store_property (F : Decls) (swap_required : Bool) (chdr : Chunk.Header) :
    List (Option BaseProperty) → Nat → List Record
  | [], _ => []
  | prop :: rest, ent =>
    (match prop with
      | none => []
      | some p =>
        if empty p.name || reserved_name p.name then []
        else store_binary_custom_chunk F p ent swap_required chdr)
    ++ store_property F swap_required chdr rest ent

/-- The five calls of `store_property`, lines 589 to 598. -/
def write_custom (F : Decls) (kernel : BaseKernel) (swap_required : Bool)
    (chdr : Chunk.Header) : List Record :=
  store_property F swap_required chdr kernel.vprops F.Entity_Vertex
  ++ store_property F swap_required chdr kernel.fprops F.Entity_Face
  ++ store_property F swap_required chdr kernel.eprops F.Entity_Edge
  ++ store_property F swap_required chdr kernel.hprops F.Entity_Halfedge
  ++ store_property F swap_required chdr kernel.mprops F.Entity_Mesh

/-- The chunk header after `memset(&chunk_header, 0, sizeof(chunk_header))`,
`name_ = false`, `entity_ = Entity_Sentinel`, lines 601 to 603. -/
def sentinel (F : Decls) : Chunk.Header :=
  { reserved_ := 0, name_ := false, entity_ := F.Entity_Sentinel, type_ := 0,
    signed_ := false, float_ := false, dim_ := 0, bits_ := 0 }

/-- The indeterminate initial contents of the automatic variables
`chunk_header` (of `write_binary`) and `chdr` (of `store_binary_custom_chunk`). -/
structure Indeterminate where
  chunk_header : Chunk.Header
  chdr : Chunk.Header

/-- What a call of `write_binary` does: the store calls performed on `_os`, in
order, and the value returned; `rc` is `none` when the call does not return
because the null pointer `_be.kernel()` is dereferenced (line 589). -/
structure Result where
  os : List Record
  rc : Option Bool

/-- The value of `swap_required`, lines 186 and 187. -/
def swap_required (host : Endian) (writeOptions : Options) : Bool :=
  writeOptions.check Flag.Swap || (host == Endian.MSB)

/-- The file header assembled in lines 195 to 203. `int(_be.n_vertices())`
stored in a `uint32` keeps the count modulo `2^32`. -/
def file_header (F : Decls) (be : BaseExporter) : Header :=
  { magic_0 := 'O', magic_1 := 'M',
    mesh_ := if be.is_triangle_mesh then 'T' else 'P',
    version_ := version_ F,
    n_vertices_ := be.n_vertices % 4294967296,
    n_faces_ := be.n_faces % 4294967296,
    n_edges_ := be.n_edges % 4294967296 }

/-- The function `_OMWriter_::write_binary`, on a host of byte order `host`. -/
def write_binary (F : Decls) (host : Endian) (be : BaseExporter)
    (writeOptions : Options) (u : Indeterminate) : Result :=
  let swap_required := swap_required host writeOptions
  let header := file_header F be
  let os := [Record.header header swap_required]
  let os := os ++ (run_blocks swap_required
      (builtin_blocks F be writeOptions header swap_required) u.chunk_header).1
  if writeOptions.check Flag.Custom then
    match be.kernel with
    | none => { os := os, rc := none }
    | some kernel =>
      let os := os ++ write_custom F kernel swap_required u.chdr
      { os := os ++ [Record.chunk_header (sentinel F) swap_required], rc := some true }
  else
    { os := os ++ [Record.chunk_header (sentinel F) swap_required], rc := some true }

/-! ## Bytes -/

/-- The bytes of a `size` byte scalar, least significant byte first. -/
def le_bytes (size value : Nat) : List Nat :=
  (List.range size).map fun k => value / 256 ^ k % 256

/-- The bytes of a scalar in the memory of the host. -/
def host_bytes (host : Endian) (size value : Nat) : List Nat :=
  match host with
  | Endian.LSB => le_bytes size value
  | Endian.MSB => (le_bytes size value).reverse

/-- Modelled from the spec: the Endianness Normalizer at write time, the binary
`store` of one scalar (the `store` functions are declared outside
`OMWriter.cc`): the bytes of the scalar as the host holds them, reversed when
`swap` is set. -/
def store_scalar (host : Endian) (swap : Bool) (size value : Nat) : List Nat :=
  if swap then (host_bytes host size value).reverse else host_bytes host size value

/-- The number of bytes of an integer stored at the width of an `Integer_Size`
code. -/
def integer_size (F : Decls) (code : Nat) : Nat :=
  if code = F.Integer_8 then 1
  else if code = F.Integer_16 then 2
  else if code = F.Integer_32 then 4
  else 8

/-- Modelled from the spec: the bytes one store call writes (the `store`
overloads are declared outside `OMWriter.cc`). The file header is stored field
by field, a chunk header as one packed 16 bit value, a vector component by
component, an integer cut to the given width (two's complement), a string as
its length followed by its characters, a property element by element. -/
def Record.bytes (F : Decls) (host : Endian) : Record → List Nat
  | .header h swap =>
    store_scalar host swap 1 h.magic_0.toNat ++ store_scalar host swap 1 h.magic_1.toNat
    ++ store_scalar host swap 1 h.mesh_.toNat ++ store_scalar host swap 1 h.version_
    ++ store_scalar host swap 4 h.n_vertices_ ++ store_scalar host swap 4 h.n_faces_
    ++ store_scalar host swap 4 h.n_edges_
  | .chunk_header h swap => store_scalar host swap 2 (F.pack h)
  | .vec3f v swap => ((List.ofFn v.values_).map fun x => store_scalar host swap 4 x.val).flatten
  | .vec3d v swap => ((List.ofFn v.values_).map fun x => store_scalar host swap 8 x.val).flatten
  | .vec3uc v swap => ((List.ofFn v.values_).map fun x => store_scalar host swap 1 x.val).flatten
  | .vec2f v swap => ((List.ofFn v.values_).map fun x => store_scalar host swap 4 x.val).flatten
  | .integer v size swap =>
    store_scalar host swap (integer_size F size)
      (v % (2 : Int) ^ (8 * integer_size F size)).toNat
  | .status s swap => store_scalar host swap F.sizeof_status s
  | .property_name s swap =>
    store_scalar host swap F.sizeof_strlen s.data.length
    ++ s.data.map fun c => c.toNat % 256
  | .property bp swap =>
    (bp.elements.map fun e => store_scalar host swap e.size e.value).flatten

/-- The byte stream: the bytes of the store calls, in order. -/
def serialize (F : Decls) (host : Endian) (os : List Record) : List Nat :=
  (os.map (Record.bytes F host)).flatten

/-! ## Reading the stream as a sequence of chunks -/

/-- Whether the call stores a chunk header. -/
def Record.is_chunk_header : Record → Bool
  | .chunk_header _ _ => true
  | _ => false

/-- The chunks of a stream: every stored chunk header together with the store
calls that follow it up to the next chunk header. -/
def chunks : List Record → List (Chunk.Header × List Record)
  | [] => []
  | .chunk_header h _ :: rest =>
    (h, rest.takeWhile fun r => !r.is_chunk_header) :: chunks rest
  | .header _ _ :: rest => chunks rest
  | .vec3f _ _ :: rest => chunks rest
  | .vec3d _ _ :: rest => chunks rest
  | .vec3uc _ _ :: rest => chunks rest
  | .vec2f _ _ :: rest => chunks rest
  | .integer _ _ _ :: rest => chunks rest
  | .status _ _ :: rest => chunks rest
  | .property_name _ _ :: rest => chunks rest
  | .property _ _ :: rest => chunks rest

/-- The chunk headers of a stream, in order. -/
def chunk_headers (os : List Record) : List Chunk.Header :=
  (chunks os).map Prod.fst

/-- The chunk a block writes when its guard holds. -/
def Block.chunk (b : Block) (chunk_header : Chunk.Header) :
    Chunk.Header × List Record :=
  (b.assign chunk_header, b.payload (b.assign chunk_header))

/-- The chunks written by a sequence of blocks. -/
def run_chunks : List Block → Chunk.Header → List (Chunk.Header × List Record)
  | [], _ => []
  | b :: bs, chunk_header =>
    if b.cond then b.chunk chunk_header :: run_chunks bs (b.assign chunk_header)
    else run_chunks bs chunk_header

/-- The stream is empty or begins with a chunk header. -/
def Headed (os : List Record) : Prop :=
  (os.takeWhile fun r => !r.is_chunk_header) = []

/-- No store call of the list stores a chunk header. -/
def Payload (os : List Record) : Prop :=
  ∀ r ∈ os, r.is_chunk_header = false

/-- The store calls of one chunk: the chunk header, then the payload. -/
def chunk_records (swap : Bool) (c : Chunk.Header × List Record) : List Record :=
  Record.chunk_header c.1 swap :: c.2

/-- The (entity kind, data kind) pair of a chunk. -/
def chunk_kind (c : Chunk.Header × List Record) : Nat × Nat :=
  (c.1.entity_, c.1.type_)

/-- The (entity kind, data kind) pairs of the built-in chunks in the order
Vertex-Position, Vertex-Normal, Vertex-Color, Vertex-Texcoord,
Halfedge-Topology, Halfedge-Texcoord, Vertex-Topology, Face-Topology,
Face-Normal, Face-Color, Vertex-Status, Edge-Status, Halfedge-Status,
Face-Status. -/
def builtin_order (F : Decls) : List (Nat × Nat) :=
  [ (F.Entity_Vertex, F.Type_Pos), (F.Entity_Vertex, F.Type_Normal),
    (F.Entity_Vertex, F.Type_Color), (F.Entity_Vertex, F.Type_Texcoord),
    (F.Entity_Halfedge, F.Type_Topology), (F.Entity_Halfedge, F.Type_Texcoord),
    (F.Entity_Vertex, F.Type_Topology), (F.Entity_Face, F.Type_Topology),
    (F.Entity_Face, F.Type_Normal), (F.Entity_Face, F.Type_Color),
    (F.Entity_Vertex, F.Type_Status), (F.Entity_Edge, F.Type_Status),
    (F.Entity_Halfedge, F.Type_Status), (F.Entity_Face, F.Type_Status) ]

/-- The properties attached to the kernel, each with the entity kind it is
stored under, in the order of the five `store_property` calls: vertex, face,
edge, halfedge, mesh. -/
def attached (F : Decls) (kernel : BaseKernel) : List (Nat × Option BaseProperty) :=
  kernel.vprops.map (Prod.mk F.Entity_Vertex)
  ++ kernel.fprops.map (Prod.mk F.Entity_Face)
  ++ kernel.eprops.map (Prod.mk F.Entity_Edge)
  ++ kernel.hprops.map (Prod.mk F.Entity_Halfedge)
  ++ kernel.mprops.map (Prod.mk F.Entity_Mesh)

/-- The filter of the specification on an attached property: it is non-null,
marked persistent, has a non-empty name, and its name is not reserved (reserved:
length greater than one and second character `:`). -/
def custom_written : Option BaseProperty → Bool
  | none => false
  | some p =>
    p.persistent && !p.name.data.isEmpty
      && !(decide (p.name.data.length > 1) && (p.name.data.get? 1 == some ':'))

/-- The Custom chunk of the specification for a property: the header (name flag
set, the entity kind, data kind Custom, unsigned, not float), then the name, the
storage-type tag when the format version is above 2.1, the 4 byte payload
length and the serialized property. -/
def custom_chunk (F : Decls) (swap : Bool) (chdr : Chunk.Header) (entity : Nat)
    (p : BaseProperty) : Chunk.Header × List Record :=
  ({ chdr with
      name_ := true, entity_ := entity, type_ := F.Type_Custom,
      signed_ := false, float_ := false, dim_ := F.Dim_1D, bits_ := p.element_size },
    Record.property_name p.name swap
      :: ((if version_ F > F.mk_version 2 1 then
            [Record.property_name p.get_storage_name swap] else [])
          ++ [Record.integer (p.size_of : Int) F.Integer_32 swap, Record.property p swap]))

/-- The store calls an attached property contributes according to the
specification: its Custom chunk when it passes the filter, nothing otherwise. -/
def custom_records (F : Decls) (swap : Bool) (chdr : Chunk.Header)
    (ep : Nat × Option BaseProperty) : List Record :=
  match ep.2 with
  | none => []
  | some p =>
    if custom_written (some p) then chunk_records swap (custom_chunk F swap chdr ep.1 p)
    else []

/-- The Custom chunks of the attached properties that pass the filter. -/
def custom_chunks (F : Decls) (swap : Bool) (chdr : Chunk.Header)
    (l : List (Nat × Option BaseProperty)) : List (Chunk.Header × List Record) :=
  l.filterMap fun ep =>
    match ep.2 with
    | none => none
    | some p =>
      if custom_written (some p) then some (custom_chunk F swap chdr ep.1 p) else none

/-- The properties `write_binary` visits: those of the kernel when the Custom
option is set, none otherwise. -/
def visited (F : Decls) (be : BaseExporter) (writeOptions : Options) :
    List (Nat × Option BaseProperty) :=
  if writeOptions.check Flag.Custom then
    match be.kernel with
    | none => []
    | some kernel => attached F kernel
  else []

/-- The (entity kind, data kind) pairs of the built-in chunks of a stream, in
the order they are written: the chunks that are neither Custom chunks nor the
Sentinel terminator. -/
def builtin_chunk_kinds (F : Decls) (os : List Record) : List (Nat × Nat) :=
  ((chunks os).filter fun c =>
    decide (c.1.type_ ≠ F.Type_Custom) && decide (c.1.entity_ ≠ F.Entity_Sentinel)).map
    chunk_kind

/-- The integer `v` is representable as a signed integer of the width of the
`Integer_Size` code. -/
def representable (F : Decls) (code : Nat) (v : Int) : Prop :=
  -(2 : Int) ^ (8 * integer_size F code - 1) ≤ v ∧ v < (2 : Int) ^ (8 * integer_size F code - 1)

instance representable.instDecidable (F : Decls) (code : Nat) (v : Int) :
    Decidable (representable F code v) := by
  unfold representable
  exact inferInstance

/-- The store calls of `write_binary` as a function of the value of
`swap_required`. -/
def write_binary_os_with (F : Decls) (be : BaseExporter) (writeOptions : Options)
    (u : Indeterminate) (sw : Bool) : List Record :=
  Record.header (file_header F be) sw
    :: ((run_blocks sw (builtin_blocks F be writeOptions (file_header F be) sw)
          u.chunk_header).1
      ++ (if writeOptions.check Flag.Custom then
            match be.kernel with
            | none => []
            | some kernel =>
              ((attached F kernel).map (custom_records F sw u.chdr)).flatten
                ++ [Record.chunk_header (sentinel F) sw]
          else [Record.chunk_header (sentinel F) sw]))

/-- The exporter `be` with other to-vertex ids. -/
def with_to_vertex_id (be : BaseExporter) (g : Int → Int) : BaseExporter :=
  { be with get_to_vertex_id := g }

/-- Every block of the list writes a payload without chunk headers. -/
def PayloadBlocks (bs : List Block) : Prop :=
  ∀ b ∈ bs, ∀ ch, Payload (b.payload ch)

/-! ## `_OMWriter_::write`, the stream-level and the file-name entry points -/

/-- Modelled from the spec: the operator `Options::operator+=`, declared in
`Options.hh`: the flag is set, every other flag keeps its value. -/
def Options.add (o : Options) (f : Flag) : Options :=
  ⟨fun g => if g = f then true else o.flags_ g⟩

/-- Modelled from the spec: the operator `Options::operator-=`, declared in
`Options.hh`: the flag is cleared, every other flag keeps its value. -/
def Options.sub (o : Options) (f : Flag) : Options :=
  ⟨fun g => if g = f then false else o.flags_ g⟩

/-- Modelled from the spec: the feature check `BaseWriter::check`, declared in
`BaseWriter.hh`: it fails when the options request an attribute the exporter
cannot supply (vertex normals, vertex texture coordinates, vertex colors, face
normals, face colors). -/
def check (be : BaseExporter) (opt : Options) : Bool :=
  (!opt.check Flag.VertexNormal || be.has_vertex_normals)
  && (!opt.check Flag.VertexTexCoord || be.has_vertex_texcoords)
  && (!opt.check Flag.VertexColor || be.has_vertex_colors)
  && (!opt.check Flag.FaceNormal || be.has_face_normals)
  && (!opt.check Flag.FaceColor || be.has_face_colors)

/-- The value of `tmpOptions` that the stream-level `write` passes to
`write_binary`, lines 150 to 155. -/
def stream_options (writeOptions : Options) : Options :=
  ((if !writeOptions.check Flag.Binary then writeOptions.add Flag.Binary
    else writeOptions).add Flag.LSB).sub Flag.MSB

/-- The function `_OMWriter_::write(std::ostream&, ...)`, lines 132 to 158: the
store calls performed on `_os` and the value returned. -/
def write (F : Decls) (host : Endian) (be : BaseExporter) (writeOptions : Options)
    (u : Indeterminate) : Result :=
  if !check be writeOptions then { os := [], rc := some false }
  else write_binary F host be (stream_options writeOptions) u

/-- The position `std::string::rfind(pat)` returns: the start of the last
occurrence of `pat` in `s`, `none` for `npos`. -/
def rfind (s pat : List Char) : Option Nat :=
  (List.range (s.length + 1)).reverse.find? fun i => pat.isPrefixOf (s.drop i)

/-- What a call of the file-name `write` does: whether the file was opened, the
store calls performed on the file stream, the value returned. -/
structure FileResult where
  opened : Bool
  os : List Record
  rc : Option Bool

/-- The function `_OMWriter_::write(const std::string&, ...)`, lines 94 to 127.
`is_open` is the outcome of opening the file for writing. -/
def write_file (F : Decls) (host : Endian) (is_open : Bool) (filename : String)
    (be : BaseExporter) (writeOptions : Options) (u : Indeterminate) : FileResult :=
  if be.kernel.isNone then { opened := false, os := [], rc := some false }
  else if (rfind filename.data ".om".data).isNone then
    { opened := false, os := [], rc := some false }
  else if !is_open then { opened := false, os := [], rc := some false }
  else
    { opened := true,
      os := (write F host be (writeOptions.add Flag.Binary) u).os,
      rc := (write F host be (writeOptions.add Flag.Binary) u).rc }

/-- The state of a `std::ostream`: the store calls that reached it and whether
it is still good. -/
structure ostream where
  written : List Record
  good : Bool

/-- One store call on a stream that accepts `capacity` store calls and fails
from then on: a call on a good stream with room is written, any other call
writes nothing and leaves the stream in the failed state. -/
def ostream.store (capacity : Nat) (s : ostream) (r : Record) : ostream :=
  if s.good && decide (s.written.length < capacity) then
    { written := s.written ++ [r], good := true }
  else { written := s.written, good := false }

/-- The stream-level `write` on a stream that accepts `capacity` store calls:
the final state of the stream and the value returned. No statement of
`write` or `write_binary` reads the state of the stream, so the store calls
issued are those of `write`. -/
def write_to (capacity : Nat) (F : Decls) (host : Endian) (be : BaseExporter)
    (writeOptions : Options) (u : Indeterminate) : ostream × Option Bool :=
  ((write F host be writeOptions u).os.foldl (ostream.store capacity) ⟨[], true⟩,
    (write F host be writeOptions u).rc)

/-! ## The value returned by `store_binary_custom_chunk` -/

/-- Modelled from the spec: the value a `store` call returns, the number of
bytes it writes (the `store` overloads are declared outside `OMWriter.cc`). -/
def Record.size (F : Decls) (r : Record) : Nat :=
  (Record.bytes F Endian.LSB r).length

/-- The value `_OMWriter_::store_binary_custom_chunk` returns: `bytes`, the sum
of the values returned by its store calls, lines 630 to 670. -/
def store_binary_custom_chunk_bytes (F : Decls) (bp : BaseProperty) (entity : Nat)
    (swap : Bool) (chdr : Chunk.Header) : Nat :=
  if !bp.persistent || empty bp.name then 0
  else
    Record.size F (Record.chunk_header
        { chdr with
          name_ := true, entity_ := entity, type_ := F.Type_Custom,
          signed_ := false, float_ := false,
          dim_ := F.Dim_1D, bits_ := bp.element_size } swap)
    + Record.size F (Record.property_name bp.name swap)
    + (if version_ F > F.mk_version 2 1 then
        Record.size F (Record.property_name bp.get_storage_name swap) else 0)
    + Record.size F (Record.integer (bp.size_of : Int) F.Integer_32 swap)
    + Record.size F (Record.property bp swap)

/-- The number a sequence of bytes encodes, least significant byte first. -/
def le_value : List Nat → Nat
  | [] => 0
  | b :: rest => b + 256 * le_value rest

/-! ## The writer with another value of the constant `version_` -/

/-- The block of lines 347 to 366 for a writer whose constant `version_` has
the value `version`; `write_halfedge_texcoord` is the block at `version_`. -/
def write_halfedge_texcoord_at (version : Nat) (F : Decls) (be : BaseExporter)
    (writeOptions : Options) (header : Header) (swap_required : Bool) : Block where
  cond := decide (version > F.mk_version 2 1) && decide (be.n_edges ≠ 0)
    && writeOptions.check Flag.FaceTexCoord
  assign := fun chunk_header =>
    { chunk_header with
      name_ := false, entity_ := F.Entity_Halfedge, type_ := F.Type_Texcoord,
      signed_ := is_signed .float, float_ := is_float .float,
      dim_ := dim F 2, bits_ := bits F .float }
  payload := fun _ =>
    (List.range (header.n_edges_ * 2 % 4294967296)).map fun i =>
      Record.vec2f (be.texcoord_halfedge (HalfedgeHandle i)) swap_required

/-- The function `store_binary_custom_chunk` for a writer whose constant
`version_` has the value `version`; `store_binary_custom_chunk` is the function
at `version_`. -/
def store_binary_custom_chunk_at (version : Nat) (F : Decls) (bp : BaseProperty)
    (entity : Nat) (swap : Bool) (chdr : Chunk.Header) : List Record :=
  if !bp.persistent || empty bp.name then []
  else
    [ Record.chunk_header
        { chdr with
          name_ := true, entity_ := entity, type_ := F.Type_Custom,
          signed_ := false, float_ := false,
          dim_ := F.Dim_1D, bits_ := bp.element_size } swap,
      Record.property_name bp.name swap ]
    ++ (if version > F.mk_version 2 1 then
          [Record.property_name bp.get_storage_name swap] else [])
    ++ [ Record.integer (bp.size_of : Int) F.Integer_32 swap,
         Record.property bp swap ]

/-! ## The class `VectorT` of `Vector11T.hh` -/

/-- The algorithm `std::transform(first1, last1, d_first, unary_op)` on a range
of `DIM` elements: the values stored through `d_first`. -/
def transform {Scalar : Type} {DIM : Nat} (first1 : Fin DIM → Scalar)
    (unary_op : Scalar → Scalar) : Fin DIM → Scalar :=
  fun i => unary_op (first1 i)

/-- The algorithm `std::transform(first1, last1, first2, d_first, binary_op)`
on ranges of `DIM` elements, for an operation that updates a captured variable
of type `σ`: the values stored through `d_first` and the final value of the
captured variable. The elements are visited from `first1` to `last1`; element
`i` of each input range is read before element `i` of the output is stored, so
that `d_first` may be `first1`. -/
def transform_capture {Scalar σ : Type} {DIM : Nat} (first1 first2 : Fin DIM → Scalar)
    (binary_op : σ → Scalar → Scalar → Scalar × σ) (s : σ) : (Fin DIM → Scalar) × σ :=
  (fun i =>
      (binary_op
        (((List.finRange DIM).take i.val).foldl
          (fun t j => (binary_op t (first1 j) (first2 j)).2) s)
        (first1 i) (first2 i)).1,
    (List.finRange DIM).foldl (fun t j => (binary_op t (first1 j) (first2 j)).2) s)

/-- The algorithm `std::transform(first1, last1, first2, d_first, binary_op)`
for an operation without captured variables. -/
def transform_binary {Scalar : Type} {DIM : Nat} (first1 first2 : Fin DIM → Scalar)
    (binary_op : Scalar → Scalar → Scalar) : Fin DIM → Scalar :=
  fun i => binary_op (first1 i) (first2 i)

/-- The algorithm `std::accumulate(first, last, init)`: the elements of the
range are added to `init` from left to right. -/
def accumulate {Scalar : Type} [Add Scalar] (range : List Scalar) (init : Scalar) : Scalar :=
  range.foldl (fun acc x => acc + x) init

/-- The element `*std::max_element(first, last, comp)` of a non-empty range
whose first element is `largest`: the first element that no other element
exceeds according to `comp`. -/
def max_element {Scalar : Type} (comp : Scalar → Scalar → Bool) :
    Scalar → List Scalar → Scalar
  | largest, [] => largest
  | largest, x :: rest => max_element comp (if comp largest x then x else largest) rest

/-- The function `std::min(a, b)`: `(b < a) ? b : a`. -/
def std_min {Scalar : Type} [LinearOrder Scalar] (a b : Scalar) : Scalar :=
  if b < a then b else a

/-- The function `std::max(a, b)`: `(a < b) ? b : a`. -/
def std_max {Scalar : Type} [LinearOrder Scalar] (a b : Scalar) : Scalar :=
  if a < b then b else a

/-- Lines 333 to 339: unary minus. The local `v` is default-constructed ("creates
uninitialized values"); `v` is its content. `std::transform` reads the range
`v.values_` and stores into `v.values_`; `values_` of the receiver is not read. -/
def VectorT.operator_minus {Scalar : Type} {DIM : Nat} [Neg Scalar]
    (_self : VectorT Scalar DIM) (v : VectorT Scalar DIM) : VectorT Scalar DIM :=
  ⟨transform v.values_ fun s => -s⟩

/-- Lines 423 to 427: `l1_norm`, for `DIM = n + 1` (the code reads `values_[0]`). -/
def VectorT.l1_norm {Scalar : Type} {n : Nat} [Add Scalar] (self : VectorT Scalar (n + 1)) :
    Scalar :=
  accumulate (List.ofFn fun i : Fin n => self.values_ i.succ) (self.values_ 0)

/-- Lines 446 to 453: `max_abs`, for `DIM = n + 1` (the code dereferences the
result of `std::max_element`). -/
def VectorT.max_abs {Scalar : Type} {n : Nat} [LinearOrderedAddCommGroup Scalar]
    (self : VectorT Scalar (n + 1)) : Scalar :=
  abs (max_element (fun a b => decide (abs a < abs b)) (self.values_ 0)
    (List.ofFn fun i : Fin n => self.values_ i.succ))

/-- Lines 429 to 432: `l8_norm`. -/
def VectorT.l8_norm {Scalar : Type} {n : Nat} [LinearOrderedAddCommGroup Scalar]
    (self : VectorT Scalar (n + 1)) : Scalar :=
  self.max_abs

/-- Lines 469 to 472: `mean`; the `int` constant `DIM` is converted to the type
of the scalar and `/` is the division of that type. -/
def VectorT.mean {Scalar : Type} {n : Nat} [Add Scalar] [Div Scalar] [NatCast Scalar]
    (self : VectorT Scalar (n + 1)) : Scalar :=
  self.l1_norm / ((n + 1 : Nat) : Scalar)

/-- Lines 483 to 492: `minimize`; the value of the receiver after the call
(the value returned is a reference to the receiver). -/
def VectorT.minimize {Scalar : Type} {DIM : Nat} [LinearOrder Scalar]
    (self _rhs : VectorT Scalar DIM) : VectorT Scalar DIM :=
  ⟨transform_binary self.values_ _rhs.values_ fun l r => std_min l r⟩

/-- Lines 494 to 509: `minimized`; the value of the receiver after the call and
the value returned. -/
def VectorT.minimized {Scalar : Type} {DIM : Nat} [LinearOrder Scalar]
    (self _rhs : VectorT Scalar DIM) : VectorT Scalar DIM × Bool :=
  let t := transform_capture self.values_ _rhs.values_
    (fun (result : Bool) l r => if l < r then (l, result) else (r, true)) false
  (⟨t.1⟩, t.2)

/-- Lines 511 to 520: `maximize`; the value of the receiver after the call. -/
def VectorT.maximize {Scalar : Type} {DIM : Nat} [LinearOrder Scalar]
    (self _rhs : VectorT Scalar DIM) : VectorT Scalar DIM :=
  ⟨transform_binary self.values_ _rhs.values_ fun l r => std_max l r⟩

/-- Lines 522 to 537: `maximized`; the value of the receiver after the call and
the value returned. -/
def VectorT.maximized {Scalar : Type} {DIM : Nat} [LinearOrder Scalar]
    (self _rhs : VectorT Scalar DIM) : VectorT Scalar DIM × Bool :=
  let t := transform_capture self.values_ _rhs.values_
    (fun (result : Bool) l r => if l > r then (l, result) else (r, true)) false
  (⟨t.1⟩, t.2)

/-- Lines 539 to 542: the component-wise `min`, `vector_type(*this).minimize(_rhs)`:
a copy of the receiver is minimized and returned. -/
def VectorT.min {Scalar : Type} {DIM : Nat} [LinearOrder Scalar]
    (self _rhs : VectorT Scalar DIM) : VectorT Scalar DIM :=
  VectorT.minimize (VectorT.mk self.values_) _rhs

/-- Lines 544 to 547: the component-wise `max`. -/
def VectorT.max {Scalar : Type} {DIM : Nat} [LinearOrder Scalar]
    (self _rhs : VectorT Scalar DIM) : VectorT Scalar DIM :=
  VectorT.maximize (VectorT.mk self.values_) _rhs

/-- Lines 553 to 560: `apply`. The local `result` is default-constructed;
`result` is its content. `std::transform` reads the range `result.values_` and
stores into `result.values_`; `values_` of the receiver is not read. -/
def VectorT.apply {Scalar : Type} {DIM : Nat} (_self : VectorT Scalar DIM)
    (_func : Scalar → Scalar) (result : VectorT Scalar DIM) : VectorT Scalar DIM :=
  ⟨transform result.values_ _func⟩

/-- The algorithm `std::accumulate(first, last, init, op)`: `op` combines the
accumulated value with the elements of the range from left to right. -/
def accumulate_op {Scalar Result : Type} (range : List Scalar) (init : Result)
    (op : Result → Scalar → Result) : Result :=
  range.foldl op init

/-- The algorithm `std::lexicographical_compare(first1, last1, first2, last2)`:
at the first position where one element is less than the other the range with
the smaller element is the smaller one; a range that ends first is smaller. -/
def lexicographical_compare {Scalar : Type} [LinearOrder Scalar] :
    List Scalar → List Scalar → Bool
  | [], [] => false
  | [], _ :: _ => true
  | _ :: _, [] => false
  | x :: xs, y :: ys =>
    if x < y then true else if y < x then false else lexicographical_compare xs ys

/-- The algorithm `std::equal(first1, last1, first2)`: every element of the
first range equals the element of the second range at the same position. The
second range is at least as long as the first. -/
def equal {Scalar : Type} [DecidableEq Scalar] : List Scalar → List Scalar → Bool
  | [], _ => true
  | _ :: _, [] => false
  | x :: xs, y :: ys => if x = y then equal xs ys else false

/-- Lines 190 to 193: `operator==`. -/
def VectorT.operator_eq {Scalar : Type} {DIM : Nat} [DecidableEq Scalar]
    (self _rhs : VectorT Scalar DIM) : Bool :=
  equal (List.ofFn _rhs.values_) (List.ofFn self.values_)

/-- Lines 195 to 198: `operator!=`. -/
def VectorT.operator_ne {Scalar : Type} {DIM : Nat} [DecidableEq Scalar]
    (self _rhs : VectorT Scalar DIM) : Bool :=
  !equal (List.ofFn _rhs.values_) (List.ofFn self.values_)

/-- Lines 341 to 353: `operator%`, the cross product, for `DIM == 3` and both
operands of one scalar type. -/
def VectorT.operator_mod {Scalar : Type} [Mul Scalar] [Sub Scalar]
    (self _rhs : VectorT Scalar 3) : VectorT Scalar 3 :=
  ⟨![self.values_ 1 * _rhs.values_ 2 - self.values_ 2 * _rhs.values_ 1,
     self.values_ 2 * _rhs.values_ 0 - self.values_ 0 * _rhs.values_ 2,
     self.values_ 0 * _rhs.values_ 1 - self.values_ 1 * _rhs.values_ 0]⟩

/-- Lines 355 to 367: `operator|`, the scalar product, for `DIM == 3` and both
operands of one scalar type: `p` starts as `values_[0] * _rhs[0]` and the loop
adds `values_[i] * _rhs[i]` for `i = 1, 2`. -/
def VectorT.operator_or {Scalar : Type} [Add Scalar] [Mul Scalar]
    (self _rhs : VectorT Scalar 3) : Scalar :=
  ([1, 2] : List (Fin 3)).foldl (fun p i => p + self.values_ i * _rhs.values_ i)
    (self.values_ 0 * _rhs.values_ 0)

/-- Lines 374 to 380: `sqrnorm`, for `DIM = n + 1` (the code reads `values_[0]`). -/
def VectorT.sqrnorm {Scalar : Type} {n : Nat} [Add Scalar] [Mul Scalar]
    (self : VectorT Scalar (n + 1)) : Scalar :=
  accumulate_op (List.ofFn fun i : Fin n => self.values_ i.succ)
    (self.values_ 0 * self.values_ 0) fun l r => l + r * r

/-- Lines 573 to 578: `operator<`, the lexicographical comparison. -/
def VectorT.operator_lt {Scalar : Type} {DIM : Nat} [LinearOrder Scalar]
    (self _rhs : VectorT Scalar DIM) : Bool :=
  lexicographical_compare (List.ofFn self.values_) (List.ofFn _rhs.values_)

/-- Lines 614 to 620: the free function `dot`. -/
def dot {Scalar : Type} [Add Scalar] [Mul Scalar] (_v1 _v2 : VectorT Scalar 3) : Scalar :=
  _v1.operator_or _v2

/-- Lines 623 to 630: the free function `cross`. -/
def cross {Scalar : Type} [Mul Scalar] [Sub Scalar] (_v1 _v2 : VectorT Scalar 3) :
    VectorT Scalar 3 :=
  _v1.operator_mod _v2

/-- The type `Vec4f`. -/
abbrev Vec4f := VectorT float 4

/-- The `float` quotient `x / d` of two integers that `float` represents exactly
(`x < 2^24`, `0 < d < 2^24`), as the bit pattern of the result: IEEE 754 binary32
division, round to nearest, ties to even. The quotient is 0 or lies in
`[2^-24, 2^24)`: `s` is the scale with `2^23 <= x * 2^s / d < 2^24`, `m` the
quotient `x * 2^s / d` rounded to an integer, the result is `m * 2^-s`. -/
def float_div (x d : Nat) : float :=
  if x = 0 then 0
  else
    let s := ((List.range 48).find? fun s => decide (d * 2 ^ 23 ≤ x * 2 ^ s)).getD 0
    let q := x * 2 ^ s / d
    let r := x * 2 ^ s % d
    let m := if 2 * r < d then q else if d < 2 * r then q + 1
      else if q % 2 = 0 then q else q + 1
    ⟨((150 - s) * 2 ^ 23 + (m - 2 ^ 23)) % 4294967296, Nat.mod_lt _ (by decide)⟩

/-- The magnitude of the finite `float` with the given bit pattern, in units of
`2^-150`: `M * 2^-149` for a subnormal, `(2^23 + M) * 2^(E - 150)` otherwise, for
the exponent field `E` and the fraction field `M`. -/
def float_numerator (f : float) : Nat :=
  if f.val / 2 ^ 23 % 256 = 0 then f.val % 2 ^ 23 * 2
  else (2 ^ 23 + f.val % 2 ^ 23) * 2 ^ (f.val / 2 ^ 23 % 256)

/-- The value of the finite `float` with the given bit pattern. -/
def float_value (f : float) : ℚ :=
  if f.val / 2 ^ 31 = 1 then -((float_numerator f : ℚ) / 2 ^ 150)
  else (float_numerator f : ℚ) / 2 ^ 150

/-- Lines 749 to 755: the literal operator `_htmlColor`; the operand of `/` is
an `unsigned long long` of at most 255, converted to `float` without rounding. -/
def _htmlColor (raw_color : Nat) : Vec4f :=
  ⟨![float_div ((raw_color >>> 24) &&& 0xFF) 255,
     float_div ((raw_color >>> 16) &&& 0xFF) 255,
     float_div ((raw_color >>> 8) &&& 0xFF) 255,
     float_div ((raw_color >>> 0) &&& 0xFF) 255]⟩

/-- Modelled from the spec: the handle of the opposite half-edge (the halfedge
kernel is declared outside `OMWriter.cc`): the two half-edges of an edge have
the ids `2 e` and `2 e + 1`. -/
def opposite_halfedge (h : Int) : Int :=
  if h % 2 = 0 then h + 1 else h - 1

/-- The next outgoing half-edge around the from-vertex of the half-edge `h`. -/
def BaseExporter.rotate (be : BaseExporter) (h : Int) : Int :=
  be.get_next_halfedge_id (opposite_halfedge h)

/-- Modelled from the spec: what makes the export surface that of a mesh (the
halfedge kernel is declared outside `OMWriter.cc`). The element counts fit `int`
handles and every face has a half-edge of its own. For every half-edge `h`: the
next half-edge id, the to-vertex id and the face id (`-1` on the boundary) are
valid; the next half-edge starts where `h` ends; the from-vertex of `h` has an
outgoing half-edge, from which `h` is reached by rotating around the vertex. For
every vertex: its outgoing half-edge id is valid or `-1` (isolated vertex), and a
valid one starts at the vertex. For every face: its half-edge id is valid. -/
def BaseExporter.is_mesh (be : BaseExporter) : Prop :=
  be.n_vertices ≤ 2147483648 ∧ 2 * be.n_edges ≤ 2147483648
  ∧ be.n_faces ≤ 2 * be.n_edges
  ∧ (∀ h : Nat, h < 2 * be.n_edges →
      (0 ≤ be.get_next_halfedge_id (Int.ofNat h)
        ∧ be.get_next_halfedge_id (Int.ofNat h) < 2 * (be.n_edges : Int))
      ∧ (0 ≤ be.get_to_vertex_id (Int.ofNat h)
        ∧ be.get_to_vertex_id (Int.ofNat h) < (be.n_vertices : Int))
      ∧ (-1 ≤ be.get_face_id (Int.ofNat h)
        ∧ be.get_face_id (Int.ofNat h) < (be.n_faces : Int))
      ∧ be.get_to_vertex_id (opposite_halfedge (be.get_next_halfedge_id (Int.ofNat h)))
          = be.get_to_vertex_id (Int.ofNat h)
      ∧ 0 ≤ be.get_halfedge_id (be.get_to_vertex_id (opposite_halfedge (Int.ofNat h)))
      ∧ ∃ k : Nat, k < 2 * be.n_edges ∧
          (be.rotate)^[k]
            (be.get_halfedge_id (be.get_to_vertex_id (opposite_halfedge (Int.ofNat h))))
            = Int.ofNat h)
  ∧ (∀ v : Nat, v < be.n_vertices →
      -1 ≤ be.get_halfedge_id (Int.ofNat v)
      ∧ be.get_halfedge_id (Int.ofNat v) < 2 * (be.n_edges : Int)
      ∧ (0 ≤ be.get_halfedge_id (Int.ofNat v) →
          be.get_to_vertex_id (opposite_halfedge (be.get_halfedge_id (Int.ofNat v)))
            = Int.ofNat v))
  ∧ (∀ f : Nat, f < be.n_faces →
      0 ≤ be.get_halfedge_id_face (Int.ofNat f)
      ∧ be.get_halfedge_id_face (Int.ofNat f) < 2 * (be.n_edges : Int))

instance BaseExporter.instDecidableIsMesh (be : BaseExporter) : Decidable be.is_mesh := by
  unfold BaseExporter.is_mesh
  exact inferInstance

/-! ## Concrete inputs -/

/-- An instance of the declarations of `OMFormat.hh`, to evaluate the writer on
concrete inputs. -/
def sample_decls : Decls where
  Entity_Vertex := 0
  Entity_Mesh := 1
  Entity_Face := 2
  Entity_Edge := 4
  Entity_Halfedge := 6
  Entity_Sentinel := 7
  Type_Pos := 0
  Type_Normal := 1
  Type_Texcoord := 2
  Type_Status := 3
  Type_Color := 4
  Type_Custom := 6
  Type_Topology := 7
  Dim_1D := 0
  Dim_2D := 1
  Dim_3D := 2
  Integer_8 := 0
  Integer_16 := 1
  Integer_32 := 2
  Integer_64 := 3
  Float_32 := 0
  Float_64 := 1
  mk_version := fun major minor => major % 8 * 32 + minor % 32
  bits_status := 2
  sizeof_status := 4
  pack := fun h =>
    (if h.name_ then 1 else 0) + 2 * (h.entity_ % 8) + 16 * (h.type_ % 16)
      + 256 * (if h.signed_ then 1 else 0) + 512 * (if h.float_ then 1 else 0)
      + 1024 * (h.dim_ % 8) + 8192 * (h.bits_ % 4)
  sizeof_strlen := 1

/-- The options value with no flag set. -/
def no_options : Options := ⟨fun _ => false⟩

/-- The options value with exactly the Custom flag set. -/
def custom_options : Options := ⟨fun f => decide (f = Flag.Custom)⟩

/-- A value for the indeterminate variables. -/
def sample_indeterminate : Indeterminate :=
  { chunk_header := ⟨0, false, 0, 0, false, false, 0, 0⟩,
    chdr := ⟨0, false, 0, 0, false, false, 0, 0⟩ }

/-- The `i`-th entry of a table indexed by a handle, `d` outside of it. -/
def lookup {α : Type} (l : List α) (d : α) (i : Int) : α :=
  if i < 0 then d else l.getD i.toNat d

/-- The triangle mesh with `n` vertices whose only face is the triangle on the
vertices `a`, `b`, `c`; the other vertices are isolated. Halfedges 0, 2, 4 run
`a → b → c → a` around the face, halfedges 1, 3, 5 are their opposites on the
boundary. All positions are `(0, 0, 0)` but for the three corners, no optional
attribute is present, `props` are the vertex properties. -/
def triangle_mesh (n : Nat) (a b c : Int) (props : List (Option BaseProperty)) :
    BaseExporter where
  kernel := some ⟨props, [], [], [], []⟩
  is_triangle_mesh := true
  n_vertices := n
  n_faces := 1
  n_edges := 3
  is_point_double := false
  is_normal_double := false
  point := fun i =>
    if i = b then ⟨![1065353216, 0, 0]⟩ else if i = c then ⟨![0, 1065353216, 0]⟩
    else ⟨![0, 0, 0]⟩
  pointd := fun _ => ⟨![0, 0, 0]⟩
  normal := fun _ => ⟨![0, 0, 0]⟩
  normald := fun _ => ⟨![0, 0, 0]⟩
  color := fun _ => ⟨![0, 0, 0]⟩
  texcoord := fun _ => ⟨![0, 0]⟩
  get_next_halfedge_id := lookup [2, 5, 4, 1, 0, 3] (-1)
  get_to_vertex_id := lookup [b, a, c, b, a, c] (-1)
  get_face_id := lookup [0, -1, 0, -1, 0, -1] (-1)
  texcoord_halfedge := fun _ => ⟨![0, 0]⟩
  get_halfedge_id := fun i => if i = a then 5 else if i = b then 1 else if i = c then 3 else -1
  get_halfedge_id_face := lookup [0] (-1)
  normal_face := fun _ => ⟨![0, 0, 0]⟩
  normald_face := fun _ => ⟨![0, 0, 0]⟩
  color_face := fun _ => ⟨![0, 0, 0]⟩
  status := fun _ => 0
  status_edge := fun _ => 0
  status_halfedge := fun _ => 0
  status_face := fun _ => 0
  has_vertex_normals := false
  has_vertex_colors := false
  has_vertex_texcoords := false
  has_face_normals := false
  has_face_colors := false
  has_vertex_status := false
  has_edge_status := false
  has_halfedge_status := false
  has_face_status := false

/-- The triangle mesh with 3 vertices, 1 face and 3 edges. -/
def triangle : BaseExporter := triangle_mesh 3 0 1 2 []

/-- A persistent property named `myProp`. -/
def prop_myProp : BaseProperty :=
  { name := "myProp", persistent := true, element_size := 4, get_storage_name := "int32_t",
    size_of := 12, elements := [⟨4, 1⟩, ⟨4, 2⟩, ⟨4, 3⟩] }

/-- A persistent property with the reserved name `v:internal`. -/
def prop_internal : BaseProperty :=
  { name := "v:internal", persistent := true, element_size := 4,
    get_storage_name := "int32_t", size_of := 12, elements := [⟨4, 1⟩, ⟨4, 2⟩, ⟨4, 3⟩] }

/-- A persistent property with an empty name. -/
def prop_unnamed : BaseProperty :=
  { name := "", persistent := true, element_size := 4, get_storage_name := "int32_t",
    size_of := 12, elements := [⟨4, 1⟩, ⟨4, 2⟩, ⟨4, 3⟩] }

/-- The vertex properties of `triangle_props`. -/
def sample_props : List (Option BaseProperty) :=
  [some prop_internal, some prop_unnamed, some prop_myProp, none]

/-- The triangle mesh with three persistent vertex properties and a null entry. -/
def triangle_props : BaseExporter := triangle_mesh 3 0 1 2 sample_props

/-- The mesh whose only face is a polygon with `n` corners: `n` vertices, `n`
edges, one face. Halfedge `2 i` runs from vertex `i` to vertex `i + 1` around
the face, halfedge `2 i + 1` is its opposite on the boundary. -/
def polygon (n : Nat) : BaseExporter where
  kernel := some ⟨[], [], [], [], []⟩
  is_triangle_mesh := decide (n = 3)
  n_vertices := n
  n_faces := 1
  n_edges := n
  is_point_double := false
  is_normal_double := false
  point := fun _ => ⟨![0, 0, 0]⟩
  pointd := fun _ => ⟨![0, 0, 0]⟩
  normal := fun _ => ⟨![0, 0, 0]⟩
  normald := fun _ => ⟨![0, 0, 0]⟩
  color := fun _ => ⟨![0, 0, 0]⟩
  texcoord := fun _ => ⟨![0, 0]⟩
  get_next_halfedge_id := fun h =>
    if h < 0 ∨ 2 * (n : Int) ≤ h then -1
    else if h % 2 = 0 then 2 * ((h / 2 + 1) % n) else 2 * ((h / 2 + n - 1) % n) + 1
  get_to_vertex_id := fun h =>
    if h < 0 ∨ 2 * (n : Int) ≤ h then -1
    else if h % 2 = 0 then (h / 2 + 1) % n else h / 2
  get_face_id := fun h => if h < 0 ∨ 2 * (n : Int) ≤ h then -1 else if h % 2 = 0 then 0 else -1
  texcoord_halfedge := fun _ => ⟨![0, 0]⟩
  get_halfedge_id := fun v =>
    if v < 0 ∨ (n : Int) ≤ v then -1 else 2 * ((v + n - 1) % n) + 1
  get_halfedge_id_face := fun f => if f = 0 then 0 else -1
  normal_face := fun _ => ⟨![0, 0, 0]⟩
  normald_face := fun _ => ⟨![0, 0, 0]⟩
  color_face := fun _ => ⟨![0, 0, 0]⟩
  status := fun _ => 0
  status_edge := fun _ => 0
  status_halfedge := fun _ => 0
  status_face := fun _ => 0
  has_vertex_normals := false
  has_vertex_colors := false
  has_vertex_texcoords := false
  has_face_normals := false
  has_face_colors := false
  has_vertex_status := false
  has_edge_status := false
  has_halfedge_status := false
  has_face_status := false

/-- The mesh with 300 vertices whose only face is the triangle on the vertices
256, 257, 258; the vertices 0 to 255 and 259 to 299 are isolated. -/
def triangle_300 : BaseExporter := triangle_mesh 300 256 257 258 []

/-- The to-vertex ids of `triangle_300` cut to 8 bits: the halfedges end in the
vertices 0, 1, 2. -/
def to_vertex_cut : Int → Int := lookup [1, 0, 2, 1, 0, 2] (-1)

/-- The Face-Topology chunk of the triangle mesh: 8 bit ids, one id, the
halfedge 0 of the face. -/
def triangle_face_topology : Chunk.Header × List Record :=
  ({ reserved_ := 0, name_ := false, entity_ := sample_decls.Entity_Face,
     type_ := sample_decls.Type_Topology, signed_ := true, float_ := true,
     dim_ := sample_decls.Dim_1D, bits_ := sample_decls.Integer_8 },
   [Record.integer 0 sample_decls.Integer_8 false])

/-- The triangle mesh behind an exporter whose `kernel()` is the null pointer. -/
def triangle_no_kernel : BaseExporter := { triangle with kernel := none }

/-- The options value with exactly the VertexNormal flag set. -/
def normal_options : Options := ⟨fun f => decide (f = Flag.VertexNormal)⟩

/-- A persistent property of `2^32` bytes: one element of that size. -/
def huge_prop : BaseProperty :=
  { name := "huge", persistent := true, element_size := 1, get_storage_name := "blob",
    size_of := 4294967296, elements := [⟨4294967296, 0⟩] }

/-- The store calls of the concrete scenario: the file header, the
Vertex-Position chunk with the three positions, the Halfedge-Topology chunk with
six triples of ids (next halfedge, to-vertex, face), the Vertex-Topology chunk
with three ids, the Face-Topology chunk with one id, the Sentinel header. -/
def triangle_stream (F : Decls) (sw : Bool) : List Record :=
  [ Record.header
      { magic_0 := 'O', magic_1 := 'M', mesh_ := 'T', version_ := F.mk_version 2 2,
        n_vertices_ := 3, n_faces_ := 1, n_edges_ := 3 } sw,
    Record.chunk_header
      { reserved_ := 0, name_ := false, entity_ := F.Entity_Vertex, type_ := F.Type_Pos,
        signed_ := true, float_ := true, dim_ := F.Dim_3D, bits_ := F.Float_32 } sw,
    Record.vec3f ⟨![0, 0, 0]⟩ sw,
    Record.vec3f ⟨![1065353216, 0, 0]⟩ sw,
    Record.vec3f ⟨![0, 1065353216, 0]⟩ sw,
    Record.chunk_header
      { reserved_ := 0, name_ := false, entity_ := F.Entity_Halfedge,
        type_ := F.Type_Topology, signed_ := true, float_ := true, dim_ := F.Dim_3D,
        bits_ := F.Integer_8 } sw,
    Record.integer 2 F.Integer_8 sw, Record.integer 1 F.Integer_8 sw,
    Record.integer 0 F.Integer_8 sw,
    Record.integer 5 F.Integer_8 sw, Record.integer 0 F.Integer_8 sw,
    Record.integer (-1) F.Integer_8 sw,
    Record.integer 4 F.Integer_8 sw, Record.integer 2 F.Integer_8 sw,
    Record.integer 0 F.Integer_8 sw,
    Record.integer 1 F.Integer_8 sw, Record.integer 1 F.Integer_8 sw,
    Record.integer (-1) F.Integer_8 sw,
    Record.integer 0 F.Integer_8 sw, Record.integer 0 F.Integer_8 sw,
    Record.integer 0 F.Integer_8 sw,
    Record.integer 3 F.Integer_8 sw, Record.integer 2 F.Integer_8 sw,
    Record.integer (-1) F.Integer_8 sw,
    Record.chunk_header
      { reserved_ := 0, name_ := false, entity_ := F.Entity_Vertex,
        type_ := F.Type_Topology, signed_ := true, float_ := true, dim_ := F.Dim_1D,
        bits_ := F.Integer_8 } sw,
    Record.integer 5 F.Integer_8 sw, Record.integer 1 F.Integer_8 sw,
    Record.integer 3 F.Integer_8 sw,
    Record.chunk_header
      { reserved_ := 0, name_ := false, entity_ := F.Entity_Face,
        type_ := F.Type_Topology, signed_ := true, float_ := true, dim_ := F.Dim_1D,
        bits_ := F.Integer_8 } sw,
    Record.integer 0 F.Integer_8 sw,
    Record.chunk_header
      { reserved_ := 0, name_ := false, entity_ := F.Entity_Sentinel, type_ := 0,
        signed_ := false, float_ := false, dim_ := 0, bits_ := 0 } sw ]

/-- The header of the Custom chunk of the vertex property `myProp`: the name
flag set, data kind Custom, dimension 1, `bits_` the element size 4. -/
def myProp_header : Chunk.Header :=
  { reserved_ := 0, name_ := true, entity_ := sample_decls.Entity_Vertex,
    type_ := sample_decls.Type_Custom, signed_ := false, float_ := false,
    dim_ := sample_decls.Dim_1D, bits_ := 4 }

/-- The Halfedge-Topology chunk of the triangle mesh: 8 bit ids, the triple
(next halfedge, to-vertex, face) of each of the six halfedges. -/
def triangle_halfedge_chunk : Chunk.Header × List Record :=
  ({ reserved_ := 0, name_ := false, entity_ := sample_decls.Entity_Halfedge,
     type_ := sample_decls.Type_Topology, signed_ := true, float_ := true,
     dim_ := sample_decls.Dim_3D, bits_ := sample_decls.Integer_8 },
   [ Record.integer 2 sample_decls.Integer_8 false,
     Record.integer 1 sample_decls.Integer_8 false,
     Record.integer 0 sample_decls.Integer_8 false,
     Record.integer 5 sample_decls.Integer_8 false,
     Record.integer 0 sample_decls.Integer_8 false,
     Record.integer (-1) sample_decls.Integer_8 false,
     Record.integer 4 sample_decls.Integer_8 false,
     Record.integer 2 sample_decls.Integer_8 false,
     Record.integer 0 sample_decls.Integer_8 false,
     Record.integer 1 sample_decls.Integer_8 false,
     Record.integer 1 sample_decls.Integer_8 false,
     Record.integer (-1) sample_decls.Integer_8 false,
     Record.integer 0 sample_decls.Integer_8 false,
     Record.integer 0 sample_decls.Integer_8 false,
     Record.integer 0 sample_decls.Integer_8 false,
     Record.integer 3 sample_decls.Integer_8 false,
     Record.integer 2 sample_decls.Integer_8 false,
     Record.integer (-1) sample_decls.Integer_8 false ])

/-- The vector `(1, -2, 3)` of `int` scalars. -/
def vec_1_m2_3 : VectorT Int 3 := ⟨![1, -2, 3]⟩

/-- The vector `(1, 2, 3)` of `int` scalars. -/
def vec_1_2_3 : VectorT Int 3 := ⟨![1, 2, 3]⟩

/-- The vector `(0, 0, 0)` of `int` scalars. -/
def vec_0_0_0 : VectorT Int 3 := ⟨![0, 0, 0]⟩

/-- The options value with exactly the Status flag set. -/
def status_options : Options := ⟨fun f => decide (f = Flag.Status)⟩

/-- The triangle mesh with the four status properties present. -/
def triangle_status : BaseExporter :=
  { triangle with
    has_vertex_status := true, has_edge_status := true, has_halfedge_status := true,
    has_face_status := true }

/-- The mesh without vertices, edges and faces, no property attached. -/
def empty_mesh : BaseExporter :=
  { triangle with n_vertices := 0, n_faces := 0, n_edges := 0 }

/-- The Vertex-Status chunk of `triangle_status`: one status value per vertex. -/
def triangle_vertex_status : Chunk.Header × List Record :=
  ({ reserved_ := 0, name_ := false, entity_ := sample_decls.Entity_Vertex,
     type_ := sample_decls.Type_Status, signed_ := false, float_ := false,
     dim_ := sample_decls.Dim_1D, bits_ := sample_decls.bits_status },
   [Record.status 0 false, Record.status 0 false, Record.status 0 false])

/-- The triangle mesh with vertex normals present. -/
def triangle_normals : BaseExporter := { triangle with has_vertex_normals := true }

/-! ## Lemmas on chunks -/

theorem chunks_cons_of_not_header (r : Record) (rest : List Record)
    (h : r.is_chunk_header = false) : chunks (r :: rest) = chunks rest := by
  cases r <;> simp [chunks, Record.is_chunk_header] at h ⊢

theorem chunks_payload (p : List Record) (hp : Payload p) : chunks p = [] := by
  induction p with
  | nil => rfl
  | cons r rest ih =>
    rw [chunks_cons_of_not_header r rest (hp r (List.mem_cons_self _ _))]
    exact ih fun x hx => hp x (List.mem_cons_of_mem _ hx)

theorem takeWhile_payload (p : List Record) (hp : Payload p) :
    (p.takeWhile fun r => !r.is_chunk_header) = p := by
  rw [List.takeWhile_eq_self_iff]
  intro r hr
  simp [hp r hr]

theorem takeWhile_append_headed (a b : List Record) (hb : Headed b) :
    ((a ++ b).takeWhile fun r => !r.is_chunk_header)
      = a.takeWhile fun r => !r.is_chunk_header := by
  induction a with
  | nil => exact hb
  | cons r rest ih =>
    simp only [List.cons_append, List.takeWhile_cons]
    split
    · rw [ih]
    · rfl

theorem chunks_append (a b : List Record) (hb : Headed b) :
    chunks (a ++ b) = chunks a ++ chunks b := by
  induction a with
  | nil => rfl
  | cons r rest ih =>
    cases r <;> simp [chunks, ih, takeWhile_append_headed _ _ hb]

theorem headed_nil : Headed [] := rfl

theorem headed_chunk_header (h : Chunk.Header) (sw : Bool) (rest : List Record) :
    Headed (Record.chunk_header h sw :: rest) := by
  simp [Headed, Record.is_chunk_header]

theorem headed_append (a b : List Record) (ha : Headed a) (hb : Headed b) :
    Headed (a ++ b) := by
  unfold Headed at *
  rw [takeWhile_append_headed a b hb]
  exact ha

theorem chunks_chunk (h : Chunk.Header) (sw : Bool) (p : List Record) (hp : Payload p) :
    chunks (Record.chunk_header h sw :: p) = [(h, p)] := by
  simp [chunks, takeWhile_payload p hp, chunks_payload p hp]

theorem headed_run_blocks (sw : Bool) (bs : List Block) (ch : Chunk.Header) :
    Headed (run_blocks sw bs ch).1 := by
  induction bs generalizing ch with
  | nil => exact headed_nil
  | cons b bs ih =>
    simp only [run_blocks]
    apply headed_append
    · unfold Block.run
      split
      · exact headed_chunk_header _ _ _
      · exact headed_nil
    · exact ih _

theorem chunks_run_blocks (sw : Bool) (bs : List Block) (hbs : PayloadBlocks bs)
    (ch : Chunk.Header) : chunks (run_blocks sw bs ch).1 = run_chunks bs ch := by
  induction bs generalizing ch with
  | nil => rfl
  | cons b bs ih =>
    have hb : ∀ c, Payload (b.payload c) := hbs b (List.mem_cons_self _ _)
    have hrest : PayloadBlocks bs := fun x hx => hbs x (List.mem_cons_of_mem _ hx)
    simp only [run_blocks, run_chunks]
    rw [chunks_append _ _ (headed_run_blocks _ _ _), ih hrest]
    unfold Block.run
    by_cases hc : b.cond = true
    · simp [hc, chunks_chunk _ _ _ (hb _), Block.chunk]
    · simp [hc, chunks]

theorem mem_run_chunks (bs : List Block) (ch : Chunk.Header)
    (x : Chunk.Header × List Record) (hx : x ∈ run_chunks bs ch) :
    ∃ b ∈ bs, ∃ c, b.cond = true ∧ x = b.chunk c := by
  induction bs generalizing ch with
  | nil => simp [run_chunks] at hx
  | cons b bs ih =>
    simp only [run_chunks] at hx
    split at hx
    · rcases List.mem_cons.1 hx with h | h
      · exact ⟨b, List.mem_cons_self _ _, ch, by assumption, h⟩
      · obtain ⟨b', hb', c, hc, hxc⟩ := ih _ h
        exact ⟨b', List.mem_cons_of_mem _ hb', c, hc, hxc⟩
    · obtain ⟨b', hb', c, hc, hxc⟩ := ih _ hx
      exact ⟨b', List.mem_cons_of_mem _ hb', c, hc, hxc⟩

theorem map_run_chunks {α : Type} (key : Chunk.Header × List Record → α) (c0 : Chunk.Header)
    (bs : List Block) (hkey : ∀ b ∈ bs, ∀ c, key (b.chunk c) = key (b.chunk c0))
    (ch : Chunk.Header) :
    (run_chunks bs ch).map key
      = ((bs.filter fun b => b.cond).map fun b => key (b.chunk c0)) := by
  induction bs generalizing ch with
  | nil => rfl
  | cons b bs ih =>
    have hrest : ∀ x ∈ bs, ∀ c, key (x.chunk c) = key (x.chunk c0) :=
      fun x hx => hkey x (List.mem_cons_of_mem _ hx)
    simp only [run_chunks, List.filter_cons]
    by_cases hc : b.cond = true
    · simp [hc, ih hrest, hkey b (List.mem_cons_self _ _) ch]
    · simp [hc, ih hrest]

theorem builtin_payload_forall (F : Decls) (be : BaseExporter) (o : Options)
    (header : Header) (sw : Bool) (P : Record → Prop)
    (h3f : ∀ v, P (Record.vec3f v sw)) (h3d : ∀ v, P (Record.vec3d v sw))
    (h3uc : ∀ v, P (Record.vec3uc v sw)) (h2f : ∀ v, P (Record.vec2f v sw))
    (hint : ∀ v n, P (Record.integer v n sw)) (hst : ∀ x, P (Record.status x sw)) :
    ∀ b ∈ builtin_blocks F be o header sw, ∀ c, ∀ r ∈ b.payload c, P r := by
  have hmap : ∀ {α : Type} (l : List α) (f : α → Record), (∀ a, P (f a)) →
      ∀ r ∈ l.map f, P r := by
    intro α l f hf r hr
    obtain ⟨a, _, rfl⟩ := List.mem_map.1 hr
    exact hf a
  intro b hb ch
  simp only [builtin_blocks, List.mem_cons, List.mem_singleton, List.not_mem_nil,
    or_false] at hb
  rcases hb with h | h | h | h | h | h | h | h | h | h | h | h | h | h <;> subst h
  · unfold write_vertex_position
    dsimp only
    split
    · exact hmap _ _ fun _ => h3d _
    · exact hmap _ _ fun _ => h3f _
  · unfold write_vertex_normal
    dsimp only
    split
    · exact hmap _ _ fun _ => h3d _
    · exact hmap _ _ fun _ => h3f _
  · exact hmap _ _ fun _ => h3uc _
  · exact hmap _ _ fun _ => h2f _
  · intro r hr
    obtain ⟨x, hx, hrx⟩ := List.mem_flatten.1 hr
    obtain ⟨a, _, rfl⟩ := List.mem_map.1 hx
    simp only [List.mem_cons, List.mem_singleton, List.not_mem_nil, or_false] at hrx
    rcases hrx with h | h | h <;> subst h <;> exact hint _ _
  · exact hmap _ _ fun _ => h2f _
  · exact hmap _ _ fun _ => hint _ _
  · exact hmap _ _ fun _ => hint _ _
  · unfold write_face_normal
    dsimp only
    split
    · exact hmap _ _ fun _ => h3d _
    · exact hmap _ _ fun _ => h3f _
  · exact hmap _ _ fun _ => h3uc _
  · exact hmap _ _ fun _ => hst _
  · exact hmap _ _ fun _ => hst _
  · exact hmap _ _ fun _ => hst _
  · exact hmap _ _ fun _ => hst _

theorem payload_builtin_blocks (F : Decls) (be : BaseExporter) (o : Options)
    (header : Header) (sw : Bool) : PayloadBlocks (builtin_blocks F be o header sw) :=
  builtin_payload_forall F be o header sw (fun r => r.is_chunk_header = false)
    (fun _ => rfl) (fun _ => rfl) (fun _ => rfl) (fun _ => rfl) (fun _ _ => rfl)
    (fun _ => rfl)

theorem mem_run_blocks (sw : Bool) (bs : List Block) (ch : Chunk.Header) (r : Record)
    (hr : r ∈ (run_blocks sw bs ch).1) :
    ∃ b ∈ bs, ∃ c, b.cond = true
      ∧ (r = Record.chunk_header (b.assign c) sw ∨ r ∈ b.payload (b.assign c)) := by
  induction bs generalizing ch with
  | nil => simp [run_blocks] at hr
  | cons b bs ih =>
    simp only [run_blocks, List.mem_append] at hr
    rcases hr with h | h
    · unfold Block.run at h
      split at h
      · refine ⟨b, List.mem_cons_self _ _, ch, by assumption, ?_⟩
        simpa using h
      · simp at h
    · obtain ⟨b', hb', c, hc, hrc⟩ := ih _ h
      exact ⟨b', List.mem_cons_of_mem _ hb', c, hc, hrc⟩

theorem builtin_os_forall (F : Decls) (be : BaseExporter) (o : Options)
    (header : Header) (sw : Bool) (ch : Chunk.Header) (P : Record → Prop)
    (hch : ∀ h, P (Record.chunk_header h sw))
    (h3f : ∀ v, P (Record.vec3f v sw)) (h3d : ∀ v, P (Record.vec3d v sw))
    (h3uc : ∀ v, P (Record.vec3uc v sw)) (h2f : ∀ v, P (Record.vec2f v sw))
    (hint : ∀ v n, P (Record.integer v n sw)) (hst : ∀ x, P (Record.status x sw)) :
    ∀ r ∈ (run_blocks sw (builtin_blocks F be o header sw) ch).1, P r := by
  intro r hr
  obtain ⟨b, hb, c, _, h | h⟩ := mem_run_blocks _ _ _ _ hr
  · subst h
    exact hch _
  · exact builtin_payload_forall F be o header sw P h3f h3d h3uc h2f hint hst b hb _ r h

/-! ## Lemmas on the custom chunks -/

theorem store_property_eq (F : Decls) (sw : Bool) (chdr : Chunk.Header)
    (props : List (Option BaseProperty)) (ent : Nat) :
    store_property F sw chdr props ent
      = ((props.map (Prod.mk ent)).map (custom_records F sw chdr)).flatten := by
  induction props with
  | nil => rfl
  | cons prop rest ih =>
    simp only [store_property, List.map_cons, List.flatten_cons, ih]
    congr 1
    cases prop with
    | none => rfl
    | some p =>
      simp only [custom_records, custom_written, store_binary_custom_chunk, empty,
        reserved_name, chunk_records, custom_chunk]
      have key : ∀ (a b c : Bool) (X : List Record),
          (if (b || c) = true then [] else if (!a || b) = true then [] else X)
            = if (a && !b && !c) = true then X else [] := by
        intro a b c X
        cases a <;> cases b <;> cases c <;> rfl
      rw [key]
      rfl

theorem write_custom_eq (F : Decls) (k : BaseKernel) (sw : Bool) (chdr : Chunk.Header) :
    write_custom F k sw chdr = ((attached F k).map (custom_records F sw chdr)).flatten := by
  simp only [write_custom, attached, store_property_eq, List.map_append, List.flatten_append]

theorem headed_custom (F : Decls) (sw : Bool) (chdr : Chunk.Header)
    (l : List (Nat × Option BaseProperty)) :
    Headed ((l.map (custom_records F sw chdr)).flatten) := by
  induction l with
  | nil => exact headed_nil
  | cons ep rest ih =>
    simp only [List.map_cons, List.flatten_cons]
    apply headed_append _ _ _ ih
    unfold custom_records
    split
    · exact headed_nil
    · split
      · exact headed_chunk_header _ _ _
      · exact headed_nil

theorem payload_custom_chunk (F : Decls) (sw : Bool) (chdr : Chunk.Header) (e : Nat)
    (p : BaseProperty) : Payload (custom_chunk F sw chdr e p).2 := by
  intro r hr
  simp only [custom_chunk, List.mem_cons, List.mem_append, List.mem_singleton,
    List.not_mem_nil, or_false] at hr
  rcases hr with h | h | h | h
  · subst h; rfl
  · split at h
    · simp only [List.mem_singleton] at h
      subst h; rfl
    · simp at h
  · subst h; rfl
  · subst h; rfl

theorem chunks_custom (F : Decls) (sw : Bool) (chdr : Chunk.Header)
    (l : List (Nat × Option BaseProperty)) :
    chunks ((l.map (custom_records F sw chdr)).flatten) = custom_chunks F sw chdr l := by
  induction l with
  | nil => rfl
  | cons ep rest ih =>
    simp only [List.map_cons, List.flatten_cons]
    rw [chunks_append _ _ (headed_custom F sw chdr rest), ih]
    obtain ⟨e, prop⟩ := ep
    cases prop with
    | none => simp [custom_records, custom_chunks, chunks]
    | some p =>
      by_cases hw : custom_written (some p) = true
      · simp [custom_records, custom_chunks, hw, chunk_records,
          chunks_chunk _ _ _ (payload_custom_chunk F sw chdr e p)]
      · simp [custom_records, custom_chunks, hw, chunks]

/-! ## The stream of `write_binary` -/

theorem write_binary_os (F : Decls) (host : Endian) (be : BaseExporter) (o : Options)
    (u : Indeterminate) (hk : o.check Flag.Custom = true → be.kernel.isSome = true) :
    (write_binary F host be o u).os
      = Record.header (file_header F be) (swap_required host o)
        :: ((run_blocks (swap_required host o)
              (builtin_blocks F be o (file_header F be) (swap_required host o))
              u.chunk_header).1
          ++ (((visited F be o).map
                (custom_records F (swap_required host o) u.chdr)).flatten
            ++ [Record.chunk_header (sentinel F) (swap_required host o)])) := by
  unfold write_binary visited
  by_cases hc : o.check Flag.Custom = true
  · have hk' := hk hc
    cases hker : be.kernel with
    | none => simp [hker] at hk'
    | some k => simp [hc, write_custom_eq]
  · simp [hc]

theorem write_binary_chunks (F : Decls) (host : Endian) (be : BaseExporter) (o : Options)
    (u : Indeterminate) (hk : o.check Flag.Custom = true → be.kernel.isSome = true) :
    chunks (write_binary F host be o u).os
      = run_chunks (builtin_blocks F be o (file_header F be) (swap_required host o))
          u.chunk_header
        ++ (custom_chunks F (swap_required host o) u.chdr (visited F be o)
          ++ [(sentinel F, [])]) := by
  rw [write_binary_os F host be o u hk]
  have h1 : Headed [Record.chunk_header (sentinel F) (swap_required host o)] :=
    headed_chunk_header _ _ _
  have h2 := headed_append _ _
    (headed_custom F (swap_required host o) u.chdr (visited F be o)) h1
  rw [chunks_cons_of_not_header (Record.header _ _) _ rfl, chunks_append _ _ h2, chunks_append _ _ h1,
    chunks_run_blocks _ _ (payload_builtin_blocks _ _ _ _ _), chunks_custom]
  rfl

theorem getLast?_cons_append_append {α : Type} (r : α) (a b : List α) (s : α) :
    (r :: (a ++ (b ++ [s]))).getLast? = some s := by
  have h : r :: (a ++ (b ++ [s])) = (r :: (a ++ b)) ++ [s] := by simp
  rw [h, List.getLast?_concat]

theorem custom_flat_forall (F : Decls) (sw : Bool) (chdr : Chunk.Header)
    (l : List (Nat × Option BaseProperty)) (P : Record → Prop)
    (hch : ∀ h, P (Record.chunk_header h sw))
    (hname : ∀ x, P (Record.property_name x sw))
    (hint : ∀ v n, P (Record.integer v n sw)) (hprop : ∀ p, P (Record.property p sw)) :
    ∀ r ∈ (l.map (custom_records F sw chdr)).flatten, P r := by
  intro r hr
  obtain ⟨x, hx, hrx⟩ := List.mem_flatten.1 hr
  obtain ⟨ep, _, rfl⟩ := List.mem_map.1 hx
  unfold custom_records at hrx
  split at hrx
  · simp at hrx
  · split at hrx
    · simp only [chunk_records, List.mem_cons] at hrx
      rcases hrx with h | h
      · subst h
        exact hch _
      · simp only [custom_chunk, List.mem_cons, List.mem_append, List.mem_singleton,
          List.not_mem_nil, or_false] at h
        rcases h with h | h | h | h
        · subst h; exact hname _
        · split at h
          · simp only [List.mem_singleton] at h
            subst h; exact hname _
          · simp at h
        · subst h; exact hint _ _
        · subst h; exact hprop _
    · simp at hrx

theorem write_binary_os_tail (F : Decls) (host : Endian) (be : BaseExporter) (o : Options)
    (u : Indeterminate) :
    ∃ rest, (write_binary F host be o u).os
        = Record.header (file_header F be) (swap_required host o) :: rest
      ∧ ∀ r ∈ rest,
        r ∈ (run_blocks (swap_required host o)
              (builtin_blocks F be o (file_header F be) (swap_required host o))
              u.chunk_header).1
        ∨ r ∈ ((visited F be o).map
                (custom_records F (swap_required host o) u.chdr)).flatten
        ∨ r = Record.chunk_header (sentinel F) (swap_required host o) := by
  by_cases hk : o.check Flag.Custom = true → be.kernel.isSome = true
  · refine ⟨_, write_binary_os F host be o u hk, ?_⟩
    intro r hr
    simp only [List.mem_append, List.mem_singleton] at hr
    exact hr
  · have hc : o.check Flag.Custom = true := by
      by_contra h
      exact hk fun h' => absurd h' h
    have hker : be.kernel = none := by
      cases hker : be.kernel with
      | none => rfl
      | some k => exact absurd (fun _ => by simp [hker]) hk
    refine ⟨(run_blocks (swap_required host o)
      (builtin_blocks F be o (file_header F be) (swap_required host o))
      u.chunk_header).1, by simp [write_binary, hc, hker], ?_⟩
    intro r hr
    exact Or.inl hr

theorem write_binary_os_forall (F : Decls) (host : Endian) (be : BaseExporter)
    (o : Options) (u : Indeterminate) (P : Record → Prop)
    (hch : ∀ h, P (Record.chunk_header h (swap_required host o)))
    (h3f : ∀ v, P (Record.vec3f v (swap_required host o)))
    (h3d : ∀ v, P (Record.vec3d v (swap_required host o)))
    (h3uc : ∀ v, P (Record.vec3uc v (swap_required host o)))
    (h2f : ∀ v, P (Record.vec2f v (swap_required host o)))
    (hint : ∀ v n, P (Record.integer v n (swap_required host o)))
    (hst : ∀ x, P (Record.status x (swap_required host o)))
    (hname : ∀ x, P (Record.property_name x (swap_required host o)))
    (hprop : ∀ p, P (Record.property p (swap_required host o))) :
    ∃ rest, (write_binary F host be o u).os
        = Record.header (file_header F be) (swap_required host o) :: rest
      ∧ ∀ r ∈ rest, P r := by
  obtain ⟨rest, hos, hrest⟩ := write_binary_os_tail F host be o u
  refine ⟨rest, hos, fun r hr => ?_⟩
  rcases hrest r hr with h | h | h
  · exact builtin_os_forall F be o _ _ _ P hch h3f h3d h3uc h2f hint hst r h
  · exact custom_flat_forall F _ _ _ P hch hname hint hprop r h
  · subst h
    exact hch _

/-! ## The kinds of the chunks -/

theorem builtin_kind_indep (F : Decls) (be : BaseExporter) (o : Options) (header : Header)
    (sw : Bool) (c0 : Chunk.Header) :
    ∀ b ∈ builtin_blocks F be o header sw, ∀ c,
      chunk_kind (b.chunk c) = chunk_kind (b.chunk c0) := by
  intro b hb c
  simp only [builtin_blocks, List.mem_cons, List.mem_singleton, List.not_mem_nil,
    or_false] at hb
  rcases hb with h | h | h | h | h | h | h | h | h | h | h | h | h | h <;> subst h <;>
    simp only [chunk_kind, Block.chunk, write_vertex_position, write_vertex_normal,
      write_vertex_color, write_vertex_texcoord, write_halfedge_topology,
      write_halfedge_texcoord, write_vertex_topology, write_face_topology,
      write_face_normal, write_face_color, write_vertex_status, write_edge_status,
      write_halfedge_status, write_face_status] <;>
    (try split) <;> rfl

theorem builtin_kinds (F : Decls) (be : BaseExporter) (o : Options) (header : Header)
    (sw : Bool) (c0 : Chunk.Header) :
    (builtin_blocks F be o header sw).map (fun b => chunk_kind (b.chunk c0))
      = builtin_order F := by
  simp only [builtin_blocks, builtin_order, List.map_cons, List.map_nil,
    chunk_kind, Block.chunk, write_vertex_position, write_vertex_normal,
    write_vertex_color, write_vertex_texcoord, write_halfedge_topology,
    write_halfedge_texcoord, write_vertex_topology, write_face_topology,
    write_face_normal, write_face_color, write_vertex_status, write_edge_status,
    write_halfedge_status, write_face_status]
  cases be.is_point_double <;> cases be.is_normal_double <;> rfl

theorem builtin_chunk_kind_mem (F : Decls) (be : BaseExporter) (o : Options)
    (header : Header) (sw : Bool) (ch : Chunk.Header) (x : Chunk.Header × List Record)
    (hx : x ∈ run_chunks (builtin_blocks F be o header sw) ch) :
    chunk_kind x ∈ builtin_order F := by
  obtain ⟨b, hb, c, _, rfl⟩ := mem_run_chunks _ _ _ hx
  rw [← builtin_kinds F be o header sw c]
  exact List.mem_map.2 ⟨b, hb, rfl⟩

theorem mem_custom_chunks (F : Decls) (sw : Bool) (chdr : Chunk.Header)
    (l : List (Nat × Option BaseProperty)) (x : Chunk.Header × List Record)
    (hx : x ∈ custom_chunks F sw chdr l) :
    ∃ e p, (e, some p) ∈ l ∧ custom_written (some p) = true
      ∧ x = custom_chunk F sw chdr e p := by
  unfold custom_chunks at hx
  obtain ⟨⟨e, prop⟩, hep, h⟩ := List.mem_filterMap.1 hx
  cases prop with
  | none => simp at h
  | some p =>
    by_cases hw : custom_written (some p) = true
    · simp only [hw, if_true, Option.some.injEq] at h
      exact ⟨e, p, hep, hw, h.symm⟩
    · simp [hw] at h

theorem mem_visited (F : Decls) (be : BaseExporter) (o : Options) (e : Nat)
    (prop : Option BaseProperty) (h : (e, prop) ∈ visited F be o) :
    e ∈ [F.Entity_Vertex, F.Entity_Face, F.Entity_Edge, F.Entity_Halfedge, F.Entity_Mesh] := by
  unfold visited at h
  split at h
  · split at h
    · simp at h
    · simp only [attached, List.mem_append, List.mem_map, Prod.mk.injEq] at h
      simp only [List.mem_cons, List.mem_singleton, List.not_mem_nil, or_false]
      rcases h with (((h | h) | h) | h) | h <;> obtain ⟨_, _, h, _⟩ := h <;> simp [h]
  · simp at h

/-- C1. Whenever the kernel is available to an encode that asks for custom
properties, the chunk headers written by `write_binary` contain exactly one
header of entity kind Sentinel; that header is the last store call of the
encode, and all its other fields (reserved, name flag, data kind, signed,
float, dim, bits) are zero. -/
theorem sentinel_exactly_once_and_last (F : Decls) (hF : F.WellFormed) (host : Endian)
    (be : BaseExporter) (o : Options) (u : Indeterminate)
    (hk : o.check Flag.Custom = true → be.kernel.isSome = true) :
    (chunk_headers (write_binary F host be o u).os).countP
        (fun h => decide (h.entity_ = F.Entity_Sentinel)) = 1
    ∧ (write_binary F host be o u).os.getLast?
        = some (Record.chunk_header
            { reserved_ := 0, name_ := false, entity_ := F.Entity_Sentinel, type_ := 0,
              signed_ := false, float_ := false, dim_ := 0, bits_ := 0 }
            (swap_required host o)) := by
  obtain ⟨hE, -, -⟩ := hF
  simp only [List.nodup_cons, List.mem_cons, List.mem_singleton, List.not_mem_nil,
    not_or, or_false] at hE
  constructor
  · unfold chunk_headers
    rw [write_binary_chunks F host be o u hk, List.map_append, List.map_append,
      List.countP_append, List.countP_append]
    have h1 : ((run_chunks (builtin_blocks F be o (file_header F be) (swap_required host o))
        u.chunk_header).map Prod.fst).countP
          (fun h => decide (h.entity_ = F.Entity_Sentinel)) = 0 := by
      rw [List.countP_eq_zero]
      intro h hh
      obtain ⟨x, hx, rfl⟩ := List.mem_map.1 hh
      have hkind := builtin_chunk_kind_mem F be o _ _ _ x hx
      simp only [builtin_order, chunk_kind, List.mem_cons, List.mem_singleton,
        List.not_mem_nil, or_false, Prod.mk.injEq] at hkind
      simp only [decide_eq_true_eq]
      intro hs
      rw [hs] at hkind
      tauto
    have h2 : ((custom_chunks F (swap_required host o) u.chdr (visited F be o)).map
        Prod.fst).countP (fun h => decide (h.entity_ = F.Entity_Sentinel)) = 0 := by
      rw [List.countP_eq_zero]
      intro h hh
      obtain ⟨x, hx, rfl⟩ := List.mem_map.1 hh
      obtain ⟨e, p, hep, _, rfl⟩ := mem_custom_chunks _ _ _ _ _ hx
      have he := mem_visited F be o e _ hep
      simp only [List.mem_cons, List.mem_singleton, List.not_mem_nil, or_false] at he
      simp only [custom_chunk, decide_eq_true_eq]
      intro hs
      rw [hs] at he
      tauto
    rw [h1, h2]
    simp [sentinel]
  · rw [write_binary_os F host be o u hk]
    exact getLast?_cons_append_append _ _ _ _

/-- Witness of C1: the triangle mesh, no option set. -/
theorem sentinel_exactly_once_and_last_witness :
    (chunk_headers (write_binary sample_decls Endian.LSB triangle no_options
        sample_indeterminate).os).countP
        (fun h => decide (h.entity_ = sample_decls.Entity_Sentinel)) = 1
    ∧ (write_binary sample_decls Endian.LSB triangle no_options
        sample_indeterminate).os.getLast?
        = some (Record.chunk_header
            { reserved_ := 0, name_ := false, entity_ := sample_decls.Entity_Sentinel,
              type_ := 0, signed_ := false, float_ := false, dim_ := 0, bits_ := 0 }
            (swap_required Endian.LSB no_options)) :=
  sentinel_exactly_once_and_last sample_decls (by decide) Endian.LSB triangle no_options
    sample_indeterminate (by decide)

theorem mem_filter_map_iff {α β : Type} (l : List α) (key : α → β) (c : α → Bool)
    (hn : (l.map key).Nodup) (b : α) (hb : b ∈ l) :
    key b ∈ (l.filter c).map key ↔ c b = true := by
  constructor
  · intro h
    obtain ⟨b', hb', hkey⟩ := List.mem_map.1 h
    obtain ⟨hb'l, hcb'⟩ := List.mem_filter.1 hb'
    have := List.inj_on_of_nodup_map hn hb'l hb hkey
    rw [← this]
    exact hcb'
  · intro h
    exact List.mem_map.2 ⟨b, List.mem_filter.2 ⟨hb, h⟩, rfl⟩

theorem builtin_order_nodup (F : Decls) (hF : F.WellFormed) : (builtin_order F).Nodup := by
  obtain ⟨hE, hT, -⟩ := hF
  have hE' := List.nodup_reverse.2 hE
  have hT' := List.nodup_reverse.2 hT
  simp only [List.reverse_cons, List.reverse_nil, List.nil_append, List.cons_append,
    List.nodup_cons, List.mem_cons, List.mem_singleton, List.not_mem_nil,
    not_or, or_false] at hE hT hE' hT'
  simp [builtin_order, hE, hT, hE', hT']

theorem builtin_order_kinds (F : Decls) (hF : F.WellFormed) :
    ∀ p ∈ builtin_order F, p.2 ≠ F.Type_Custom ∧ p.1 ≠ F.Entity_Sentinel := by
  obtain ⟨hE, hT, -⟩ := hF
  have hE' := List.nodup_reverse.2 hE
  have hT' := List.nodup_reverse.2 hT
  simp only [List.reverse_cons, List.reverse_nil, List.nil_append, List.cons_append,
    List.nodup_cons, List.mem_cons, List.mem_singleton, List.not_mem_nil,
    not_or, or_false] at hE hT hE' hT'
  intro p hp
  simp only [builtin_order, List.mem_cons, List.mem_singleton, List.not_mem_nil,
    or_false] at hp
  rcases hp with h | h | h | h | h | h | h | h | h | h | h | h | h | h <;> subst h <;>
    simp [hE, hT, hE', hT']

theorem builtin_chunk_kinds_eq (F : Decls) (hF : F.WellFormed) (host : Endian)
    (be : BaseExporter) (o : Options) (u : Indeterminate)
    (hk : o.check Flag.Custom = true → be.kernel.isSome = true) :
    builtin_chunk_kinds F (write_binary F host be o u).os
      = (((builtin_blocks F be o (file_header F be) (swap_required host o)).filter
          fun b => b.cond).map fun b => chunk_kind (b.chunk u.chunk_header)) := by
  unfold builtin_chunk_kinds
  rw [write_binary_chunks F host be o u hk, List.filter_append, List.filter_append]
  have h1 : (run_chunks (builtin_blocks F be o (file_header F be) (swap_required host o))
      u.chunk_header).filter (fun c =>
        decide (c.1.type_ ≠ F.Type_Custom) && decide (c.1.entity_ ≠ F.Entity_Sentinel))
      = run_chunks (builtin_blocks F be o (file_header F be) (swap_required host o))
          u.chunk_header := by
    rw [List.filter_eq_self]
    intro x hx
    have := builtin_order_kinds F hF _ (builtin_chunk_kind_mem F be o _ _ _ x hx)
    simpa [chunk_kind] using this
  have h2 : (custom_chunks F (swap_required host o) u.chdr (visited F be o)).filter
      (fun c =>
        decide (c.1.type_ ≠ F.Type_Custom) && decide (c.1.entity_ ≠ F.Entity_Sentinel))
      = [] := by
    rw [List.filter_eq_nil_iff]
    intro x hx
    obtain ⟨e, p, _, _, rfl⟩ := mem_custom_chunks _ _ _ _ _ hx
    simp [custom_chunk]
  have h3 : [(sentinel F, ([] : List Record))].filter (fun c =>
        decide (c.1.type_ ≠ F.Type_Custom) && decide (c.1.entity_ ≠ F.Entity_Sentinel))
      = [] := by
    simp [sentinel]
  rw [h1, h2, h3, List.append_nil, List.append_nil]
  exact map_run_chunks chunk_kind u.chunk_header _
    (fun b hb c => builtin_kind_indep F be o _ _ u.chunk_header b hb c) _

/-- C3. The (entity kind, data kind) pairs of the built-in chunk headers written
by `write_binary` form a subsequence of the fixed order Vertex-Position,
Vertex-Normal, Vertex-Color, Vertex-Texcoord, Halfedge-Topology,
Halfedge-Texcoord, Vertex-Topology, Face-Topology, Face-Normal, Face-Color,
Vertex-Status, Edge-Status, Halfedge-Status, Face-Status, each pair at most
once; Vertex-Position and Vertex-Topology are present iff the mesh has a
vertex, Halfedge-Topology iff it has an edge. -/
theorem builtin_chunks_in_fixed_order (F : Decls) (hF : F.WellFormed) (host : Endian)
    (be : BaseExporter) (o : Options) (u : Indeterminate)
    (hk : o.check Flag.Custom = true → be.kernel.isSome = true) :
    (builtin_chunk_kinds F (write_binary F host be o u).os).Sublist (builtin_order F)
    ∧ (builtin_chunk_kinds F (write_binary F host be o u).os).Nodup
    ∧ ((F.Entity_Vertex, F.Type_Pos) ∈ builtin_chunk_kinds F (write_binary F host be o u).os
        ↔ be.n_vertices ≠ 0)
    ∧ ((F.Entity_Vertex, F.Type_Topology)
          ∈ builtin_chunk_kinds F (write_binary F host be o u).os
        ↔ be.n_vertices ≠ 0)
    ∧ ((F.Entity_Halfedge, F.Type_Topology)
          ∈ builtin_chunk_kinds F (write_binary F host be o u).os
        ↔ be.n_edges ≠ 0) := by
  have hsub : (builtin_chunk_kinds F (write_binary F host be o u).os).Sublist
      (builtin_order F) := by
    rw [builtin_chunk_kinds_eq F hF host be o u hk,
      ← builtin_kinds F be o (file_header F be) (swap_required host o) u.chunk_header]
    exact (List.filter_sublist _).map _
  have hn : ((builtin_blocks F be o (file_header F be) (swap_required host o)).map
      fun b => chunk_kind (b.chunk u.chunk_header)).Nodup := by
    rw [builtin_kinds]
    exact builtin_order_nodup F hF
  refine ⟨hsub, hsub.nodup (builtin_order_nodup F hF), ?_, ?_, ?_⟩
  · rw [builtin_chunk_kinds_eq F hF host be o u hk]
    have hb : write_vertex_position F be (file_header F be) (swap_required host o)
        ∈ builtin_blocks F be o (file_header F be) (swap_required host o) := by
      simp [builtin_blocks]
    have hkey : chunk_kind ((write_vertex_position F be (file_header F be)
        (swap_required host o)).chunk u.chunk_header) = (F.Entity_Vertex, F.Type_Pos) := by
      simp only [chunk_kind, Block.chunk, write_vertex_position]
      split <;> rfl
    rw [← hkey, mem_filter_map_iff _ (fun b => chunk_kind (b.chunk u.chunk_header)) _ hn _ hb]
    simp [write_vertex_position]
  · rw [builtin_chunk_kinds_eq F hF host be o u hk]
    have hb : write_vertex_topology F be (file_header F be) (swap_required host o)
        ∈ builtin_blocks F be o (file_header F be) (swap_required host o) := by
      simp [builtin_blocks]
    have hkey : chunk_kind ((write_vertex_topology F be (file_header F be)
        (swap_required host o)).chunk u.chunk_header)
        = (F.Entity_Vertex, F.Type_Topology) := rfl
    rw [← hkey, mem_filter_map_iff _ (fun b => chunk_kind (b.chunk u.chunk_header)) _ hn _ hb]
    simp [write_vertex_topology]
  · rw [builtin_chunk_kinds_eq F hF host be o u hk]
    have hb : write_halfedge_topology F be (file_header F be) (swap_required host o)
        ∈ builtin_blocks F be o (file_header F be) (swap_required host o) := by
      simp [builtin_blocks]
    have hkey : chunk_kind ((write_halfedge_topology F be (file_header F be)
        (swap_required host o)).chunk u.chunk_header)
        = (F.Entity_Halfedge, F.Type_Topology) := rfl
    rw [← hkey, mem_filter_map_iff _ (fun b => chunk_kind (b.chunk u.chunk_header)) _ hn _ hb]
    simp [write_halfedge_topology]

/-- Witness of C3: the triangle mesh, no option set. -/
theorem builtin_chunks_in_fixed_order_witness :
    (builtin_chunk_kinds sample_decls (write_binary sample_decls Endian.LSB triangle
        no_options sample_indeterminate).os).Sublist (builtin_order sample_decls)
    ∧ (builtin_chunk_kinds sample_decls (write_binary sample_decls Endian.LSB triangle
        no_options sample_indeterminate).os).Nodup
    ∧ ((sample_decls.Entity_Vertex, sample_decls.Type_Pos)
          ∈ builtin_chunk_kinds sample_decls (write_binary sample_decls Endian.LSB triangle
              no_options sample_indeterminate).os
        ↔ triangle.n_vertices ≠ 0)
    ∧ ((sample_decls.Entity_Vertex, sample_decls.Type_Topology)
          ∈ builtin_chunk_kinds sample_decls (write_binary sample_decls Endian.LSB triangle
              no_options sample_indeterminate).os
        ↔ triangle.n_vertices ≠ 0)
    ∧ ((sample_decls.Entity_Halfedge, sample_decls.Type_Topology)
          ∈ builtin_chunk_kinds sample_decls (write_binary sample_decls Endian.LSB triangle
              no_options sample_indeterminate).os
        ↔ triangle.n_edges ≠ 0) :=
  builtin_chunks_in_fixed_order sample_decls (by decide) Endian.LSB triangle no_options
    sample_indeterminate (by decide)

/-- C4. `write_binary` first stores the file header: magic bytes `O`, `M`, mesh
kind `T` for a triangle mesh and `P` otherwise, version `mk_version(2,2)`, and
the vertex, face and edge counts of the exporter (counts within the 32 bit
range of the header fields); no later store call stores a file header, so it is
written once and before every chunk. -/
theorem file_header_first_and_once (F : Decls) (host : Endian) (be : BaseExporter)
    (o : Options) (u : Indeterminate) (hv : be.n_vertices < 4294967296)
    (hf : be.n_faces < 4294967296) (he : be.n_edges < 4294967296) :
    ∃ rest, (write_binary F host be o u).os
        = Record.header
            { magic_0 := 'O', magic_1 := 'M',
              mesh_ := if be.is_triangle_mesh then 'T' else 'P',
              version_ := F.mk_version 2 2,
              n_vertices_ := be.n_vertices, n_faces_ := be.n_faces,
              n_edges_ := be.n_edges }
            (swap_required host o) :: rest
      ∧ ∀ r ∈ rest, ∀ h sw, r ≠ Record.header h sw := by
  obtain ⟨rest, hos, hrest⟩ := write_binary_os_forall F host be o u
    (fun r => ∀ h sw, r ≠ Record.header h sw)
    (fun _ _ _ h => Record.noConfusion h) (fun _ _ _ h => Record.noConfusion h)
    (fun _ _ _ h => Record.noConfusion h) (fun _ _ _ h => Record.noConfusion h)
    (fun _ _ _ h => Record.noConfusion h) (fun _ _ _ _ h => Record.noConfusion h)
    (fun _ _ _ h => Record.noConfusion h) (fun _ _ _ h => Record.noConfusion h)
    (fun _ _ _ h => Record.noConfusion h)
  refine ⟨rest, ?_, hrest⟩
  rw [hos]
  simp only [file_header, version_, Nat.mod_eq_of_lt hv, Nat.mod_eq_of_lt hf,
    Nat.mod_eq_of_lt he]

/-- Witness of C4: the triangle mesh, no option set. -/
theorem file_header_first_and_once_witness :
    ∃ rest, (write_binary sample_decls Endian.LSB triangle no_options
        sample_indeterminate).os
        = Record.header
            { magic_0 := 'O', magic_1 := 'M',
              mesh_ := if triangle.is_triangle_mesh then 'T' else 'P',
              version_ := sample_decls.mk_version 2 2,
              n_vertices_ := triangle.n_vertices, n_faces_ := triangle.n_faces,
              n_edges_ := triangle.n_edges }
            (swap_required Endian.LSB no_options) :: rest
      ∧ ∀ r ∈ rest, ∀ h sw, r ≠ Record.header h sw :=
  file_header_first_and_once sample_decls Endian.LSB triangle no_options
    sample_indeterminate (by decide) (by decide) (by decide)

/-- C9. Every store call of an encode (file header, chunk headers, payload
elements, the calls of the custom property chunks) is given the same swap
argument: the value (Swap option set) or (host byte order is MSB). -/
theorem swap_argument_uniform (F : Decls) (host : Endian) (be : BaseExporter)
    (o : Options) (u : Indeterminate) :
    ∀ r ∈ (write_binary F host be o u).os,
      r.swap = (o.check Flag.Swap || (host == Endian.MSB)) := by
  obtain ⟨rest, hos, hrest⟩ := write_binary_os_forall F host be o u
    (fun r => r.swap = (o.check Flag.Swap || (host == Endian.MSB)))
    (fun _ => rfl) (fun _ => rfl) (fun _ => rfl) (fun _ => rfl) (fun _ => rfl)
    (fun _ _ => rfl) (fun _ => rfl) (fun _ => rfl) (fun _ => rfl)
  intro r hr
  rw [hos] at hr
  rcases List.mem_cons.1 hr with h | h
  · subst h
    rfl
  · exact hrest r h

/-- Witness of C9: on a host of byte order MSB the file header of the triangle
mesh is stored with the swap argument set. -/
theorem swap_argument_uniform_witness :
    Record.header (file_header sample_decls triangle) true
        ∈ (write_binary sample_decls Endian.MSB triangle no_options sample_indeterminate).os
    ∧ (Record.header (file_header sample_decls triangle) true).swap
        = (no_options.check Flag.Swap || (Endian.MSB == Endian.MSB)) :=
  have hm : Record.header (file_header sample_decls triangle) true
      ∈ (write_binary sample_decls Endian.MSB triangle no_options
          sample_indeterminate).os := by
    rw [write_binary_os _ _ _ _ _ (by decide)]
    exact List.mem_cons_self _ _
  ⟨hm, swap_argument_uniform sample_decls Endian.MSB triangle no_options
    sample_indeterminate _ hm⟩

/-- C5. With the Custom option set, the store calls between the built-in
chunks and the Sentinel are, property by property in the order vertex, face,
edge, halfedge, mesh, the Custom chunk of the property when it is non-null,
persistent, has a non-empty name and its name is not reserved, and nothing
otherwise: a filtered property contributes no store call and no byte, a property
that passes contributes exactly one chunk, of data kind Custom with the name
flag set. A persistent property named `myProp` passes; a property named
`v:internal` or with an empty name does not. -/
theorem custom_property_filtering (F : Decls) (host : Endian) (be : BaseExporter)
    (o : Options) (u : Indeterminate) (k : BaseKernel) (hker : be.kernel = some k)
    (hc : o.check Flag.Custom = true) :
    (write_binary F host be o u).os
      = Record.header (file_header F be) (swap_required host o)
        :: ((run_blocks (swap_required host o)
              (builtin_blocks F be o (file_header F be) (swap_required host o))
              u.chunk_header).1
          ++ (((attached F k).map
                (custom_records F (swap_required host o) u.chdr)).flatten
            ++ [Record.chunk_header (sentinel F) (swap_required host o)]))
    ∧ (∀ ep : Nat × Option BaseProperty, custom_written ep.2 = false →
        custom_records F (swap_required host o) u.chdr ep = []
        ∧ serialize F host (custom_records F (swap_required host o) u.chdr ep) = [])
    ∧ (∀ (e : Nat) (p : BaseProperty), custom_written (some p) = true →
        chunks (custom_records F (swap_required host o) u.chdr (e, some p))
          = [custom_chunk F (swap_required host o) u.chdr e p]
        ∧ (custom_chunk F (swap_required host o) u.chdr e p).1.type_ = F.Type_Custom
        ∧ (custom_chunk F (swap_required host o) u.chdr e p).1.name_ = true
        ∧ (custom_chunk F (swap_required host o) u.chdr e p).1.entity_ = e)
    ∧ (∀ p : BaseProperty, p.persistent = true → p.name = "myProp" →
        custom_written (some p) = true)
    ∧ (∀ p : BaseProperty, p.name = "v:internal" ∨ p.name = "" →
        custom_written (some p) = false) := by
  refine ⟨?_, ?_, ?_, ?_, ?_⟩
  · have hk : o.check Flag.Custom = true → be.kernel.isSome = true := by
      intro _
      simp [hker]
    rw [write_binary_os F host be o u hk]
    simp [visited, hc, hker]
  · intro ep hw
    have h : custom_records F (swap_required host o) u.chdr ep = [] := by
      unfold custom_records
      split
      · rfl
      · rename_i p hp
        rw [hp] at hw
        simp [hw]
    rw [h]
    exact ⟨rfl, rfl⟩
  · intro e p hw
    refine ⟨?_, rfl, rfl, rfl⟩
    simp only [custom_records, hw, if_true, chunk_records]
    exact chunks_chunk _ _ _ (payload_custom_chunk F _ _ e p)
  · intro p hp hn
    simp only [custom_written, hp, hn]
    decide
  · intro p hn
    rcases hn with hn | hn <;> simp only [custom_written, hn] <;> cases p.persistent <;> decide

/-- Witness of C5: the triangle mesh with the vertex properties `v:internal`,
an unnamed one, `myProp` and a null entry: only the chunk of `myProp` stands
between the built-in chunks and the Sentinel. -/
theorem custom_property_filtering_witness :
    triangle_props.kernel = some ⟨sample_props, [], [], [], []⟩
    ∧ custom_options.check Flag.Custom = true
    ∧ (write_binary sample_decls Endian.LSB triangle_props custom_options
        sample_indeterminate).os
      = Record.header (file_header sample_decls triangle_props)
          (swap_required Endian.LSB custom_options)
        :: ((run_blocks (swap_required Endian.LSB custom_options)
              (builtin_blocks sample_decls triangle_props custom_options
                (file_header sample_decls triangle_props)
                (swap_required Endian.LSB custom_options))
              sample_indeterminate.chunk_header).1
          ++ (((attached sample_decls ⟨sample_props, [], [], [], []⟩).map
                (custom_records sample_decls (swap_required Endian.LSB custom_options)
                  sample_indeterminate.chdr)).flatten
            ++ [Record.chunk_header (sentinel sample_decls)
                  (swap_required Endian.LSB custom_options)])) :=
  ⟨rfl, rfl,
    (custom_property_filtering sample_decls Endian.LSB triangle_props custom_options
      sample_indeterminate ⟨sample_props, [], [], [], []⟩ rfl rfl).1⟩

/-! ## Finding the chunk of a built-in block in the stream -/

theorem mem_run_chunks_of_cond (bs : List Block) (ch : Chunk.Header) (b : Block)
    (hb : b ∈ bs) (hc : b.cond = true) : ∃ c, b.chunk c ∈ run_chunks bs ch := by
  induction bs generalizing ch with
  | nil => simp at hb
  | cons b' bs ih =>
    rcases List.mem_cons.1 hb with h | h
    · subst h
      exact ⟨ch, by simp [run_chunks, hc]⟩
    · simp only [run_chunks]
      split
      · obtain ⟨c, hcm⟩ := ih (b'.assign ch) h
        exact ⟨c, List.mem_cons_of_mem _ hcm⟩
      · exact ih ch h

theorem builtin_chunk_mem (F : Decls) (host : Endian) (be : BaseExporter) (o : Options)
    (u : Indeterminate) (hk : o.check Flag.Custom = true → be.kernel.isSome = true)
    (b : Block)
    (hb : b ∈ builtin_blocks F be o (file_header F be) (swap_required host o))
    (hc : b.cond = true) : ∃ c, b.chunk c ∈ chunks (write_binary F host be o u).os := by
  obtain ⟨c, hcm⟩ := mem_run_chunks_of_cond _ u.chunk_header b hb hc
  refine ⟨c, ?_⟩
  rw [write_binary_chunks F host be o u hk]
  exact List.mem_append_left _ hcm

theorem chunk_of_kind (F : Decls) (hF : F.WellFormed) (host : Endian) (be : BaseExporter)
    (o : Options) (u : Indeterminate)
    (hk : o.check Flag.Custom = true → be.kernel.isSome = true)
    (c : Chunk.Header × List Record) (hc : c ∈ chunks (write_binary F host be o u).os)
    (b : Block)
    (hb : b ∈ builtin_blocks F be o (file_header F be) (swap_required host o))
    (c0 : Chunk.Header) (hkind : chunk_kind c = chunk_kind (b.chunk c0)) :
    b.cond = true ∧ ∃ ch, c = b.chunk ch := by
  have hn : ((builtin_blocks F be o (file_header F be) (swap_required host o)).map
      fun b => chunk_kind (b.chunk c0)).Nodup := by
    rw [builtin_kinds]
    exact builtin_order_nodup F hF
  have hmem : chunk_kind (b.chunk c0) ∈ builtin_order F := by
    rw [← builtin_kinds F be o (file_header F be) (swap_required host o) c0]
    exact List.mem_map.2 ⟨b, hb, rfl⟩
  have hord := builtin_order_kinds F hF _ hmem
  rw [← hkind] at hord
  rw [write_binary_chunks F host be o u hk] at hc
  simp only [List.mem_append, List.mem_singleton] at hc
  rcases hc with h | h | h
  · obtain ⟨b', hb', ch, hcond, rfl⟩ := mem_run_chunks _ _ _ h
    have hkey : chunk_kind (b'.chunk c0) = chunk_kind (b.chunk c0) := by
      rw [← hkind]
      exact (builtin_kind_indep F be o _ _ c0 b' hb' ch).symm
    have := List.inj_on_of_nodup_map hn hb' hb hkey
    subst this
    exact ⟨hcond, ch, rfl⟩
  · obtain ⟨e, p, _, _, rfl⟩ := mem_custom_chunks _ _ _ _ _ h
    exact absurd rfl hord.1
  · subst h
    exact absurd rfl hord.2

theorem topology_chunk (F : Decls) (hF : F.WellFormed) (host : Endian) (be : BaseExporter)
    (o : Options) (u : Indeterminate)
    (hk : o.check Flag.Custom = true → be.kernel.isSome = true)
    (c : Chunk.Header × List Record) (hc : c ∈ chunks (write_binary F host be o u).os) :
    (chunk_kind c = (F.Entity_Halfedge, F.Type_Topology) →
      c.1.bits_ = needed_bits F (be.n_edges * 4 % 18446744073709551616)
      ∧ c.1.dim_ = F.Dim_3D
      ∧ ∀ r ∈ c.2, ∃ v, r = Record.integer v
          (needed_bits F (be.n_edges * 4 % 18446744073709551616)) (swap_required host o))
    ∧ (chunk_kind c = (F.Entity_Vertex, F.Type_Topology) →
      c.1.bits_ = needed_bits F (be.n_edges * 4 % 18446744073709551616)
      ∧ c.1.dim_ = F.Dim_1D
      ∧ ∀ r ∈ c.2, ∃ v, r = Record.integer v
          (needed_bits F (be.n_edges * 4 % 18446744073709551616)) (swap_required host o))
    ∧ (chunk_kind c = (F.Entity_Face, F.Type_Topology) →
      c.1.bits_ = needed_bits F (be.n_edges * 4 % 18446744073709551616)
      ∧ c.1.dim_ = F.Dim_1D
      ∧ ∀ r ∈ c.2, ∃ v, r = Record.integer v
          (needed_bits F (be.n_edges * 4 % 18446744073709551616))
          (swap_required host o)) := by
  refine ⟨fun hkind => ?_, fun hkind => ?_, fun hkind => ?_⟩
  · obtain ⟨_, ch, rfl⟩ := chunk_of_kind F hF host be o u hk c hc
      (write_halfedge_topology F be (file_header F be) (swap_required host o))
      (by simp [builtin_blocks]) u.chunk_header hkind
    refine ⟨rfl, rfl, ?_⟩
    intro r hr
    simp only [Block.chunk, write_halfedge_topology, List.mem_flatten, List.mem_map] at hr
    obtain ⟨x, ⟨i, _, rfl⟩, hrx⟩ := hr
    simp only [List.mem_cons, List.mem_singleton, List.not_mem_nil, or_false] at hrx
    rcases hrx with h | h | h <;> exact ⟨_, h⟩
  · obtain ⟨_, ch, rfl⟩ := chunk_of_kind F hF host be o u hk c hc
      (write_vertex_topology F be (file_header F be) (swap_required host o))
      (by simp [builtin_blocks]) u.chunk_header hkind
    refine ⟨rfl, rfl, ?_⟩
    intro r hr
    simp only [Block.chunk, write_vertex_topology, List.mem_map] at hr
    obtain ⟨i, _, rfl⟩ := hr
    exact ⟨_, rfl⟩
  · obtain ⟨_, ch, rfl⟩ := chunk_of_kind F hF host be o u hk c hc
      (write_face_topology F be (file_header F be) (swap_required host o))
      (by simp [builtin_blocks]) u.chunk_header hkind
    refine ⟨rfl, rfl, ?_⟩
    intro r hr
    simp only [Block.chunk, write_face_topology, List.mem_map] at hr
    obtain ⟨i, _, rfl⟩ := hr
    exact ⟨_, rfl⟩

/-- C8. The Halfedge-Topology, Vertex-Topology and Face-Topology chunk headers
of one encode carry the bits code `needed_bits(4 * n_edges)`, every element of
their payloads is an integer stored at that width, the Halfedge-Topology header
declares dimension 3 and the two others dimension 1; a Face-Topology chunk is
always present. -/
theorem topology_chunks_same_width (F : Decls) (hF : F.WellFormed) (host : Endian)
    (be : BaseExporter) (o : Options) (u : Indeterminate)
    (hk : o.check Flag.Custom = true → be.kernel.isSome = true)
    (he : 4 * be.n_edges < 18446744073709551616) :
    (∀ c ∈ chunks (write_binary F host be o u).os,
      (chunk_kind c = (F.Entity_Halfedge, F.Type_Topology) →
        c.1.bits_ = needed_bits F (4 * be.n_edges) ∧ c.1.dim_ = F.Dim_3D
        ∧ ∀ r ∈ c.2, ∃ v, r = Record.integer v (needed_bits F (4 * be.n_edges))
            (swap_required host o))
      ∧ (chunk_kind c = (F.Entity_Vertex, F.Type_Topology) →
        c.1.bits_ = needed_bits F (4 * be.n_edges) ∧ c.1.dim_ = F.Dim_1D
        ∧ ∀ r ∈ c.2, ∃ v, r = Record.integer v (needed_bits F (4 * be.n_edges))
            (swap_required host o))
      ∧ (chunk_kind c = (F.Entity_Face, F.Type_Topology) →
        c.1.bits_ = needed_bits F (4 * be.n_edges) ∧ c.1.dim_ = F.Dim_1D
        ∧ ∀ r ∈ c.2, ∃ v, r = Record.integer v (needed_bits F (4 * be.n_edges))
            (swap_required host o)))
    ∧ ∃ c ∈ chunks (write_binary F host be o u).os,
        chunk_kind c = (F.Entity_Face, F.Type_Topology) := by
  have hmod : be.n_edges * 4 % 18446744073709551616 = 4 * be.n_edges := by
    rw [Nat.mul_comm]
    exact Nat.mod_eq_of_lt he
  constructor
  · intro c hc
    have h := topology_chunk F hF host be o u hk c hc
    rw [hmod] at h
    exact h
  · obtain ⟨ch, hch⟩ := builtin_chunk_mem F host be o u hk
      (write_face_topology F be (file_header F be) (swap_required host o))
      (by simp [builtin_blocks]) rfl
    exact ⟨_, hch, rfl⟩

/-- Witness of C8: the triangle mesh, no option set. -/
theorem topology_chunks_same_width_witness :
    sample_decls.WellFormed
    ∧ (no_options.check Flag.Custom = true → triangle.kernel.isSome = true)
    ∧ 4 * triangle.n_edges < 18446744073709551616
    ∧ ∃ c ∈ chunks (write_binary sample_decls Endian.LSB triangle no_options
          sample_indeterminate).os,
        chunk_kind c = (sample_decls.Entity_Face, sample_decls.Type_Topology) :=
  ⟨by decide, by decide, by decide,
    (topology_chunks_same_width sample_decls (by decide) Endian.LSB triangle no_options
      sample_indeterminate (by decide) (by decide)).2⟩

/-- C7, counterexample. The polygon with 100 edges has 200 half-edges, at most
255, and its Face-Topology chunk header declares 16 bit width, not 8 bit; the
polygon with 20000 edges has 40000 half-edges, within (255, 65535], and its
Face-Topology chunk header declares 32 bit width, not 16 bit. -/
theorem topology_width_by_halfedge_count_fails :
    (2 * (polygon 100).n_edges ≤ 255
      ∧ ∃ c ∈ chunks (write_binary sample_decls Endian.LSB (polygon 100) no_options
            sample_indeterminate).os,
          chunk_kind c = (sample_decls.Entity_Face, sample_decls.Type_Topology)
          ∧ c.1.bits_ = sample_decls.Integer_16 ∧ c.1.bits_ ≠ sample_decls.Integer_8)
    ∧ (255 < 2 * (polygon 20000).n_edges ∧ 2 * (polygon 20000).n_edges ≤ 65535
      ∧ ∃ c ∈ chunks (write_binary sample_decls Endian.LSB (polygon 20000) no_options
            sample_indeterminate).os,
          chunk_kind c = (sample_decls.Entity_Face, sample_decls.Type_Topology)
          ∧ c.1.bits_ = sample_decls.Integer_32 ∧ c.1.bits_ ≠ sample_decls.Integer_16) := by
  constructor
  · refine ⟨by decide, ?_⟩
    obtain ⟨ch, hch⟩ := builtin_chunk_mem sample_decls Endian.LSB (polygon 100) no_options
      sample_indeterminate (by decide)
      (write_face_topology sample_decls (polygon 100)
        (file_header sample_decls (polygon 100)) (swap_required Endian.LSB no_options))
      (by simp [builtin_blocks]) rfl
    refine ⟨_, hch, rfl, ?_, ?_⟩
    · show needed_bits sample_decls ((polygon 100).n_edges * 4 % 18446744073709551616)
        = sample_decls.Integer_16
      decide
    · show needed_bits sample_decls ((polygon 100).n_edges * 4 % 18446744073709551616)
        ≠ sample_decls.Integer_8
      decide
  · refine ⟨by decide, by decide, ?_⟩
    obtain ⟨ch, hch⟩ := builtin_chunk_mem sample_decls Endian.LSB (polygon 20000)
      no_options sample_indeterminate (by decide)
      (write_face_topology sample_decls (polygon 20000)
        (file_header sample_decls (polygon 20000)) (swap_required Endian.LSB no_options))
      (by simp [builtin_blocks]) rfl
    refine ⟨_, hch, rfl, ?_, ?_⟩
    · show needed_bits sample_decls ((polygon 20000).n_edges * 4 % 18446744073709551616)
        = sample_decls.Integer_32
      decide
    · show needed_bits sample_decls ((polygon 20000).n_edges * 4 % 18446744073709551616)
        ≠ sample_decls.Integer_16
      decide

/-- C7, amended. The width follows four times the edge count: in every Topology
chunk header written by `write_binary`, the bits field denotes 8 bit width when
`4 * n_edges ≤ 255` (a half-edge count of at most 127) and 16 bit width when
`4 * n_edges` is in (255, 65535] (a half-edge count in (127, 32767]). -/
theorem topology_width_by_four_times_edge_count (F : Decls) (hF : F.WellFormed)
    (host : Endian) (be : BaseExporter) (o : Options) (u : Indeterminate)
    (hk : o.check Flag.Custom = true → be.kernel.isSome = true) :
    ∀ c ∈ chunks (write_binary F host be o u).os,
      (chunk_kind c = (F.Entity_Halfedge, F.Type_Topology)
        ∨ chunk_kind c = (F.Entity_Vertex, F.Type_Topology)
        ∨ chunk_kind c = (F.Entity_Face, F.Type_Topology)) →
      (4 * be.n_edges ≤ 255 → c.1.bits_ = F.Integer_8)
      ∧ (255 < 4 * be.n_edges → 4 * be.n_edges ≤ 65535 → c.1.bits_ = F.Integer_16) := by
  intro c hc hkind
  have h := topology_chunk F hF host be o u hk c hc
  have hbits : c.1.bits_ = needed_bits F (be.n_edges * 4 % 18446744073709551616) := by
    rcases hkind with hk1 | hk1 | hk1
    · exact (h.1 hk1).1
    · exact (h.2.1 hk1).1
    · exact (h.2.2 hk1).1
  rw [hbits]
  constructor
  · intro h8
    have hmod : be.n_edges * 4 % 18446744073709551616 = be.n_edges * 4 :=
      Nat.mod_eq_of_lt (by omega)
    rw [hmod]
    unfold needed_bits
    rw [if_pos (by omega)]
  · intro h1 h2
    have hmod : be.n_edges * 4 % 18446744073709551616 = be.n_edges * 4 :=
      Nat.mod_eq_of_lt (by omega)
    rw [hmod]
    unfold needed_bits
    rw [if_neg (by omega), if_pos (by omega)]

/-- Witness of C7, amended: the triangle mesh has `4 * 3 ≤ 255` and its
Face-Topology chunk header declares 8 bit width. -/
theorem topology_width_by_four_times_edge_count_witness :
    sample_decls.WellFormed
    ∧ (no_options.check Flag.Custom = true → triangle.kernel.isSome = true)
    ∧ triangle_face_topology
        ∈ chunks (write_binary sample_decls Endian.LSB triangle no_options
            sample_indeterminate).os
    ∧ chunk_kind triangle_face_topology
        = (sample_decls.Entity_Face, sample_decls.Type_Topology)
    ∧ 4 * triangle.n_edges ≤ 255
    ∧ triangle_face_topology.1.bits_ = sample_decls.Integer_8 :=
  have hm : triangle_face_topology
      ∈ chunks (write_binary sample_decls Endian.LSB triangle no_options
          sample_indeterminate).os := by decide
  ⟨by decide, by decide, hm, rfl, by decide,
    (topology_width_by_four_times_edge_count sample_decls (by decide) Endian.LSB triangle
      no_options sample_indeterminate (by decide) triangle_face_topology hm
      (Or.inr (Or.inr rfl))).1 (by decide)⟩

/-- C6, the code at the failing input. In the mesh with 129 vertices whose only
face is the triangle on the vertices 126, 127, 128 all ids are valid, the
Halfedge-Topology chunk declares 8 bit width, and the to-vertex id 128 is stored
at that width although it is not representable as a signed 8 bit integer: its
stored byte is the byte of -128. -/
theorem to_vertex_id_exceeds_planned_width :
    (∀ i, i < 2 * (triangle_mesh 129 126 127 128 []).n_edges →
      (0 ≤ (triangle_mesh 129 126 127 128 []).get_next_halfedge_id (HalfedgeHandle i)
        ∧ (triangle_mesh 129 126 127 128 []).get_next_halfedge_id (HalfedgeHandle i)
            < 2 * (triangle_mesh 129 126 127 128 []).n_edges)
      ∧ (0 ≤ (triangle_mesh 129 126 127 128 []).get_to_vertex_id (HalfedgeHandle i)
        ∧ (triangle_mesh 129 126 127 128 []).get_to_vertex_id (HalfedgeHandle i)
            < (triangle_mesh 129 126 127 128 []).n_vertices)
      ∧ (-1 ≤ (triangle_mesh 129 126 127 128 []).get_face_id (HalfedgeHandle i)
        ∧ (triangle_mesh 129 126 127 128 []).get_face_id (HalfedgeHandle i)
            < (triangle_mesh 129 126 127 128 []).n_faces))
    ∧ (∃ c ∈ chunks (write_binary sample_decls Endian.LSB (triangle_mesh 129 126 127 128 [])
          no_options sample_indeterminate).os,
        chunk_kind c = (sample_decls.Entity_Halfedge, sample_decls.Type_Topology)
        ∧ c.1.bits_ = needed_bits sample_decls
            (4 * (triangle_mesh 129 126 127 128 []).n_edges)
        ∧ c.1.bits_ = sample_decls.Integer_8
        ∧ Record.integer 128 sample_decls.Integer_8 false ∈ c.2)
    ∧ ¬ representable sample_decls sample_decls.Integer_8 128
    ∧ Record.bytes sample_decls Endian.LSB
          (Record.integer 128 sample_decls.Integer_8 false) = [128]
    ∧ Record.bytes sample_decls Endian.LSB
          (Record.integer (-128) sample_decls.Integer_8 false) = [128] := by
  refine ⟨by decide, ?_, by decide, by decide, by decide⟩
  obtain ⟨ch, hch⟩ := builtin_chunk_mem sample_decls Endian.LSB
    (triangle_mesh 129 126 127 128 []) no_options sample_indeterminate (by decide)
    (write_halfedge_topology sample_decls (triangle_mesh 129 126 127 128 [])
      (file_header sample_decls (triangle_mesh 129 126 127 128 []))
      (swap_required Endian.LSB no_options))
    (by simp [builtin_blocks]) (by decide)
  refine ⟨_, hch, rfl, ?_, ?_, ?_⟩
  · show needed_bits sample_decls
      ((triangle_mesh 129 126 127 128 []).n_edges * 4 % 18446744073709551616) = _
    decide
  · show needed_bits sample_decls
      ((triangle_mesh 129 126 127 128 []).n_edges * 4 % 18446744073709551616) = _
    decide
  · show Record.integer 128 sample_decls.Integer_8 false
      ∈ (write_halfedge_topology sample_decls (triangle_mesh 129 126 127 128 [])
          (file_header sample_decls (triangle_mesh 129 126 127 128 []))
          (swap_required Endian.LSB no_options)).payload
          ⟨0, false, sample_decls.Entity_Halfedge, sample_decls.Type_Topology, true, true,
            sample_decls.Dim_3D, sample_decls.Integer_8⟩
    decide

/-! ## The stream and the swap argument -/

theorem write_binary_os_eq_with (F : Decls) (host : Endian) (be : BaseExporter)
    (o : Options) (u : Indeterminate) :
    (write_binary F host be o u).os
      = write_binary_os_with F be o u (swap_required host o) := by
  unfold write_binary write_binary_os_with
  by_cases hc : o.check Flag.Custom = true
  · cases hker : be.kernel with
    | none => simp [hc]
    | some k => simp [hc, write_custom_eq]
  · simp [hc]

theorem run_blocks_map_congr {β : Type} (f : Record → β) (sw sw' : Bool)
    (hf : ∀ h, f (Record.chunk_header h sw) = f (Record.chunk_header h sw'))
    (bs bs' : List Block)
    (h : List.Forall₂ (fun b b' : Block => b.cond = b'.cond ∧ b.assign = b'.assign
      ∧ ∀ c, (b.payload (b.assign c)).map f = (b'.payload (b.assign c)).map f) bs bs') :
    ∀ ch, (run_blocks sw bs ch).1.map f = (run_blocks sw' bs' ch).1.map f
      ∧ (run_blocks sw bs ch).2 = (run_blocks sw' bs' ch).2 := by
  induction h with
  | nil => intro ch; exact ⟨rfl, rfl⟩
  | @cons b b' l l' hb _ ih =>
    intro ch
    obtain ⟨hc, ha, hp⟩ := hb
    have h2 : (b.run sw ch).2 = (b'.run sw' ch).2 := by
      unfold Block.run
      rw [← hc, ← ha]
      split <;> rfl
    have h1 : (b.run sw ch).1.map f = (b'.run sw' ch).1.map f := by
      unfold Block.run
      rw [← hc, ← ha]
      split
      · simp only [List.map_cons, hf, hp]
      · rfl
    simp only [run_blocks, List.map_append, h1, h2]
    exact ⟨by rw [(ih _).1], (ih _).2⟩

theorem builtin_map_withSwap (F : Decls) (be : BaseExporter) (o : Options)
    (header : Header) (ch : Chunk.Header) (b sw sw' : Bool) :
    (run_blocks sw (builtin_blocks F be o header sw) ch).1.map (Record.withSwap b)
      = (run_blocks sw' (builtin_blocks F be o header sw') ch).1.map
          (Record.withSwap b) := by
  refine (run_blocks_map_congr (Record.withSwap b) sw sw' (fun _ => rfl) _ _ ?_ ch).1
  unfold builtin_blocks
  refine List.Forall₂.cons ⟨rfl, rfl, ?_⟩ (List.Forall₂.cons ⟨rfl, rfl, ?_⟩
    (List.Forall₂.cons ⟨rfl, rfl, ?_⟩ (List.Forall₂.cons ⟨rfl, rfl, ?_⟩
    (List.Forall₂.cons ⟨rfl, rfl, ?_⟩ (List.Forall₂.cons ⟨rfl, rfl, ?_⟩
    (List.Forall₂.cons ⟨rfl, rfl, ?_⟩ (List.Forall₂.cons ⟨rfl, rfl, ?_⟩
    (List.Forall₂.cons ⟨rfl, rfl, ?_⟩ (List.Forall₂.cons ⟨rfl, rfl, ?_⟩
    (List.Forall₂.cons ⟨rfl, rfl, ?_⟩ (List.Forall₂.cons ⟨rfl, rfl, ?_⟩
    (List.Forall₂.cons ⟨rfl, rfl, ?_⟩ (List.Forall₂.cons ⟨rfl, rfl, ?_⟩
    List.Forall₂.nil))))))))))))) <;>
  intro c <;>
  simp only [write_vertex_position, write_vertex_normal,
    write_vertex_color, write_vertex_texcoord, write_halfedge_topology,
    write_halfedge_texcoord, write_vertex_topology, write_face_topology,
    write_face_normal, write_face_color, write_vertex_status, write_edge_status,
    write_halfedge_status, write_face_status] <;>
  (try split) <;>
  simp only [List.map_map, List.map_flatten] <;> rfl

theorem custom_map_withSwap (F : Decls) (chdr : Chunk.Header)
    (l : List (Nat × Option BaseProperty)) (b sw sw' : Bool) :
    ((l.map (custom_records F sw chdr)).flatten).map (Record.withSwap b)
      = ((l.map (custom_records F sw' chdr)).flatten).map (Record.withSwap b) := by
  induction l with
  | nil => rfl
  | cons ep rest ih =>
    simp only [List.map_cons, List.flatten_cons, List.map_append, ih]
    congr 1
    unfold custom_records
    split
    · rfl
    · split
      · simp only [chunk_records, custom_chunk, List.map_cons, List.map_append]
        split <;> rfl
      · rfl

theorem os_with_map_withSwap (F : Decls) (be : BaseExporter) (o : Options)
    (u : Indeterminate) (b sw sw' : Bool) :
    (write_binary_os_with F be o u sw).map (Record.withSwap b)
      = (write_binary_os_with F be o u sw').map (Record.withSwap b) := by
  unfold write_binary_os_with
  simp only [List.map_cons, List.map_append, builtin_map_withSwap F be o _ _ b sw sw']
  refine congrArg₂ List.cons rfl (congrArg₂ (fun x y => x ++ y) rfl ?_)
  split
  · split
    · rfl
    · simp only [List.map_append, custom_map_withSwap F _ _ b sw sw']
      rfl
  · rfl

theorem map_withSwap_self (l : List Record) (b : Bool) (h : ∀ r ∈ l, r.swap = b) :
    l.map (Record.withSwap b) = l := by
  induction l with
  | nil => rfl
  | cons r rest ih =>
    have hr := h r (List.mem_cons_self _ _)
    rw [List.map_cons, ih fun x hx => h x (List.mem_cons_of_mem _ hx)]
    congr 1
    cases r <;> simp only [Record.swap] at hr <;> subst hr <;> rfl

theorem os_swap (F : Decls) (host : Endian) (be : BaseExporter) (o : Options)
    (u : Indeterminate) :
    ∀ r ∈ (write_binary F host be o u).os, r.swap = swap_required host o := by
  obtain ⟨rest, hos, hrest⟩ := write_binary_os_forall F host be o u
    (fun r => r.swap = swap_required host o)
    (fun _ => rfl) (fun _ => rfl) (fun _ => rfl) (fun _ => rfl) (fun _ => rfl)
    (fun _ _ => rfl) (fun _ => rfl) (fun _ => rfl) (fun _ => rfl)
  intro r hr
  rw [hos] at hr
  rcases List.mem_cons.1 hr with h | h
  · subst h
    rfl
  · exact hrest r h

theorem store_scalar_flip (size value : Nat) :
    store_scalar Endian.MSB true size value = store_scalar Endian.LSB false size value := by
  simp [store_scalar, host_bytes]

theorem bytes_withSwap_flip (F : Decls) (r : Record) :
    Record.bytes F Endian.MSB (r.withSwap true)
      = Record.bytes F Endian.LSB (r.withSwap false) := by
  cases r <;> simp only [Record.withSwap, Record.bytes, store_scalar_flip]

/-- C10. Without the Swap flag the bytes `write_binary` produces on a host of
byte order MSB are the bytes it produces on a host of byte order LSB. -/
theorem endianness_invariance (F : Decls) (be : BaseExporter) (o : Options)
    (u : Indeterminate) (hs : o.check Flag.Swap = false) :
    serialize F Endian.MSB (write_binary F Endian.MSB be o u).os
      = serialize F Endian.LSB (write_binary F Endian.LSB be o u).os := by
  have hM : swap_required Endian.MSB o = true := by simp [swap_required, hs]
  have hL : swap_required Endian.LSB o = false := by simp [swap_required, hs]
  have h1 := map_withSwap_self _ true (fun r hr => (os_swap F Endian.MSB be o u r hr).trans hM)
  have h2 := map_withSwap_self _ false
    (fun r hr => (os_swap F Endian.LSB be o u r hr).trans hL)
  have h3 : (write_binary F Endian.MSB be o u).os.map (Record.withSwap false)
      = (write_binary F Endian.LSB be o u).os.map (Record.withSwap false) := by
    rw [write_binary_os_eq_with, write_binary_os_eq_with]
    exact os_with_map_withSwap F be o u false _ _
  have h4 : serialize F Endian.MSB ((write_binary F Endian.MSB be o u).os.map
        (Record.withSwap true))
      = serialize F Endian.LSB ((write_binary F Endian.MSB be o u).os.map
        (Record.withSwap false)) := by
    unfold serialize
    rw [List.map_map, List.map_map]
    congr 1
    apply List.map_congr_left
    intro r _
    exact bytes_withSwap_flip F r
  rw [h1] at h4
  rw [h4, h3, h2]

/-- Witness of C10: the triangle mesh with its vertex properties, Custom set. -/
theorem endianness_invariance_witness :
    custom_options.check Flag.Swap = false
    ∧ serialize sample_decls Endian.MSB
        (write_binary sample_decls Endian.MSB triangle_props custom_options
          sample_indeterminate).os
      = serialize sample_decls Endian.LSB
        (write_binary sample_decls Endian.LSB triangle_props custom_options
          sample_indeterminate).os :=
  ⟨rfl, endianness_invariance sample_decls triangle_props custom_options
    sample_indeterminate rfl⟩

/-! ## Ids cut to the planned width -/

theorem serialize_cons (F : Decls) (host : Endian) (r : Record) (l : List Record) :
    serialize F host (r :: l) = Record.bytes F host r ++ serialize F host l := rfl

theorem serialize_append (F : Decls) (host : Endian) (a b : List Record) :
    serialize F host (a ++ b) = serialize F host a ++ serialize F host b := by
  simp [serialize]

theorem integer_bytes_congr (F : Decls) (host : Endian) (v w : Int) (size : Nat)
    (sw : Bool)
    (h : v % (2 : Int) ^ (8 * integer_size F size) = w % (2 : Int) ^ (8 * integer_size F size)) :
    Record.bytes F host (Record.integer v size sw)
      = Record.bytes F host (Record.integer w size sw) := by
  simp only [Record.bytes, h]

theorem stream_with_to_vertex_id (F : Decls) (host : Endian) (be : BaseExporter)
    (o : Options) (u : Indeterminate) (g : Int → Int)
    (hg : ∀ i,
      g i % (2 : Int) ^
          (8 * integer_size F (needed_bits F (be.n_edges * 4 % 18446744073709551616)))
        = be.get_to_vertex_id i % (2 : Int) ^
          (8 * integer_size F (needed_bits F (be.n_edges * 4 % 18446744073709551616)))) :
    serialize F host (write_binary F host (with_to_vertex_id be g) o u).os
      = serialize F host (write_binary F host be o u).os := by
  rw [write_binary_os_eq_with, write_binary_os_eq_with]
  unfold write_binary_os_with
  rw [serialize_cons, serialize_cons, serialize_append, serialize_append]
  refine congrArg₂ (fun x y => x ++ y) rfl (congrArg₂ (fun x y => x ++ y) ?_ rfl)
  unfold serialize
  refine congrArg List.flatten ?_
  refine (run_blocks_map_congr (Record.bytes F host) _ _ (fun _ => rfl) _ _ ?_ _).1
  unfold builtin_blocks
  refine List.Forall₂.cons ⟨rfl, rfl, fun _ => rfl⟩ (List.Forall₂.cons ⟨rfl, rfl, fun _ => rfl⟩
    (List.Forall₂.cons ⟨rfl, rfl, fun _ => rfl⟩ (List.Forall₂.cons ⟨rfl, rfl, fun _ => rfl⟩
    (List.Forall₂.cons ⟨rfl, rfl, ?_⟩ (List.Forall₂.cons ⟨rfl, rfl, fun _ => rfl⟩
    (List.Forall₂.cons ⟨rfl, rfl, fun _ => rfl⟩ (List.Forall₂.cons ⟨rfl, rfl, fun _ => rfl⟩
    (List.Forall₂.cons ⟨rfl, rfl, fun _ => rfl⟩ (List.Forall₂.cons ⟨rfl, rfl, fun _ => rfl⟩
    (List.Forall₂.cons ⟨rfl, rfl, fun _ => rfl⟩ (List.Forall₂.cons ⟨rfl, rfl, fun _ => rfl⟩
    (List.Forall₂.cons ⟨rfl, rfl, fun _ => rfl⟩ (List.Forall₂.cons ⟨rfl, rfl, fun _ => rfl⟩
    List.Forall₂.nil)))))))))))))
  intro c
  simp only [write_halfedge_topology, with_to_vertex_id, List.map_flatten, List.map_map]
  refine congrArg List.flatten (List.map_congr_left fun i _ => ?_)
  simp only [Function.comp, List.map_cons, List.map_nil]
  rw [integer_bytes_congr F host (g (HalfedgeHandle i)) (be.get_to_vertex_id (HalfedgeHandle i))
    _ _ (hg _)]

theorem to_vertex_cut_mod (i : Int) :
    to_vertex_cut i % 256 = triangle_300.get_to_vertex_id i % 256 := by
  show lookup [1, 0, 2, 1, 0, 2] (-1) i % 256
    = lookup [257, 256, 258, 257, 256, 258] (-1) i % 256
  unfold lookup
  split
  · rfl
  · rcases i.toNat with _ | _ | _ | _ | _ | _ | n <;> rfl

/-- Without the connectivity of a mesh the byte stream does not fix the
to-vertex ids. The mesh with 300 vertices, 1 face and 3 edges whose triangle lies
on the vertices 256, 257, 258 and the export surface that differs from it only
in its to-vertex ids, which are 0, 1, 2, are encoded to the same byte stream:
the to-vertex ids are stored on 8 bits. The second surface is not that of a
mesh: the half-edges that leave the vertices 256, 257, 258 start at 0, 1, 2. -/
theorem inconsistent_surface_same_stream :
    serialize sample_decls Endian.LSB
        (write_binary sample_decls Endian.LSB (with_to_vertex_id triangle_300 to_vertex_cut)
          no_options sample_indeterminate).os
      = serialize sample_decls Endian.LSB
        (write_binary sample_decls Endian.LSB triangle_300 no_options
          sample_indeterminate).os
    ∧ (with_to_vertex_id triangle_300 to_vertex_cut).n_vertices = triangle_300.n_vertices
    ∧ triangle_300.get_to_vertex_id (HalfedgeHandle 0) = 257
    ∧ (with_to_vertex_id triangle_300 to_vertex_cut).get_to_vertex_id (HalfedgeHandle 0) = 1
    ∧ (∀ i, i < 2 * triangle_300.n_edges →
        (0 ≤ triangle_300.get_to_vertex_id (HalfedgeHandle i)
          ∧ triangle_300.get_to_vertex_id (HalfedgeHandle i) < triangle_300.n_vertices)
        ∧ (0 ≤ (with_to_vertex_id triangle_300 to_vertex_cut).get_to_vertex_id
                (HalfedgeHandle i)
          ∧ (with_to_vertex_id triangle_300 to_vertex_cut).get_to_vertex_id
                (HalfedgeHandle i) < triangle_300.n_vertices)) := by
  refine ⟨?_, rfl, by decide, by decide, by decide⟩
  apply stream_with_to_vertex_id
  intro i
  exact to_vertex_cut_mod i

/-! ## The entry points `write` -/

theorem stream_options_check (o : Options) (f : Flag) (h1 : f ≠ Flag.Binary)
    (h2 : f ≠ Flag.LSB) (h3 : f ≠ Flag.MSB) :
    (stream_options o).check f = o.check f := by
  cases hb : o.flags_ Flag.Binary <;>
    simp [stream_options, Options.add, Options.sub, Options.check, hb, h1, h2, h3]

theorem write_binary_rc (F : Decls) (host : Endian) (be : BaseExporter) (o : Options)
    (u : Indeterminate) (hk : o.check Flag.Custom = true → be.kernel.isSome = true) :
    (write_binary F host be o u).rc = some true := by
  unfold write_binary
  by_cases hc : o.check Flag.Custom = true
  · have hk' := hk hc
    cases hker : be.kernel with
    | none => simp [hker] at hk'
    | some k => simp [hc]
  · simp [hc]

/-- C11. When the feature check passes, the stream-level `write` calls
`write_binary` with an options value in which Binary and LSB are set, MSB is
cleared, and every other flag (Swap, the per-attribute flags, Custom, Status)
has the value it has in the options of the caller. -/
theorem stream_write_options (F : Decls) (host : Endian) (be : BaseExporter)
    (o : Options) (u : Indeterminate) (hc : check be o = true) :
    write F host be o u = write_binary F host be (stream_options o) u
    ∧ (stream_options o).check Flag.Binary = true
    ∧ (stream_options o).check Flag.LSB = true
    ∧ (stream_options o).check Flag.MSB = false
    ∧ ∀ f, f ≠ Flag.Binary → f ≠ Flag.LSB → f ≠ Flag.MSB →
        (stream_options o).check f = o.check f := by
  refine ⟨by simp [write, hc], ?_, ?_, ?_, ?_⟩
  · cases hb : o.flags_ Flag.Binary <;>
      simp [stream_options, Options.add, Options.sub, Options.check, hb]
  · simp [stream_options, Options.add, Options.sub, Options.check]
  · simp [stream_options, Options.add, Options.sub, Options.check]
  · intro f h1 h2 h3
    cases hb : o.flags_ Flag.Binary <;>
      simp [stream_options, Options.add, Options.sub, Options.check, hb, h1, h2, h3]

/-- Witness of C11: the triangle mesh, no option set. -/
theorem stream_write_options_witness :
    check triangle no_options = true
    ∧ (stream_options no_options).check Flag.Binary = true
    ∧ (stream_options no_options).check Flag.LSB = true
    ∧ (stream_options no_options).check Flag.MSB = false :=
  ⟨rfl,
    (stream_write_options sample_decls Endian.LSB triangle no_options sample_indeterminate
      rfl).2.1,
    (stream_write_options sample_decls Endian.LSB triangle no_options sample_indeterminate
      rfl).2.2.1,
    (stream_write_options sample_decls Endian.LSB triangle no_options sample_indeterminate
      rfl).2.2.2.1⟩

/-- C12. When the feature check fails, the stream-level `write` returns false
and performs no store call: no byte is written to the stream. -/
theorem unsupported_feature_writes_nothing (F : Decls) (host : Endian) (be : BaseExporter)
    (o : Options) (u : Indeterminate) (hc : check be o = false) :
    (write F host be o u).rc = some false
    ∧ (write F host be o u).os = []
    ∧ serialize F host (write F host be o u).os = [] := by
  simp [write, hc, serialize]

/-- Witness of C12: vertex normals are requested from the triangle mesh, which
has none. -/
theorem unsupported_feature_writes_nothing_witness :
    check triangle normal_options = false
    ∧ (write sample_decls Endian.LSB triangle normal_options sample_indeterminate).rc
        = some false
    ∧ (write sample_decls Endian.LSB triangle normal_options sample_indeterminate).os = []
    ∧ serialize sample_decls Endian.LSB
        (write sample_decls Endian.LSB triangle normal_options sample_indeterminate).os
        = [] :=
  ⟨by decide,
    unsupported_feature_writes_nothing sample_decls Endian.LSB triangle normal_options
      sample_indeterminate (by decide)⟩

/-- C13, the code at the failing input. For the exporter of the triangle mesh
whose `kernel()` is null the stream-level `write` with no option set returns
true after 31 store calls; with the Custom option set it performs 30 store
calls and then dereferences the null pointer. The file-name `write` returns
false for every exporter without kernel, opening no file and writing nothing. -/
theorem null_kernel_accepted_by_stream_write :
    triangle_no_kernel.kernel = none
    ∧ (write sample_decls Endian.LSB triangle_no_kernel no_options sample_indeterminate).rc
        = some true
    ∧ (write sample_decls Endian.LSB triangle_no_kernel no_options
        sample_indeterminate).os.length = 31
    ∧ (write sample_decls Endian.LSB triangle_no_kernel custom_options
        sample_indeterminate).rc = none
    ∧ (write sample_decls Endian.LSB triangle_no_kernel custom_options
        sample_indeterminate).os.length = 30
    ∧ (∀ (F : Decls) (host : Endian) (is_open : Bool) (filename : String)
        (be : BaseExporter) (o : Options) (u : Indeterminate), be.kernel = none →
        (write_file F host is_open filename be o u).rc = some false
        ∧ (write_file F host is_open filename be o u).opened = false
        ∧ (write_file F host is_open filename be o u).os = []) := by
  refine ⟨rfl, by decide, by decide, by decide, by decide, ?_⟩
  intro F host is_open filename be o u hk
  simp [write_file, hk]

theorem rfind_isSome_of_suffix (s pat : List Char) (h : pat <:+ s) :
    (rfind s pat).isSome = true := by
  obtain ⟨t, rfl⟩ := h
  unfold rfind
  rw [List.find?_isSome]
  refine ⟨t.length, ?_, ?_⟩
  · simp
    omega
  · simp

/-- C14, the code at the failing input. The file name `mesh.om.txt` does not
end in `.om`, yet the file-name `write` gets past the extension check, opens the
file and returns true. Every file name that ends in `.om` gets past the check;
a file name without any occurrence of `.om` fails it, and then no file is
opened and nothing is written. -/
theorem extension_check_accepts_inner_om :
    ¬ (".om".data <:+ "mesh.om.txt".data)
    ∧ (write_file sample_decls Endian.LSB true "mesh.om.txt" triangle no_options
        sample_indeterminate).opened = true
    ∧ (write_file sample_decls Endian.LSB true "mesh.om.txt" triangle no_options
        sample_indeterminate).rc = some true
    ∧ (∀ filename : String, ".om".data <:+ filename.data →
        (rfind filename.data ".om".data).isSome = true)
    ∧ (∀ (F : Decls) (host : Endian) (is_open : Bool) (filename : String)
        (be : BaseExporter) (o : Options) (u : Indeterminate),
        rfind filename.data ".om".data = none →
        (write_file F host is_open filename be o u).rc = some false
        ∧ (write_file F host is_open filename be o u).opened = false
        ∧ (write_file F host is_open filename be o u).os = []) := by
  refine ⟨by decide, by decide, by decide, ?_, ?_⟩
  · intro filename h
    exact rfind_isSome_of_suffix _ _ h
  · intro F host is_open filename be o u h
    unfold write_file
    split
    · exact ⟨rfl, rfl, rfl⟩
    · simp [h]

/-! ## Writes that fail -/

theorem foldl_store_failed (k : Nat) (l : List Record) (w : List Record) :
    l.foldl (ostream.store k) ⟨w, false⟩ = ⟨w, false⟩ := by
  induction l with
  | nil => rfl
  | cons r rest ih => simpa [List.foldl_cons, ostream.store] using ih

theorem foldl_store_good (k : Nat) (l : List Record) (w : List Record)
    (hw : w.length ≤ k) :
    l.foldl (ostream.store k) ⟨w, true⟩
      = ⟨w ++ l.take (k - w.length), decide (w.length + l.length ≤ k)⟩ := by
  induction l generalizing w with
  | nil => simp [hw]
  | cons r rest ih =>
    rw [List.foldl_cons]
    by_cases hlt : w.length < k
    · have hstep : ostream.store k ⟨w, true⟩ r = ⟨w ++ [r], true⟩ := by
        simp [ostream.store, hlt]
      rw [hstep, ih (w ++ [r]) (by simp; omega)]
      simp only [List.length_append, List.length_singleton, List.length_cons,
        List.length_nil, Nat.zero_add]
      rw [show k - w.length = (k - (w.length + 1)) + 1 by omega, List.take_succ_cons]
      simp only [List.append_assoc, List.singleton_append, ostream.mk.injEq, true_and,
        decide_eq_decide]
      omega
    · have hstep : ostream.store k ⟨w, true⟩ r = ⟨w, false⟩ := by
        simp [ostream.store, hlt]
      rw [hstep, foldl_store_failed]
      have hk : k - w.length = 0 := by omega
      simp [hk]
      omega

/-- C15, counterexample. On a stream whose every write fails the stream-level
`write` of the triangle mesh leaves the stream failed and empty and returns
true. -/
theorem failed_writes_not_reported :
    (write_to 0 sample_decls Endian.LSB triangle no_options sample_indeterminate).1.good
        = false
    ∧ (write_to 0 sample_decls Endian.LSB triangle no_options
        sample_indeterminate).1.written = []
    ∧ (write_to 0 sample_decls Endian.LSB triangle no_options sample_indeterminate).2
        = some true := by
  refine ⟨?_, ?_, by decide⟩
  · unfold write_to
    rw [foldl_store_good 0 _ [] (Nat.zero_le _)]
    decide
  · unfold write_to
    rw [foldl_store_good 0 _ [] (Nat.zero_le _)]
    rfl

/-- C15, amended. The returned status does not report write failures: when the
feature check passes (and the kernel is there when Custom is requested) the
stream-level `write` returns true on a stream that accepts any number
`capacity` of store calls; the stream holds the store calls made before the
failure and is good exactly when no store call failed. -/
theorem status_ignores_failed_writes (capacity : Nat) (F : Decls) (host : Endian)
    (be : BaseExporter) (o : Options) (u : Indeterminate) (hc : check be o = true)
    (hk : o.check Flag.Custom = true → be.kernel.isSome = true) :
    (write_to capacity F host be o u).2 = some true
    ∧ (write_to capacity F host be o u).1.written
        = (write F host be o u).os.take capacity
    ∧ ((write_to capacity F host be o u).1.good = true
        ↔ (write F host be o u).os.length ≤ capacity) := by
  unfold write_to
  rw [foldl_store_good _ _ _ (Nat.zero_le _)]
  refine ⟨?_, by simp, by simp⟩
  simp only [write, hc, Bool.not_true, Bool.false_eq_true, if_false]
  exact write_binary_rc F host be _ u (by
    rw [stream_options_check o _ (by decide) (by decide) (by decide)]
    exact hk)

/-- Witness of C15, amended: the triangle mesh on a stream that fails after five
store calls. -/
theorem status_ignores_failed_writes_witness :
    check triangle no_options = true
    ∧ (no_options.check Flag.Custom = true → triangle.kernel.isSome = true)
    ∧ (write_to 5 sample_decls Endian.LSB triangle no_options sample_indeterminate).2
        = some true :=
  ⟨rfl, by decide,
    (status_ignores_failed_writes 5 sample_decls Endian.LSB triangle no_options
      sample_indeterminate rfl (by decide)).1⟩

/-! ## The custom chunk: store calls, returned value, payload length -/

theorem length_le_bytes (n v : Nat) : (le_bytes n v).length = n := by
  simp [le_bytes]

theorem length_store_scalar (host : Endian) (sw : Bool) (n v : Nat) :
    (store_scalar host sw n v).length = n := by
  unfold store_scalar host_bytes
  cases host <;> cases sw <;> simp [length_le_bytes]

theorem le_bytes_succ (n v : Nat) :
    le_bytes (n + 1) v = v % 256 :: le_bytes n (v / 256) := by
  unfold le_bytes
  rw [List.range_succ_eq_map]
  simp only [List.map_cons, List.map_map, pow_zero, Nat.div_one]
  congr 1
  apply List.map_congr_left
  intro k _
  simp only [Function.comp, pow_succ, Nat.div_div_eq_div_mul]
  rw [Nat.mul_comm]

theorem le_value_le_bytes (n v : Nat) : le_value (le_bytes n v) = v % 256 ^ n := by
  induction n generalizing v with
  | zero => simp [le_bytes, le_value, Nat.mod_one]
  | succ n ih =>
    rw [le_bytes_succ, le_value, ih, pow_succ, Nat.mul_comm (256 ^ n) 256, Nat.mod_mul]

theorem integer_size_32 (F : Decls) (hF : F.WellFormed) : integer_size F F.Integer_32 = 4 := by
  obtain ⟨-, -, hI⟩ := hF
  simp only [List.nodup_cons, List.mem_cons, List.mem_singleton, List.not_mem_nil,
    not_or, or_false] at hI
  unfold integer_size
  rw [if_neg (fun h => hI.1.2.1 h.symm), if_neg (fun h => hI.2.1.1 h.symm), if_pos rfl]

theorem length_property_bytes (F : Decls) (host : Endian) (bp : BaseProperty) (sw : Bool) :
    (Record.bytes F host (Record.property bp sw)).length
      = (bp.elements.map fun e => e.size).sum := by
  simp only [Record.bytes, List.length_flatten, List.map_map]
  congr 1
  apply List.map_congr_left
  intro e _
  simp [length_store_scalar]

theorem declared_length_bytes (F : Decls) (hF : F.WellFormed) (host : Endian)
    (n : Nat) (sw : Bool) :
    Record.bytes F host (Record.integer (n : Int) F.Integer_32 sw)
      = store_scalar host sw 4 (n % 4294967296) := by
  simp only [Record.bytes, integer_size_32 F hF]
  congr 1

theorem length_bytes_host (F : Decls) (host : Endian) (r : Record) :
    (Record.bytes F host r).length = Record.size F r := by
  unfold Record.size
  cases r <;>
    simp [Record.bytes, length_store_scalar, List.length_flatten, Function.comp_def]

theorem length_serialize (F : Decls) (host : Endian) (l : List Record) :
    (serialize F host l).length = (l.map (Record.size F)).sum := by
  simp only [serialize, List.length_flatten, List.map_map]
  congr 1
  apply List.map_congr_left
  intro r _
  exact length_bytes_host F host r

/-- C16. For a persistent property with a non-empty name (format version 2.2
above 2.1) `store_binary_custom_chunk` performs exactly five store calls, in this
order: the chunk header (name flag set, the given entity kind, data kind
Custom, signed and float zero), the property name, the storage-type tag, the
payload length on 4 bytes, the serialized property; the value it returns is the
sum of the byte counts of these five calls, the number of bytes written. -/
theorem custom_chunk_calls_and_bytes (F : Decls) (hF : F.WellFormed) (host : Endian)
    (bp : BaseProperty) (entity : Nat) (swap : Bool) (chdr : Chunk.Header)
    (hp : bp.persistent = true) (hn : empty bp.name = false)
    (hv : F.mk_version 2 1 < F.mk_version 2 2) :
    store_binary_custom_chunk F bp entity swap chdr
      = [ Record.chunk_header
            { reserved_ := chdr.reserved_, name_ := true, entity_ := entity,
              type_ := F.Type_Custom, signed_ := false, float_ := false,
              dim_ := F.Dim_1D, bits_ := bp.element_size } swap,
          Record.property_name bp.name swap,
          Record.property_name bp.get_storage_name swap,
          Record.integer (bp.size_of : Int) F.Integer_32 swap,
          Record.property bp swap ]
    ∧ (Record.bytes F host (Record.integer (bp.size_of : Int) F.Integer_32 swap)).length = 4
    ∧ store_binary_custom_chunk_bytes F bp entity swap chdr
      = Record.size F (Record.chunk_header
            { reserved_ := chdr.reserved_, name_ := true, entity_ := entity,
              type_ := F.Type_Custom, signed_ := false, float_ := false,
              dim_ := F.Dim_1D, bits_ := bp.element_size } swap)
        + Record.size F (Record.property_name bp.name swap)
        + Record.size F (Record.property_name bp.get_storage_name swap)
        + Record.size F (Record.integer (bp.size_of : Int) F.Integer_32 swap)
        + Record.size F (Record.property bp swap)
    ∧ store_binary_custom_chunk_bytes F bp entity swap chdr
      = (serialize F host (store_binary_custom_chunk F bp entity swap chdr)).length := by
  have hcalls : store_binary_custom_chunk F bp entity swap chdr
      = [ Record.chunk_header
            { reserved_ := chdr.reserved_, name_ := true, entity_ := entity,
              type_ := F.Type_Custom, signed_ := false, float_ := false,
              dim_ := F.Dim_1D, bits_ := bp.element_size } swap,
          Record.property_name bp.name swap,
          Record.property_name bp.get_storage_name swap,
          Record.integer (bp.size_of : Int) F.Integer_32 swap,
          Record.property bp swap ] := by
    simp [store_binary_custom_chunk, hp, hn, version_, hv]
  have hbytes : store_binary_custom_chunk_bytes F bp entity swap chdr
      = Record.size F (Record.chunk_header
            { reserved_ := chdr.reserved_, name_ := true, entity_ := entity,
              type_ := F.Type_Custom, signed_ := false, float_ := false,
              dim_ := F.Dim_1D, bits_ := bp.element_size } swap)
        + Record.size F (Record.property_name bp.name swap)
        + Record.size F (Record.property_name bp.get_storage_name swap)
        + Record.size F (Record.integer (bp.size_of : Int) F.Integer_32 swap)
        + Record.size F (Record.property bp swap) := by
    simp [store_binary_custom_chunk_bytes, hp, hn, version_, hv]
  refine ⟨hcalls, ?_, hbytes, ?_⟩
  · simp [Record.bytes, length_store_scalar, integer_size_32 F hF]
  · rw [hbytes, hcalls, length_serialize]
    simp [Nat.add_assoc]

/-- Witness of C16: the property `myProp`. -/
theorem custom_chunk_calls_and_bytes_witness :
    sample_decls.WellFormed
    ∧ prop_myProp.persistent = true
    ∧ empty prop_myProp.name = false
    ∧ sample_decls.mk_version 2 1 < sample_decls.mk_version 2 2
    ∧ store_binary_custom_chunk_bytes sample_decls prop_myProp sample_decls.Entity_Vertex
        false sample_indeterminate.chdr
      = (serialize sample_decls Endian.LSB
          (store_binary_custom_chunk sample_decls prop_myProp sample_decls.Entity_Vertex
            false sample_indeterminate.chdr)).length :=
  ⟨by decide, rfl, by decide, by decide,
    (custom_chunk_calls_and_bytes sample_decls (by decide) Endian.LSB prop_myProp
      sample_decls.Entity_Vertex false sample_indeterminate.chdr rfl (by decide)
      (by decide)).2.2.2⟩

/-- C17, counterexample. The property `huge_prop` serializes to `2^32` payload
bytes; the 4 byte payload length stored in its chunk encodes 0. -/
theorem payload_length_wraps :
    (Record.bytes sample_decls Endian.LSB (Record.property huge_prop false)).length
        = 4294967296
    ∧ le_value (Record.bytes sample_decls Endian.LSB
        (Record.integer (huge_prop.size_of : Int) sample_decls.Integer_32 false)) = 0
    ∧ store_binary_custom_chunk sample_decls huge_prop sample_decls.Entity_Vertex false
        sample_indeterminate.chdr
      = [ Record.chunk_header
            { reserved_ := 0, name_ := true, entity_ := sample_decls.Entity_Vertex,
              type_ := sample_decls.Type_Custom, signed_ := false, float_ := false,
              dim_ := sample_decls.Dim_1D, bits_ := 1 } false,
          Record.property_name "huge" false,
          Record.property_name "blob" false,
          Record.integer 4294967296 sample_decls.Integer_32 false,
          Record.property huge_prop false ] := by
  refine ⟨?_, by decide, by decide⟩
  rw [length_property_bytes]
  decide

/-- C17, amended. For a property that is written (persistent, non-empty name),
whose serializer writes `size_of()` bytes (the assertion of line 668) and whose
size is below `2^32`: the bytes `store_binary_custom_chunk` writes are the bytes
of the chunk header, of the name and of the storage-type tag, then the 4 byte
store of the number of payload bytes, then the payload bytes, the bytes the
serializer of the property writes; read least significant byte first, the 4
bytes stored without swap on an LSB host give the number of payload bytes. -/
theorem payload_length_declared (F : Decls) (hF : F.WellFormed) (host : Endian)
    (bp : BaseProperty) (entity : Nat) (swap : Bool) (chdr : Chunk.Header)
    (hp : bp.persistent = true) (hn : empty bp.name = false)
    (hcons : (bp.elements.map fun e => e.size).sum = bp.size_of)
    (hlt : bp.size_of < 4294967296) :
    serialize F host (store_binary_custom_chunk F bp entity swap chdr)
      = serialize F host
          ([ Record.chunk_header
              { reserved_ := chdr.reserved_, name_ := true, entity_ := entity,
                type_ := F.Type_Custom, signed_ := false, float_ := false,
                dim_ := F.Dim_1D, bits_ := bp.element_size } swap,
             Record.property_name bp.name swap ]
            ++ (if version_ F > F.mk_version 2 1 then
                  [Record.property_name bp.get_storage_name swap] else []))
        ++ (store_scalar host swap 4 (Record.bytes F host (Record.property bp swap)).length
          ++ Record.bytes F host (Record.property bp swap))
    ∧ le_value (store_scalar Endian.LSB false 4
          (Record.bytes F Endian.LSB (Record.property bp false)).length)
        = (Record.bytes F Endian.LSB (Record.property bp false)).length := by
  have hlen : ∀ h sw, (Record.bytes F h (Record.property bp sw)).length = bp.size_of := by
    intro h sw
    rw [length_property_bytes, hcons]
  constructor
  · have hcalls : store_binary_custom_chunk F bp entity swap chdr
        = ([ Record.chunk_header
              { reserved_ := chdr.reserved_, name_ := true, entity_ := entity,
                type_ := F.Type_Custom, signed_ := false, float_ := false,
                dim_ := F.Dim_1D, bits_ := bp.element_size } swap,
             Record.property_name bp.name swap ]
            ++ (if version_ F > F.mk_version 2 1 then
                  [Record.property_name bp.get_storage_name swap] else []))
          ++ [ Record.integer (bp.size_of : Int) F.Integer_32 swap,
               Record.property bp swap ] := by
      simp [store_binary_custom_chunk, hp, hn]
    rw [hcalls, serialize_append, hlen]
    congr 1
    rw [serialize_cons, declared_length_bytes F hF, Nat.mod_eq_of_lt hlt]
    simp [serialize]
  · rw [hlen]
    simp only [store_scalar, host_bytes, Bool.false_eq_true, if_false]
    rw [le_value_le_bytes]
    exact Nat.mod_eq_of_lt (by norm_num; exact hlt)

/-- Witness of C17, amended: the property `myProp` of 12 bytes. -/
theorem payload_length_declared_witness :
    sample_decls.WellFormed
    ∧ prop_myProp.persistent = true
    ∧ empty prop_myProp.name = false
    ∧ (prop_myProp.elements.map fun e => e.size).sum = prop_myProp.size_of
    ∧ prop_myProp.size_of < 4294967296
    ∧ serialize sample_decls Endian.LSB
        (store_binary_custom_chunk sample_decls prop_myProp sample_decls.Entity_Vertex false
          sample_indeterminate.chdr)
      = serialize sample_decls Endian.LSB
          ([ Record.chunk_header
              { reserved_ := sample_indeterminate.chdr.reserved_, name_ := true,
                entity_ := sample_decls.Entity_Vertex, type_ := sample_decls.Type_Custom,
                signed_ := false, float_ := false, dim_ := sample_decls.Dim_1D,
                bits_ := prop_myProp.element_size } false,
             Record.property_name prop_myProp.name false ]
            ++ (if version_ sample_decls > sample_decls.mk_version 2 1 then
                  [Record.property_name prop_myProp.get_storage_name false] else []))
        ++ (store_scalar Endian.LSB false 4
              (Record.bytes sample_decls Endian.LSB
                (Record.property prop_myProp false)).length
          ++ Record.bytes sample_decls Endian.LSB (Record.property prop_myProp false)) :=
  ⟨by decide, rfl, by decide, by decide, by decide,
    (payload_length_declared sample_decls (by decide) Endian.LSB prop_myProp
      sample_decls.Entity_Vertex false sample_indeterminate.chdr rfl (by decide)
      (by decide) (by decide)).1⟩

/-! ## Guards of single chunks -/

theorem builtin_kind_mem_iff (F : Decls) (hF : F.WellFormed) (host : Endian)
    (be : BaseExporter) (o : Options) (u : Indeterminate)
    (hk : o.check Flag.Custom = true → be.kernel.isSome = true) (b : Block)
    (hb : b ∈ builtin_blocks F be o (file_header F be) (swap_required host o)) :
    chunk_kind (b.chunk u.chunk_header)
        ∈ builtin_chunk_kinds F (write_binary F host be o u).os
      ↔ b.cond = true := by
  have hn : ((builtin_blocks F be o (file_header F be) (swap_required host o)).map
      fun b => chunk_kind (b.chunk u.chunk_header)).Nodup := by
    rw [builtin_kinds]
    exact builtin_order_nodup F hF
  rw [builtin_chunk_kinds_eq F hF host be o u hk]
  exact mem_filter_map_iff _ (fun b => chunk_kind (b.chunk u.chunk_header)) _ hn _ hb

theorem vertex_normal_mem_iff (F : Decls) (hF : F.WellFormed) (host : Endian)
    (be : BaseExporter) (o : Options) (u : Indeterminate)
    (hk : o.check Flag.Custom = true → be.kernel.isSome = true) :
    (F.Entity_Vertex, F.Type_Normal) ∈ builtin_chunk_kinds F (write_binary F host be o u).os
      ↔ be.n_vertices ≠ 0 ∧ o.check Flag.VertexNormal = true := by
  have hb : write_vertex_normal F be o (file_header F be) (swap_required host o)
      ∈ builtin_blocks F be o (file_header F be) (swap_required host o) := by
    simp [builtin_blocks]
  have hkey : chunk_kind ((write_vertex_normal F be o (file_header F be)
      (swap_required host o)).chunk u.chunk_header) = (F.Entity_Vertex, F.Type_Normal) := by
    simp only [chunk_kind, Block.chunk, write_vertex_normal]
    split <;> rfl
  rw [← hkey, builtin_kind_mem_iff F hF host be o u hk _ hb]
  simp [write_vertex_normal]

/-- C18. Reached through the stream-level `write`, its only caller, once the
feature check of line 140 has passed, `write_binary` is called with the options
of lines 150 to 155 and writes a Vertex-Normal chunk if and only if the mesh has
a vertex, vertex normals are requested and the exporter reports that vertex
normals exist. -/
theorem vertex_normal_chunk_iff (F : Decls) (hF : F.WellFormed) (host : Endian)
    (be : BaseExporter) (o : Options) (u : Indeterminate)
    (hk : o.check Flag.Custom = true → be.kernel.isSome = true)
    (hc : check be o = true) :
    write F host be o u = write_binary F host be (stream_options o) u
    ∧ ((F.Entity_Vertex, F.Type_Normal)
          ∈ builtin_chunk_kinds F (write_binary F host be (stream_options o) u).os
        ↔ be.n_vertices ≠ 0 ∧ o.check Flag.VertexNormal = true
          ∧ be.has_vertex_normals = true) := by
  have hw : write F host be o u = write_binary F host be (stream_options o) u := by
    simp [write, hc]
  have hk' : (stream_options o).check Flag.Custom = true → be.kernel.isSome = true := by
    rw [stream_options_check o _ (by decide) (by decide) (by decide)]
    exact hk
  refine ⟨hw, ?_⟩
  rw [vertex_normal_mem_iff F hF host be (stream_options o) u hk',
    stream_options_check o _ (by decide) (by decide) (by decide)]
  constructor
  · rintro ⟨hv, hn⟩
    refine ⟨hv, hn, ?_⟩
    simp only [check, hn, Bool.not_true, Bool.false_or, Bool.and_eq_true] at hc
    exact hc.1.1.1.1
  · rintro ⟨hv, hn, -⟩
    exact ⟨hv, hn⟩

/-- Witness of C18: the triangle mesh with vertex normals, VertexNormal
requested: the feature check passes and the Vertex-Normal chunk is written. -/
theorem vertex_normal_chunk_iff_witness :
    sample_decls.WellFormed
    ∧ (normal_options.check Flag.Custom = true → triangle_normals.kernel.isSome = true)
    ∧ check triangle_normals normal_options = true
    ∧ (triangle_normals.n_vertices ≠ 0 ∧ normal_options.check Flag.VertexNormal = true
        ∧ triangle_normals.has_vertex_normals = true)
    ∧ (sample_decls.Entity_Vertex, sample_decls.Type_Normal)
        ∈ builtin_chunk_kinds sample_decls
            (write_binary sample_decls Endian.LSB triangle_normals
              (stream_options normal_options) sample_indeterminate).os :=
  ⟨by decide, by decide, by decide, by decide,
    (vertex_normal_chunk_iff sample_decls (by decide) Endian.LSB triangle_normals
      normal_options sample_indeterminate (by decide) (by decide)).2.2 (by decide)⟩

/-- C19. Version gating. For a writer whose constant `version_` has any value,
the Halfedge-Texcoord block is guarded by: version above 2.1, the mesh has an
edge, half-edge texture coordinates are requested; and the storage-type tag of
a Custom chunk is stored iff the version is above 2.1. The code is the writer
at version 2.2. A writer at version 2.1 writes neither the chunk nor the tag;
the writer at 2.2 (above 2.1) writes the Halfedge-Texcoord chunk iff the mesh
has an edge and the coordinates are requested, and always the tag. -/
theorem version_gating (F : Decls) (hF : F.WellFormed) (host : Endian)
    (be : BaseExporter) (o : Options) (u : Indeterminate)
    (hk : o.check Flag.Custom = true → be.kernel.isSome = true)
    (hv : F.mk_version 2 1 < F.mk_version 2 2) :
    (∀ version header sw,
      (write_halfedge_texcoord_at version F be o header sw).cond = true
        ↔ F.mk_version 2 1 < version ∧ be.n_edges ≠ 0 ∧ o.check Flag.FaceTexCoord = true)
    ∧ (∀ version (bp : BaseProperty) entity sw chdr, bp.persistent = true →
        empty bp.name = false →
        store_binary_custom_chunk_at version F bp entity sw chdr
          = [ Record.chunk_header
                { reserved_ := chdr.reserved_, name_ := true, entity_ := entity,
                  type_ := F.Type_Custom, signed_ := false, float_ := false,
                  dim_ := F.Dim_1D, bits_ := bp.element_size } sw,
              Record.property_name bp.name sw ]
            ++ (if F.mk_version 2 1 < version then
                  [Record.property_name bp.get_storage_name sw] else [])
            ++ [ Record.integer (bp.size_of : Int) F.Integer_32 sw,
                 Record.property bp sw ])
    ∧ (∀ header sw, write_halfedge_texcoord F be o header sw
        = write_halfedge_texcoord_at (F.mk_version 2 2) F be o header sw)
    ∧ (∀ bp entity sw chdr, store_binary_custom_chunk F bp entity sw chdr
        = store_binary_custom_chunk_at (F.mk_version 2 2) F bp entity sw chdr)
    ∧ (∀ header sw,
        (write_halfedge_texcoord_at (F.mk_version 2 1) F be o header sw).cond = false)
    ∧ (∀ (bp : BaseProperty) entity sw chdr, bp.persistent = true →
        empty bp.name = false →
        store_binary_custom_chunk_at (F.mk_version 2 1) F bp entity sw chdr
          = [ Record.chunk_header
                { reserved_ := chdr.reserved_, name_ := true, entity_ := entity,
                  type_ := F.Type_Custom, signed_ := false, float_ := false,
                  dim_ := F.Dim_1D, bits_ := bp.element_size } sw,
              Record.property_name bp.name sw,
              Record.integer (bp.size_of : Int) F.Integer_32 sw,
              Record.property bp sw ])
    ∧ ((F.Entity_Halfedge, F.Type_Texcoord)
          ∈ builtin_chunk_kinds F (write_binary F host be o u).os
        ↔ be.n_edges ≠ 0 ∧ o.check Flag.FaceTexCoord = true)
    ∧ (∀ (bp : BaseProperty) entity sw chdr, bp.persistent = true →
        empty bp.name = false →
        store_binary_custom_chunk F bp entity sw chdr
          = [ Record.chunk_header
                { reserved_ := chdr.reserved_, name_ := true, entity_ := entity,
                  type_ := F.Type_Custom, signed_ := false, float_ := false,
                  dim_ := F.Dim_1D, bits_ := bp.element_size } sw,
              Record.property_name bp.name sw,
              Record.property_name bp.get_storage_name sw,
              Record.integer (bp.size_of : Int) F.Integer_32 sw,
              Record.property bp sw ]) := by
  refine ⟨?_, ?_, fun _ _ => rfl, fun _ _ _ _ => rfl, ?_, ?_, ?_, ?_⟩
  · intro version header sw
    simp [write_halfedge_texcoord_at, and_assoc]
  · intro version bp entity sw chdr hp hn
    simp [store_binary_custom_chunk_at, hp, hn]
  · intro header sw
    simp [write_halfedge_texcoord_at]
  · intro bp entity sw chdr hp hn
    simp [store_binary_custom_chunk_at, hp, hn]
  · have hb : write_halfedge_texcoord F be o (file_header F be) (swap_required host o)
        ∈ builtin_blocks F be o (file_header F be) (swap_required host o) := by
      simp [builtin_blocks]
    have hkey : chunk_kind ((write_halfedge_texcoord F be o (file_header F be)
        (swap_required host o)).chunk u.chunk_header)
        = (F.Entity_Halfedge, F.Type_Texcoord) := rfl
    rw [← hkey, builtin_kind_mem_iff F hF host be o u hk _ hb]
    simp [write_halfedge_texcoord, version_, hv]
  · intro bp entity sw chdr hp hn
    simp [store_binary_custom_chunk, hp, hn, version_, hv]

/-- Witness of C19: the triangle mesh, no option set. -/
theorem version_gating_witness :
    sample_decls.WellFormed
    ∧ (no_options.check Flag.Custom = true → triangle.kernel.isSome = true)
    ∧ sample_decls.mk_version 2 1 < sample_decls.mk_version 2 2
    ∧ ((sample_decls.Entity_Halfedge, sample_decls.Type_Texcoord)
          ∈ builtin_chunk_kinds sample_decls
              (write_binary sample_decls Endian.LSB triangle no_options
                sample_indeterminate).os
        ↔ triangle.n_edges ≠ 0 ∧ no_options.check Flag.FaceTexCoord = true) :=
  ⟨by decide, by decide, by decide,
    (version_gating sample_decls (by decide) Endian.LSB triangle no_options
      sample_indeterminate (by decide) (by decide)).2.2.2.2.2.2.1⟩

/-! ## The concrete scenario -/

/-- C20. For the triangle mesh with 3 vertices, 1 face, 3 edges, single precision
positions (0,0,0), (1,0,0), (0,1,0) and no optional attribute requested,
`write_binary` performs exactly the store calls of `triangle_stream`: the file
header, the Vertex-Position chunk, the Halfedge-Topology chunk, the
Vertex-Topology chunk, the Face-Topology chunk and the Sentinel header; and it
returns true. -/
theorem triangle_scenario (F : Decls) (host : Endian) (o : Options) (u : Indeterminate)
    (ho : ∀ f, f ≠ Flag.Binary → f ≠ Flag.MSB → f ≠ Flag.LSB → f ≠ Flag.Swap →
      o.check f = false) :
    (write_binary F host triangle o u).os = triangle_stream F (swap_required host o)
    ∧ (write_binary F host triangle o u).rc = some true := by
  have h1 := ho Flag.VertexNormal (by decide) (by decide) (by decide) (by decide)
  have h2 := ho Flag.VertexColor (by decide) (by decide) (by decide) (by decide)
  have h3 := ho Flag.VertexTexCoord (by decide) (by decide) (by decide) (by decide)
  have h4 := ho Flag.FaceNormal (by decide) (by decide) (by decide) (by decide)
  have h5 := ho Flag.FaceColor (by decide) (by decide) (by decide) (by decide)
  have h6 := ho Flag.FaceTexCoord (by decide) (by decide) (by decide) (by decide)
  have h7 := ho Flag.Custom (by decide) (by decide) (by decide) (by decide)
  have h8 := ho Flag.Status (by decide) (by decide) (by decide) (by decide)
  have r63 : List.range (3 * 2 % 4294967296) = [0, 1, 2, 3, 4, 5] := by decide
  have r3 : List.range 3 = [0, 1, 2] := by decide
  have r1 : List.range 1 = [0] := by decide
  constructor
  · simp only [write_binary, h7, builtin_blocks, run_blocks, Block.run,
      write_vertex_position, write_vertex_normal,
      write_vertex_color, write_vertex_texcoord, write_halfedge_topology,
      write_halfedge_texcoord, write_vertex_topology, write_face_topology,
      write_face_normal, write_face_color, write_vertex_status, write_edge_status,
      write_halfedge_status, write_face_status, h1, h2, h3, h4, h5, h6, h8,
      triangle, triangle_mesh, file_header]
    simp [r63, r3, r1, triangle_stream, sentinel, version_, is_signed, is_float, dim, bits,
      needed_bits, VertexHandle, HalfedgeHandle, FaceHandle, static_cast_int, lookup]
  · simp [write_binary, h7]

/-- Witness of C20: no option set, host of byte order LSB. -/
theorem triangle_scenario_witness :
    (∀ f, f ≠ Flag.Binary → f ≠ Flag.MSB → f ≠ Flag.LSB → f ≠ Flag.Swap →
      no_options.check f = false)
    ∧ (write_binary sample_decls Endian.LSB triangle no_options sample_indeterminate).os
        = triangle_stream sample_decls (swap_required Endian.LSB no_options) :=
  ⟨fun _ _ _ _ _ => rfl,
    (triangle_scenario sample_decls Endian.LSB no_options sample_indeterminate
      fun _ _ _ _ _ => rfl).1⟩

/-! ## The name flag and the payload of the Halfedge-Topology chunk -/

theorem builtin_name_false (F : Decls) (be : BaseExporter) (o : Options) (header : Header)
    (sw : Bool) :
    ∀ b ∈ builtin_blocks F be o header sw, ∀ c, (b.assign c).name_ = false := by
  intro b hb c
  simp only [builtin_blocks, List.mem_cons, List.mem_singleton, List.not_mem_nil,
    or_false] at hb
  rcases hb with h | h | h | h | h | h | h | h | h | h | h | h | h | h <;> subst h <;>
    first
    | rfl
    | (simp only [write_vertex_position, write_vertex_normal, write_face_normal]
       split <;> rfl)

theorem halfedge_handle_of_lt (i : Nat) (h : i < 2147483648) :
    HalfedgeHandle i = Int.ofNat i := by
  unfold HalfedgeHandle static_cast_int
  have : i % 4294967296 = i := Nat.mod_eq_of_lt (by omega)
  rw [this, if_pos h]
  rfl

/-- C21. In every chunk header written by an encode the name flag is set if and
only if the data kind of the header is Custom: the built-in chunks and the
Sentinel clear it, the Custom chunks set it. The enumerator values are pairwise
distinct and `Type_Custom` is not 0, the data kind left in the zeroed Sentinel
header. -/
theorem name_flag_iff_custom (F : Decls) (hF : F.WellFormed) (h0 : F.Type_Custom ≠ 0)
    (host : Endian) (be : BaseExporter) (o : Options) (u : Indeterminate)
    (hk : o.check Flag.Custom = true → be.kernel.isSome = true) :
    ∀ h ∈ chunk_headers (write_binary F host be o u).os,
      (h.name_ = true ↔ h.type_ = F.Type_Custom) := by
  intro h hh
  simp only [chunk_headers, List.mem_map] at hh
  obtain ⟨c, hc, rfl⟩ := hh
  rw [write_binary_chunks F host be o u hk] at hc
  simp only [List.mem_append, List.mem_singleton] at hc
  rcases hc with hc | hc | hc
  · have hkind := builtin_chunk_kind_mem F be o _ _ _ c hc
    have hne := (builtin_order_kinds F hF _ hkind).1
    obtain ⟨b, hb, ch, _, rfl⟩ := mem_run_chunks _ _ c hc
    have hn := builtin_name_false F be o _ _ b hb ch
    simp only [Block.chunk, chunk_kind] at hne ⊢
    simp [hn, hne]
  · obtain ⟨e, p, _, _, rfl⟩ := mem_custom_chunks F _ _ _ c hc
    simp [custom_chunk]
  · subst hc
    simp [sentinel, Ne.symm h0]

/-- Witness of C21: the Custom chunk header of the property `myProp` of the
triangle mesh carries the name flag and the data kind Custom. -/
theorem name_flag_iff_custom_witness :
    sample_decls.WellFormed
    ∧ sample_decls.Type_Custom ≠ 0
    ∧ (custom_options.check Flag.Custom = true → triangle_props.kernel.isSome = true)
    ∧ myProp_header
        ∈ chunk_headers (write_binary sample_decls Endian.LSB triangle_props custom_options
            sample_indeterminate).os
    ∧ (myProp_header.name_ = true ↔ myProp_header.type_ = sample_decls.Type_Custom) :=
  have hm : myProp_header
      ∈ chunk_headers (write_binary sample_decls Endian.LSB triangle_props custom_options
          sample_indeterminate).os := by decide
  ⟨by decide, by decide, by decide, hm,
    name_flag_iff_custom sample_decls (by decide) (by decide) Endian.LSB triangle_props
      custom_options sample_indeterminate (by decide) _ hm⟩

/-- C22. For a mesh with at least one edge and at most `2^31` half-edges (handles
are `int` indices) a Halfedge-Topology chunk is written, and the payload of such
a chunk is the sequence of `2 * n_edges` triples whose `i`-th triple is the
next-half-edge id, the to-vertex id and the face id of half-edge `i`, in that
order, each stored at the width declared in the chunk header. -/
theorem halfedge_topology_payload (F : Decls) (hF : F.WellFormed) (host : Endian)
    (be : BaseExporter) (o : Options) (u : Indeterminate)
    (hk : o.check Flag.Custom = true → be.kernel.isSome = true)
    (he : be.n_edges ≠ 0) (hn : 2 * be.n_edges ≤ 2147483648) :
    (∃ c ∈ chunks (write_binary F host be o u).os,
        chunk_kind c = (F.Entity_Halfedge, F.Type_Topology))
    ∧ ∀ c ∈ chunks (write_binary F host be o u).os,
        chunk_kind c = (F.Entity_Halfedge, F.Type_Topology) →
        c.2 = ((List.range (2 * be.n_edges)).map fun (i : Nat) =>
          [ Record.integer (be.get_next_halfedge_id (Int.ofNat i)) c.1.bits_
              (swap_required host o),
            Record.integer (be.get_to_vertex_id (Int.ofNat i)) c.1.bits_
              (swap_required host o),
            Record.integer (be.get_face_id (Int.ofNat i)) c.1.bits_
              (swap_required host o) ]).flatten := by
  constructor
  · obtain ⟨ch, hch⟩ := builtin_chunk_mem F host be o u hk
      (write_halfedge_topology F be (file_header F be) (swap_required host o))
      (by simp [builtin_blocks]) (by simpa [write_halfedge_topology] using he)
    exact ⟨_, hch, rfl⟩
  · intro c hc hkind
    obtain ⟨_, ch, rfl⟩ := chunk_of_kind F hF host be o u hk c hc
      (write_halfedge_topology F be (file_header F be) (swap_required host o))
      (by simp [builtin_blocks]) u.chunk_header hkind
    have hcount : (file_header F be).n_edges_ * 2 % 4294967296 = 2 * be.n_edges := by
      simp only [file_header]
      omega
    simp only [Block.chunk, write_halfedge_topology, hcount]
    congr 1
    apply List.map_congr_left
    intro i hi
    rw [List.mem_range] at hi
    rw [halfedge_handle_of_lt i (by omega)]

/-- Witness of C22: the triangle mesh, 3 edges and 6 half-edges, no option set:
the payload of its Halfedge-Topology chunk is the 6 triples of the half-edges
0 to 5. -/
theorem halfedge_topology_payload_witness :
    sample_decls.WellFormed
    ∧ (no_options.check Flag.Custom = true → triangle.kernel.isSome = true)
    ∧ triangle.n_edges ≠ 0
    ∧ 2 * triangle.n_edges ≤ 2147483648
    ∧ triangle_halfedge_chunk
        ∈ chunks (write_binary sample_decls Endian.LSB triangle no_options
            sample_indeterminate).os
    ∧ chunk_kind triangle_halfedge_chunk
        = (sample_decls.Entity_Halfedge, sample_decls.Type_Topology)
    ∧ triangle_halfedge_chunk.2
        = ((List.range (2 * triangle.n_edges)).map fun (i : Nat) =>
          [ Record.integer (triangle.get_next_halfedge_id (Int.ofNat i))
              triangle_halfedge_chunk.1.bits_ (swap_required Endian.LSB no_options),
            Record.integer (triangle.get_to_vertex_id (Int.ofNat i))
              triangle_halfedge_chunk.1.bits_ (swap_required Endian.LSB no_options),
            Record.integer (triangle.get_face_id (Int.ofNat i))
              triangle_halfedge_chunk.1.bits_
              (swap_required Endian.LSB no_options) ]).flatten :=
  have hm : triangle_halfedge_chunk
      ∈ chunks (write_binary sample_decls Endian.LSB triangle no_options
          sample_indeterminate).os := by decide
  ⟨by decide, by decide, by decide, by decide, hm, rfl,
    (halfedge_topology_payload sample_decls (by decide) Endian.LSB triangle no_options
      sample_indeterminate (by decide) (by decide) (by decide)).2 _ hm rfl⟩

/-! ## The operations of `VectorT` -/

theorem accumulate_eq_add_sum {Scalar : Type} [AddMonoid Scalar] (l : List Scalar)
    (init : Scalar) : accumulate l init = init + l.sum := by
  unfold accumulate
  induction l generalizing init with
  | nil => simp
  | cons x xs ih => simp [ih, add_assoc]

theorem l1_norm_eq_sum {Scalar : Type} {n : Nat} [AddCommMonoid Scalar]
    (v : VectorT Scalar (n + 1)) : v.l1_norm = ∑ i, v.values_ i := by
  unfold VectorT.l1_norm
  rw [accumulate_eq_add_sum, List.sum_ofFn, Fin.sum_univ_succ]

theorem max_element_abs {Scalar : Type} [LinearOrderedAddCommGroup Scalar]
    (xs : List Scalar) (largest : Scalar) :
    abs largest ≤ abs (max_element (fun a b => decide (abs a < abs b)) largest xs)
    ∧ (∀ x ∈ xs, abs x ≤ abs (max_element (fun a b => decide (abs a < abs b)) largest xs))
    ∧ (max_element (fun a b => decide (abs a < abs b)) largest xs = largest
      ∨ max_element (fun a b => decide (abs a < abs b)) largest xs ∈ xs) := by
  induction xs generalizing largest with
  | nil => simp [max_element]
  | cons x xs ih =>
    simp only [max_element, decide_eq_true_eq]
    by_cases h : abs largest < abs x
    · rw [if_pos h]
      obtain ⟨h1, h2, h3⟩ := ih x
      refine ⟨le_trans (le_of_lt h) h1, ?_, ?_⟩
      · intro y hy
        rcases List.mem_cons.1 hy with rfl | hy
        · exact h1
        · exact h2 y hy
      · rcases h3 with h3 | h3
        · right; rw [h3]; exact List.mem_cons_self _ _
        · right; exact List.mem_cons_of_mem _ h3
    · rw [if_neg h]
      obtain ⟨h1, h2, h3⟩ := ih largest
      refine ⟨h1, ?_, ?_⟩
      · intro y hy
        rcases List.mem_cons.1 hy with rfl | hy
        · exact le_trans (not_lt.1 h) h1
        · exact h2 y hy
      · rcases h3 with h3 | h3
        · left; exact h3
        · right; exact List.mem_cons_of_mem _ h3

theorem foldl_flag {ι : Type} (p : ι → Prop) [DecidablePred p] (l : List ι) (s : Bool) :
    l.foldl (fun t j => if p j then t else true) s = true
      ↔ s = true ∨ ∃ j ∈ l, ¬ p j := by
  induction l generalizing s with
  | nil => simp
  | cons x xs ih =>
    rw [List.foldl_cons, ih]
    by_cases hx : p x
    · simp [hx]
    · simp [hx]

theorem minimized_values {Scalar : Type} {DIM : Nat} [LinearOrder Scalar]
    (a b : VectorT Scalar DIM) (i : Fin DIM) :
    (a.minimized b).1.values_ i = Min.min (a.values_ i) (b.values_ i) := by
  simp only [VectorT.minimized, transform_capture]
  split
  · rename_i h; simp [min_eq_left (le_of_lt h)]
  · rename_i h; simp [min_eq_right (not_lt.1 h)]

theorem minimized_flag {Scalar : Type} {DIM : Nat} [LinearOrder Scalar]
    (a b : VectorT Scalar DIM) :
    (a.minimized b).2 = true ↔ ∃ i, ¬ a.values_ i < b.values_ i := by
  have h := foldl_flag (fun j : Fin DIM => a.values_ j < b.values_ j) (List.finRange DIM) false
  simp only [VectorT.minimized, transform_capture]
  have e : (fun (t : Bool) (j : Fin DIM) =>
      (if a.values_ j < b.values_ j then (a.values_ j, t) else (b.values_ j, true)).2)
      = fun t j => if a.values_ j < b.values_ j then t else true := by
    funext t j
    split <;> rfl
  rw [e, h]
  simp

theorem maximized_values {Scalar : Type} {DIM : Nat} [LinearOrder Scalar]
    (a b : VectorT Scalar DIM) (i : Fin DIM) :
    (a.maximized b).1.values_ i = Max.max (a.values_ i) (b.values_ i) := by
  simp only [VectorT.maximized, transform_capture]
  split
  · rename_i h; simp [max_eq_left (le_of_lt h)]
  · rename_i h; simp [max_eq_right (not_lt.1 h)]

theorem maximized_flag {Scalar : Type} {DIM : Nat} [LinearOrder Scalar]
    (a b : VectorT Scalar DIM) :
    (a.maximized b).2 = true ↔ ∃ i, ¬ a.values_ i > b.values_ i := by
  have h := foldl_flag (fun j : Fin DIM => a.values_ j > b.values_ j) (List.finRange DIM) false
  simp only [VectorT.maximized, transform_capture]
  have e : (fun (t : Bool) (j : Fin DIM) =>
      (if a.values_ j > b.values_ j then (a.values_ j, t) else (b.values_ j, true)).2)
      = fun t j => if a.values_ j > b.values_ j then t else true := by
    funext t j
    split <;> rfl
  rw [e, h]
  simp

theorem std_min_eq {Scalar : Type} [LinearOrder Scalar] (a b : Scalar) :
    std_min a b = Min.min a b := by
  unfold std_min
  split
  · rename_i h; exact (min_eq_right (le_of_lt h)).symm
  · rename_i h; exact (min_eq_left (not_lt.1 h)).symm

/-- C23, failing input. The unary minus negates the content `u` of its
uninitialised local and never reads the receiver: all receivers give the same
result, component `i` of the result is `-(u[i])`; for `v = (1, 2, 3)` and a
local that holds `(0, 0, 0)` component 0 of `-v` is 0 and not `-(v[0]) = -1`;
whatever the local holds, for some vector `v` a component of `-v` differs from
the negated component of `v`. -/
theorem unary_minus_ignores_receiver :
    (∀ v w u : VectorT Int 3, v.operator_minus u = w.operator_minus u)
    ∧ (∀ (v u : VectorT Int 3) (i : Fin 3),
        (v.operator_minus u).values_ i = -(u.values_ i))
    ∧ (vec_1_2_3.operator_minus vec_0_0_0).values_ 0 = 0
    ∧ -(vec_1_2_3.values_ 0) = -1
    ∧ ∀ u : VectorT Int 3, ∃ v : VectorT Int 3, ∃ i : Fin 3,
        (v.operator_minus u).values_ i ≠ -(v.values_ i) := by
  refine ⟨fun _ _ _ => rfl, fun _ _ _ => rfl, by decide, by decide, fun u => ?_⟩
  refine ⟨⟨fun i => u.values_ i + 1⟩, 0, ?_⟩
  simp only [VectorT.operator_minus, transform]
  omega

/-- C24, failing input. The function `apply` applies `_func` to the content
`r` of its uninitialised local and never reads the receiver: all receivers give
the same result, component `i` of the result is `_func(r[i])`; for
`v = (1, 2, 3)`, `f(x) = x + 1` and a local that holds `(0, 0, 0)` component 0
of `v.apply(f)` is 1 and not `f(v[0]) = 2`; whatever the local holds, for some
vector `v` a component of `v.apply(f)` differs from `f` of the component of `v`. -/
theorem apply_ignores_receiver :
    (∀ (v w r : VectorT Int 3) (f : Int → Int), v.apply f r = w.apply f r)
    ∧ (∀ (v r : VectorT Int 3) (f : Int → Int) (i : Fin 3),
        (v.apply f r).values_ i = f (r.values_ i))
    ∧ (vec_1_2_3.apply (fun x => x + 1) vec_0_0_0).values_ 0 = 1
    ∧ (fun x : Int => x + 1) (vec_1_2_3.values_ 0) = 2
    ∧ ∀ r : VectorT Int 3, ∃ v : VectorT Int 3, ∃ i : Fin 3,
        (v.apply (fun x => x + 1) r).values_ i ≠ (fun x : Int => x + 1) (v.values_ i) := by
  refine ⟨fun _ _ _ _ => rfl, fun _ _ _ _ => rfl, by decide, by decide, fun r => ?_⟩
  refine ⟨⟨fun i => r.values_ i + 1⟩, 0, ?_⟩
  simp only [VectorT.apply, transform]
  omega

/-- C25, failing input. The function `l1_norm` adds the components themselves,
not their absolute values: it returns the sum of the components of every vector
of `int` scalars; for `v = (1, -2, 3)` it returns 2 while the sum of the absolute
values of the components is 6. -/
theorem l1_norm_is_signed_sum :
    (∀ (n : Nat) (v : VectorT Int (n + 1)), v.l1_norm = ∑ i, v.values_ i)
    ∧ vec_1_m2_3.l1_norm = 2
    ∧ ∑ i, |vec_1_m2_3.values_ i| = 6 :=
  ⟨fun _ v => l1_norm_eq_sum v, by decide, by decide⟩

/-- C26. The function `mean` returns the sum of the components, each entering
with its sign, divided by `DIM`, in the arithmetic of the scalar type. -/
theorem mean_is_arithmetic_mean {Scalar : Type} {n : Nat} [AddCommMonoid Scalar]
    [Div Scalar] [NatCast Scalar] (v : VectorT Scalar (n + 1)) :
    v.mean = (∑ i, v.values_ i) / ((n + 1 : Nat) : Scalar) := by
  unfold VectorT.mean
  rw [l1_norm_eq_sum]

/-- C27. Over a linearly ordered scalar type with exact arithmetic `max_abs` is
at least the absolute value of every component and is the absolute value of
some component, and `l8_norm` returns the value of `max_abs`. -/
theorem max_abs_is_maximal_absolute_component {Scalar : Type} {n : Nat}
    [LinearOrderedAddCommGroup Scalar] (v : VectorT Scalar (n + 1)) :
    (∀ i, |v.values_ i| ≤ v.max_abs)
    ∧ (∃ j, v.max_abs = |v.values_ j|)
    ∧ v.l8_norm = v.max_abs := by
  obtain ⟨h1, h2, h3⟩ := max_element_abs (List.ofFn fun i : Fin n => v.values_ i.succ)
    (v.values_ 0)
  refine ⟨fun i => ?_, ?_, rfl⟩
  · refine Fin.cases ?_ (fun j => ?_) i
    · exact h1
    · exact h2 _ ((List.mem_ofFn _ _).2 ⟨j, rfl⟩)
  · rcases h3 with h3 | h3
    · exact ⟨0, by unfold VectorT.max_abs; rw [h3]⟩
    · obtain ⟨j, hj⟩ := (List.mem_ofFn _ _).1 h3
      exact ⟨j.succ, by unfold VectorT.max_abs; rw [← hj]⟩

/-- C28. Over a linearly ordered scalar type, after `a.minimize(b)` component `i`
of `a` is the minimum of the former component `i` of `a` and of component `i` of
`b`, and the new value of `a` is the vector that `min` returns for the former
`a` and `b`. -/
theorem minimize_is_in_place_min {Scalar : Type} {DIM : Nat} [LinearOrder Scalar]
    (a b : VectorT Scalar DIM) :
    (∀ i, (a.minimize b).values_ i = Min.min (a.values_ i) (b.values_ i))
    ∧ a.minimize b = a.min b :=
  ⟨fun i => std_min_eq (a.values_ i) (b.values_ i), rfl⟩

/-- C29, failing input. The function `minimized` sets the receiver to the
component-wise minimum, but it returns true if and only if `b[i] <= a_old[i]`
for some `i`, a coordinate that is equal in both vectors included: for
`a = b = (1, 2, 3)` it leaves `a` unchanged and returns true although no
coordinate of `b` is less than the coordinate of `a`. -/
theorem minimized_signals_equal_coordinates :
    (∀ (DIM : Nat) (a b : VectorT Int DIM) (i : Fin DIM),
        (a.minimized b).1.values_ i = Min.min (a.values_ i) (b.values_ i))
    ∧ (∀ (DIM : Nat) (a b : VectorT Int DIM),
        ((a.minimized b).2 = true ↔ ∃ i, b.values_ i ≤ a.values_ i))
    ∧ vec_1_2_3.minimized vec_1_2_3 = (vec_1_2_3, true)
    ∧ ¬ ∃ i, vec_1_2_3.values_ i < vec_1_2_3.values_ i := by
  refine ⟨fun _ a b i => minimized_values a b i, fun _ a b => ?_, by decide, by decide⟩
  rw [minimized_flag]
  simp only [not_lt]

/-- C30, failing input. The function `maximized` sets the receiver to the
component-wise maximum, but it returns true if and only if `b[i] >= a_old[i]`
for some `i`, a coordinate that is equal in both vectors included: for
`a = b = (1, 2, 3)` it leaves `a` unchanged and returns true although no
coordinate of `b` is greater than the coordinate of `a`. -/
theorem maximized_signals_equal_coordinates :
    (∀ (DIM : Nat) (a b : VectorT Int DIM) (i : Fin DIM),
        (a.maximized b).1.values_ i = Max.max (a.values_ i) (b.values_ i))
    ∧ (∀ (DIM : Nat) (a b : VectorT Int DIM),
        ((a.maximized b).2 = true ↔ ∃ i, a.values_ i ≤ b.values_ i))
    ∧ vec_1_2_3.maximized vec_1_2_3 = (vec_1_2_3, true)
    ∧ ¬ ∃ i, vec_1_2_3.values_ i > vec_1_2_3.values_ i := by
  refine ⟨fun _ a b i => maximized_values a b i, fun _ a b => ?_, by decide, by decide⟩
  rw [maximized_flag]
  simp only [gt_iff_lt, not_lt]

/-! ## Custom chunks, status chunks and the Face-Topology chunk -/

theorem static_cast_int_of_lt (i : Nat) (h : i < 2147483648) :
    static_cast_int i = Int.ofNat i := by
  unfold static_cast_int
  have : i % 4294967296 = i := Nat.mod_eq_of_lt (by omega)
  rw [this, if_pos h]
  rfl

theorem kind_chunk_iff (F : Decls) (hF : F.WellFormed) (host : Endian)
    (be : BaseExporter) (o : Options) (u : Indeterminate)
    (hk : o.check Flag.Custom = true → be.kernel.isSome = true) (b : Block)
    (hb : b ∈ builtin_blocks F be o (file_header F be) (swap_required host o)) :
    (∃ c ∈ chunks (write_binary F host be o u).os,
        chunk_kind c = chunk_kind (b.chunk u.chunk_header))
      ↔ b.cond = true := by
  constructor
  · rintro ⟨c, hc, hkind⟩
    exact (chunk_of_kind F hF host be o u hk c hc b hb u.chunk_header hkind).1
  · intro hcond
    obtain ⟨ch, hch⟩ := builtin_chunk_mem F host be o u hk b hb hcond
    exact ⟨_, hch, builtin_kind_indep F be o _ _ u.chunk_header b hb ch⟩

theorem custom_chunks_append (F : Decls) (sw : Bool) (chdr : Chunk.Header)
    (l l' : List (Nat × Option BaseProperty)) :
    custom_chunks F sw chdr (l ++ l')
      = custom_chunks F sw chdr l ++ custom_chunks F sw chdr l' := by
  simp [custom_chunks, List.filterMap_append]

/-- C35. Without the Custom option no chunk header of data kind Custom is
written, whatever properties are attached. With the Custom option the chunks of
the stream are the built-in chunks, none of data kind Custom, then the Custom
chunks of the vertex, face, edge, halfedge and mesh properties, in that order
and within one kind in the order of the kernel, every one of data kind Custom
and of the entity kind of its group, then the Sentinel. The enumerator values
are pairwise distinct and `Type_Custom` is not 0. -/
theorem custom_chunks_after_builtin_before_sentinel (F : Decls) (hF : F.WellFormed)
    (h0 : F.Type_Custom ≠ 0) (host : Endian) (be : BaseExporter) (o : Options)
    (u : Indeterminate) :
    (o.check Flag.Custom = false →
      ∀ h ∈ chunk_headers (write_binary F host be o u).os, h.type_ ≠ F.Type_Custom)
    ∧ ∀ kernel : BaseKernel, o.check Flag.Custom = true → be.kernel = some kernel →
        chunks (write_binary F host be o u).os
          = run_chunks (builtin_blocks F be o (file_header F be) (swap_required host o))
              u.chunk_header
            ++ (custom_chunks F (swap_required host o) u.chdr
                  (kernel.vprops.map (Prod.mk F.Entity_Vertex))
              ++ custom_chunks F (swap_required host o) u.chdr
                  (kernel.fprops.map (Prod.mk F.Entity_Face))
              ++ custom_chunks F (swap_required host o) u.chdr
                  (kernel.eprops.map (Prod.mk F.Entity_Edge))
              ++ custom_chunks F (swap_required host o) u.chdr
                  (kernel.hprops.map (Prod.mk F.Entity_Halfedge))
              ++ custom_chunks F (swap_required host o) u.chdr
                  (kernel.mprops.map (Prod.mk F.Entity_Mesh)))
            ++ [(sentinel F, [])]
        ∧ (∀ c ∈ run_chunks (builtin_blocks F be o (file_header F be)
              (swap_required host o)) u.chunk_header, c.1.type_ ≠ F.Type_Custom)
        ∧ ∀ (e : Nat) (props : List (Option BaseProperty)),
            ∀ c ∈ custom_chunks F (swap_required host o) u.chdr (props.map (Prod.mk e)),
              c.1.type_ = F.Type_Custom ∧ c.1.entity_ = e := by
  have hbuiltin : ∀ c ∈ run_chunks (builtin_blocks F be o (file_header F be)
      (swap_required host o)) u.chunk_header, c.1.type_ ≠ F.Type_Custom := by
    intro c hc
    exact (builtin_order_kinds F hF _ (builtin_chunk_kind_mem F be o _ _ _ c hc)).1
  constructor
  · intro hc h hh
    simp only [chunk_headers, List.mem_map] at hh
    obtain ⟨c, hcc, rfl⟩ := hh
    rw [write_binary_chunks F host be o u (by simp [hc])] at hcc
    have hv : visited F be o = [] := by simp [visited, hc]
    rw [hv] at hcc
    simp only [custom_chunks, List.filterMap_nil, List.nil_append, List.mem_append,
      List.mem_singleton] at hcc
    rcases hcc with hcc | hcc
    · exact hbuiltin c hcc
    · subst hcc
      exact fun h => h0 h.symm
  · intro kernel hc hker
    refine ⟨?_, hbuiltin, ?_⟩
    · rw [write_binary_chunks F host be o u (by simp [hker])]
      have hv : visited F be o = attached F kernel := by simp [visited, hc, hker]
      rw [hv]
      simp only [attached, custom_chunks_append, List.append_assoc]
    · intro e props c hc
      obtain ⟨e', p, hep, _, rfl⟩ := mem_custom_chunks _ _ _ _ _ hc
      obtain ⟨_, _, h⟩ := List.mem_map.1 hep
      simp only [Prod.mk.injEq] at h
      exact ⟨rfl, h.1.symm⟩

/-- Witness of C35: the triangle mesh with the vertex properties `v:internal`,
an unnamed one, `myProp` and a null entry. With the Custom option the header of
the chunk of `myProp` is of data kind Custom; without it no chunk header of the
stream is of data kind Custom. -/
theorem custom_chunks_after_builtin_before_sentinel_witness :
    sample_decls.WellFormed
    ∧ sample_decls.Type_Custom ≠ 0
    ∧ (∀ c ∈ custom_chunks sample_decls (swap_required Endian.LSB custom_options)
          sample_indeterminate.chdr
          (sample_props.map (Prod.mk sample_decls.Entity_Vertex)),
        c.1.type_ = sample_decls.Type_Custom ∧ c.1.entity_ = sample_decls.Entity_Vertex)
    ∧ ∀ h ∈ chunk_headers (write_binary sample_decls Endian.LSB triangle_props no_options
          sample_indeterminate).os, h.type_ ≠ sample_decls.Type_Custom :=
  ⟨by decide, by decide,
    ((custom_chunks_after_builtin_before_sentinel sample_decls (by decide) (by decide)
      Endian.LSB triangle_props custom_options sample_indeterminate).2
        ⟨sample_props, [], [], [], []⟩ rfl rfl).2.2 _ _,
    (custom_chunks_after_builtin_before_sentinel sample_decls (by decide) (by decide)
      Endian.LSB triangle_props no_options sample_indeterminate).1 rfl⟩

/-- C36. For meshes whose element counts fit `int` handles and each element
kind vertex, edge, halfedge, face: a Status chunk of the kind is written if and
only if the mesh has an element of the kind (an edge for halfedges), the
exporter reports the status of the kind present and Status is requested; the
header of such a chunk declares unsigned, non-float, 1-D data and its payload is
one status value per element: `n_vertices`, `n_edges`, `2 * n_edges` and
`n_faces` values. -/
theorem status_chunks (F : Decls) (hF : F.WellFormed) (host : Endian)
    (be : BaseExporter) (o : Options) (u : Indeterminate)
    (hk : o.check Flag.Custom = true → be.kernel.isSome = true)
    (hv : be.n_vertices ≤ 2147483648) (he : 2 * be.n_edges ≤ 2147483648)
    (hf : be.n_faces ≤ 2147483648) :
    (((∃ c ∈ chunks (write_binary F host be o u).os,
          chunk_kind c = (F.Entity_Vertex, F.Type_Status))
        ↔ be.n_vertices ≠ 0 ∧ be.has_vertex_status = true ∧ o.check Flag.Status = true)
      ∧ ∀ c ∈ chunks (write_binary F host be o u).os,
          chunk_kind c = (F.Entity_Vertex, F.Type_Status) →
          c.1.signed_ = false ∧ c.1.float_ = false ∧ c.1.dim_ = F.Dim_1D
          ∧ c.2 = (List.range be.n_vertices).map fun (i : Nat) =>
              Record.status (be.status (Int.ofNat i)) (swap_required host o))
    ∧ (((∃ c ∈ chunks (write_binary F host be o u).os,
          chunk_kind c = (F.Entity_Edge, F.Type_Status))
        ↔ be.n_edges ≠ 0 ∧ be.has_edge_status = true ∧ o.check Flag.Status = true)
      ∧ ∀ c ∈ chunks (write_binary F host be o u).os,
          chunk_kind c = (F.Entity_Edge, F.Type_Status) →
          c.1.signed_ = false ∧ c.1.float_ = false ∧ c.1.dim_ = F.Dim_1D
          ∧ c.2 = (List.range be.n_edges).map fun (i : Nat) =>
              Record.status (be.status_edge (Int.ofNat i)) (swap_required host o))
    ∧ (((∃ c ∈ chunks (write_binary F host be o u).os,
          chunk_kind c = (F.Entity_Halfedge, F.Type_Status))
        ↔ be.n_edges ≠ 0 ∧ be.has_halfedge_status = true ∧ o.check Flag.Status = true)
      ∧ ∀ c ∈ chunks (write_binary F host be o u).os,
          chunk_kind c = (F.Entity_Halfedge, F.Type_Status) →
          c.1.signed_ = false ∧ c.1.float_ = false ∧ c.1.dim_ = F.Dim_1D
          ∧ c.2 = (List.range (2 * be.n_edges)).map fun (i : Nat) =>
              Record.status (be.status_halfedge (Int.ofNat i)) (swap_required host o))
    ∧ (((∃ c ∈ chunks (write_binary F host be o u).os,
          chunk_kind c = (F.Entity_Face, F.Type_Status))
        ↔ be.n_faces ≠ 0 ∧ be.has_face_status = true ∧ o.check Flag.Status = true)
      ∧ ∀ c ∈ chunks (write_binary F host be o u).os,
          chunk_kind c = (F.Entity_Face, F.Type_Status) →
          c.1.signed_ = false ∧ c.1.float_ = false ∧ c.1.dim_ = F.Dim_1D
          ∧ c.2 = (List.range be.n_faces).map fun (i : Nat) =>
              Record.status (be.status_face (Int.ofNat i)) (swap_required host o)) := by
  have hnv : (file_header F be).n_vertices_ = be.n_vertices := by
    simp only [file_header]; omega
  have hne : (file_header F be).n_edges_ = be.n_edges := by
    simp only [file_header]; omega
  have hne2 : (file_header F be).n_edges_ * 2 % 4294967296 = 2 * be.n_edges := by
    simp only [file_header]; omega
  have hnf : (file_header F be).n_faces_ = be.n_faces := by
    simp only [file_header]; omega
  refine ⟨⟨?_, ?_⟩, ⟨?_, ?_⟩, ⟨?_, ?_⟩, ⟨?_, ?_⟩⟩
  · rw [show (F.Entity_Vertex, F.Type_Status)
        = chunk_kind ((write_vertex_status F be o (file_header F be)
            (swap_required host o)).chunk u.chunk_header) from rfl,
      kind_chunk_iff F hF host be o u hk _ (by simp [builtin_blocks])]
    simp [write_vertex_status, and_assoc]
  · intro c hc hkind
    obtain ⟨_, ch, rfl⟩ := chunk_of_kind F hF host be o u hk c hc
      (write_vertex_status F be o (file_header F be) (swap_required host o))
      (by simp [builtin_blocks]) u.chunk_header hkind
    refine ⟨rfl, rfl, rfl, ?_⟩
    simp only [Block.chunk, write_vertex_status, hnv]
    apply List.map_congr_left
    intro i hi
    rw [List.mem_range] at hi
    simp only [VertexHandle]
    rw [static_cast_int_of_lt i (by omega)]
  · rw [show (F.Entity_Edge, F.Type_Status)
        = chunk_kind ((write_edge_status F be o (file_header F be)
            (swap_required host o)).chunk u.chunk_header) from rfl,
      kind_chunk_iff F hF host be o u hk _ (by simp [builtin_blocks])]
    simp [write_edge_status, and_assoc]
  · intro c hc hkind
    obtain ⟨_, ch, rfl⟩ := chunk_of_kind F hF host be o u hk c hc
      (write_edge_status F be o (file_header F be) (swap_required host o))
      (by simp [builtin_blocks]) u.chunk_header hkind
    refine ⟨rfl, rfl, rfl, ?_⟩
    simp only [Block.chunk, write_edge_status, hne]
    apply List.map_congr_left
    intro i hi
    rw [List.mem_range] at hi
    simp only [EdgeHandle]
    rw [static_cast_int_of_lt i (by omega)]
  · rw [show (F.Entity_Halfedge, F.Type_Status)
        = chunk_kind ((write_halfedge_status F be o (file_header F be)
            (swap_required host o)).chunk u.chunk_header) from rfl,
      kind_chunk_iff F hF host be o u hk _ (by simp [builtin_blocks])]
    simp [write_halfedge_status, and_assoc]
  · intro c hc hkind
    obtain ⟨_, ch, rfl⟩ := chunk_of_kind F hF host be o u hk c hc
      (write_halfedge_status F be o (file_header F be) (swap_required host o))
      (by simp [builtin_blocks]) u.chunk_header hkind
    refine ⟨rfl, rfl, rfl, ?_⟩
    simp only [Block.chunk, write_halfedge_status, hne2]
    apply List.map_congr_left
    intro i hi
    rw [List.mem_range] at hi
    simp only [HalfedgeHandle]
    rw [static_cast_int_of_lt i (by omega)]
  · rw [show (F.Entity_Face, F.Type_Status)
        = chunk_kind ((write_face_status F be o (file_header F be)
            (swap_required host o)).chunk u.chunk_header) from rfl,
      kind_chunk_iff F hF host be o u hk _ (by simp [builtin_blocks])]
    simp [write_face_status, and_assoc]
  · intro c hc hkind
    obtain ⟨_, ch, rfl⟩ := chunk_of_kind F hF host be o u hk c hc
      (write_face_status F be o (file_header F be) (swap_required host o))
      (by simp [builtin_blocks]) u.chunk_header hkind
    refine ⟨rfl, rfl, rfl, ?_⟩
    simp only [Block.chunk, write_face_status, hnf]
    apply List.map_congr_left
    intro i hi
    rw [List.mem_range] at hi
    simp only [FaceHandle]
    rw [static_cast_int_of_lt i (by omega)]

/-- Witness of C36: the triangle mesh with the four status properties present,
Status requested: the Vertex-Status chunk is in the stream, it declares
unsigned, non-float, 1-D data and holds three status values. -/
theorem status_chunks_witness :
    sample_decls.WellFormed
    ∧ (status_options.check Flag.Custom = true → triangle_status.kernel.isSome = true)
    ∧ triangle_status.n_vertices ≤ 2147483648
    ∧ 2 * triangle_status.n_edges ≤ 2147483648
    ∧ triangle_status.n_faces ≤ 2147483648
    ∧ triangle_vertex_status
        ∈ chunks (write_binary sample_decls Endian.LSB triangle_status status_options
            sample_indeterminate).os
    ∧ chunk_kind triangle_vertex_status
        = (sample_decls.Entity_Vertex, sample_decls.Type_Status)
    ∧ triangle_vertex_status.1.signed_ = false
    ∧ triangle_vertex_status.1.float_ = false
    ∧ triangle_vertex_status.1.dim_ = sample_decls.Dim_1D
    ∧ triangle_vertex_status.2
        = (List.range triangle_status.n_vertices).map fun (i : Nat) =>
            Record.status (triangle_status.status (Int.ofNat i))
              (swap_required Endian.LSB status_options) :=
  have hm : triangle_vertex_status
      ∈ chunks (write_binary sample_decls Endian.LSB triangle_status status_options
          sample_indeterminate).os := by decide
  ⟨by decide, by decide, by decide, by decide, by decide, hm, rfl,
    (status_chunks sample_decls (by decide) Endian.LSB triangle_status status_options
      sample_indeterminate (by decide) (by decide) (by decide) (by decide)).1.2 _ hm rfl⟩

theorem countP_key_eq_one {α β : Type} [DecidableEq β] (key : α → β) (a : β) (l : List α)
    (hn : (l.map key).Nodup) (ha : a ∈ l.map key) :
    l.countP (fun c => decide (key c = a)) = 1 := by
  induction l with
  | nil => simp at ha
  | cons x xs ih =>
    rw [List.map_cons, List.nodup_cons] at hn
    rw [List.countP_cons]
    by_cases hx : key x = a
    · have h0 : xs.countP (fun c => decide (key c = a)) = 0 := by
        rw [List.countP_eq_zero]
        intro c hc
        simp only [decide_eq_true_eq]
        intro hca
        exact hn.1 (List.mem_map.2 ⟨c, hc, hca.trans hx.symm⟩)
      simp [h0, hx]
    · have ha' : a ∈ xs.map key := by
        rw [List.map_cons, List.mem_cons] at ha
        rcases ha with ha | ha
        · exact absurd ha.symm hx
        · exact ha
      simp [ih hn.2 ha', hx]

theorem count_kind_run_chunks (F : Decls) (hF : F.WellFormed) (be : BaseExporter)
    (o : Options) (header : Header) (sw : Bool) (ch : Chunk.Header) (b : Block)
    (hb : b ∈ builtin_blocks F be o header sw) (hcond : b.cond = true) :
    (run_chunks (builtin_blocks F be o header sw) ch).countP
        (fun c => decide (chunk_kind c = chunk_kind (b.chunk ch))) = 1 := by
  have hmap := map_run_chunks chunk_kind ch (builtin_blocks F be o header sw)
    (builtin_kind_indep F be o header sw ch) ch
  have hn : ((builtin_blocks F be o header sw).map
      fun b => chunk_kind (b.chunk ch)).Nodup := by
    rw [builtin_kinds]
    exact builtin_order_nodup F hF
  have hn' : ((run_chunks (builtin_blocks F be o header sw) ch).map chunk_kind).Nodup := by
    rw [hmap]
    exact ((List.filter_sublist _).map _).nodup hn
  have hmem : chunk_kind (b.chunk ch)
      ∈ (run_chunks (builtin_blocks F be o header sw) ch).map chunk_kind := by
    rw [hmap]
    exact List.mem_map.2 ⟨b, List.mem_filter.2 ⟨hb, hcond⟩, rfl⟩
  exact countP_key_eq_one chunk_kind _ _ hn' hmem

/-- C37. The Face-Topology chunk is written for every mesh and all options:
exactly one chunk of the stream is a Face-Topology chunk, its payload is the
outgoing halfedge id of each of the `n_faces` faces (the face count fits `int`
handles); for the mesh without vertices, edges and faces and without attached
properties the stream is the file header, the Face-Topology chunk header and
the Sentinel header. -/
theorem face_topology_unconditional (F : Decls) (hF : F.WellFormed) (host : Endian)
    (be : BaseExporter) (o : Options) (u : Indeterminate)
    (hk : o.check Flag.Custom = true → be.kernel.isSome = true)
    (hf : be.n_faces ≤ 2147483648) :
    (chunks (write_binary F host be o u).os).countP
        (fun c => decide (chunk_kind c = (F.Entity_Face, F.Type_Topology))) = 1
    ∧ (∀ c ∈ chunks (write_binary F host be o u).os,
        chunk_kind c = (F.Entity_Face, F.Type_Topology) →
        c.2 = (List.range be.n_faces).map fun (i : Nat) =>
          Record.integer (be.get_halfedge_id_face (Int.ofNat i)) c.1.bits_
            (swap_required host o))
    ∧ (be.n_vertices = 0 → be.n_edges = 0 → be.n_faces = 0 →
        (o.check Flag.Custom = true → be.kernel = some ⟨[], [], [], [], []⟩) →
        (write_binary F host be o u).os
          = [ Record.header (file_header F be) (swap_required host o),
              Record.chunk_header
                ((write_face_topology F be (file_header F be)
                  (swap_required host o)).assign u.chunk_header) (swap_required host o),
              Record.chunk_header (sentinel F) (swap_required host o) ]) := by
  obtain ⟨hE, hT, -⟩ := id hF
  simp only [List.nodup_cons, List.mem_cons, List.mem_singleton, List.not_mem_nil,
    not_or, or_false] at hE hT
  refine ⟨?_, ?_, ?_⟩
  · rw [write_binary_chunks F host be o u hk, List.countP_append, List.countP_append]
    have h1 := count_kind_run_chunks F hF be o (file_header F be) (swap_required host o)
      u.chunk_header (write_face_topology F be (file_header F be) (swap_required host o))
      (by simp [builtin_blocks]) rfl
    have h2 : (custom_chunks F (swap_required host o) u.chdr (visited F be o)).countP
        (fun c => decide (chunk_kind c = (F.Entity_Face, F.Type_Topology))) = 0 := by
      rw [List.countP_eq_zero]
      intro c hc
      obtain ⟨e, p, _, _, rfl⟩ := mem_custom_chunks _ _ _ _ _ hc
      simp only [custom_chunk, chunk_kind, decide_eq_true_eq, Prod.mk.injEq, not_and]
      intro _ h
      exact hT.2.2.2.2.2.1 h
    have h3 : [(sentinel F, ([] : List Record))].countP
        (fun c => decide (chunk_kind c = (F.Entity_Face, F.Type_Topology))) = 0 := by
      rw [List.countP_eq_zero]
      intro c hc
      rw [List.mem_singleton] at hc
      subst hc
      simp only [sentinel, chunk_kind, decide_eq_true_eq, Prod.mk.injEq, not_and]
      intro h
      exact absurd h.symm hE.2.2.1.2.2
    have h1' : (run_chunks (builtin_blocks F be o (file_header F be) (swap_required host o))
        u.chunk_header).countP
          (fun c => decide (chunk_kind c = (F.Entity_Face, F.Type_Topology))) = 1 := h1
    rw [h1', h2, h3]
  · intro c hc hkind
    obtain ⟨_, ch, rfl⟩ := chunk_of_kind F hF host be o u hk c hc
      (write_face_topology F be (file_header F be) (swap_required host o))
      (by simp [builtin_blocks]) u.chunk_header hkind
    have hnf : (file_header F be).n_faces_ = be.n_faces := by
      simp only [file_header]; omega
    simp only [Block.chunk, write_face_topology, hnf]
    apply List.map_congr_left
    intro i hi
    rw [List.mem_range] at hi
    simp only [FaceHandle]
    rw [static_cast_int_of_lt i (by omega)]
  · intro hv he hf0 hprops
    rw [write_binary_os F host be o u hk]
    have hvis : ((visited F be o).map
        (custom_records F (swap_required host o) u.chdr)).flatten = [] := by
      unfold visited
      by_cases hc : o.check Flag.Custom = true
      · rw [if_pos hc, hprops hc]
        simp [attached]
      · rw [if_neg hc]
        rfl
    rw [hvis]
    simp [builtin_blocks, run_blocks, Block.run, write_vertex_position, write_vertex_normal,
      write_vertex_color, write_vertex_texcoord, write_halfedge_topology,
      write_halfedge_texcoord, write_vertex_topology, write_face_topology,
      write_face_normal, write_face_color, write_vertex_status, write_edge_status,
      write_halfedge_status, write_face_status, hv, he, hf0, file_header]

/-- Witness of C37: the mesh without vertices, edges and faces, no option set. -/
theorem face_topology_unconditional_witness :
    sample_decls.WellFormed
    ∧ (no_options.check Flag.Custom = true → empty_mesh.kernel.isSome = true)
    ∧ empty_mesh.n_faces ≤ 2147483648
    ∧ (write_binary sample_decls Endian.LSB empty_mesh no_options sample_indeterminate).os
        = [ Record.header (file_header sample_decls empty_mesh)
              (swap_required Endian.LSB no_options),
            Record.chunk_header
              ((write_face_topology sample_decls empty_mesh (file_header sample_decls empty_mesh)
                (swap_required Endian.LSB no_options)).assign
                  sample_indeterminate.chunk_header) (swap_required Endian.LSB no_options),
            Record.chunk_header (sentinel sample_decls)
              (swap_required Endian.LSB no_options) ] :=
  ⟨by decide, by decide, by decide,
    (face_topology_unconditional sample_decls (by decide) Endian.LSB empty_mesh no_options
      sample_indeterminate (by decide) (by decide)).2.2 rfl rfl rfl
      (fun h => absurd h (by decide))⟩

/-! ## Products, comparison and the colour literal of `Vector11T.hh` -/

/-- C31. For 3-vectors over a commutative ring `a % b` has the components
`a[1]*b[2] - a[2]*b[1]`, `a[2]*b[0] - a[0]*b[2]`, `a[0]*b[1] - a[1]*b[0]`, the
free function `cross` returns the same vector, `cross(a, b)` is the negated
`cross(b, a)` component by component and `cross(a, a)` is zero. -/
theorem cross_product {Scalar : Type} [CommRing Scalar] (a b : VectorT Scalar 3) :
    (a.operator_mod b).values_ 0 = a.values_ 1 * b.values_ 2 - a.values_ 2 * b.values_ 1
    ∧ (a.operator_mod b).values_ 1 = a.values_ 2 * b.values_ 0 - a.values_ 0 * b.values_ 2
    ∧ (a.operator_mod b).values_ 2 = a.values_ 0 * b.values_ 1 - a.values_ 1 * b.values_ 0
    ∧ cross a b = a.operator_mod b
    ∧ (∀ i, (cross a b).values_ i = -((cross b a).values_ i))
    ∧ ∀ i, (cross a a).values_ i = 0 := by
  refine ⟨rfl, rfl, rfl, rfl, fun i => ?_, fun i => ?_⟩
  · fin_cases i <;> simp [cross, VectorT.operator_mod] <;> ring
  · fin_cases i <;> simp [cross, VectorT.operator_mod] <;> ring

/-- C32. For a 3-vector over a linearly ordered ring (exact scalars) `sqrnorm`,
the scalar product of the vector with itself and `dot(v, v)` are the sum of the
squared components; the value is non-negative and is zero exactly for the zero
vector. -/
theorem sqrnorm_is_dot_self {Scalar : Type} [LinearOrderedRing Scalar]
    (v : VectorT Scalar 3) :
    v.sqrnorm = v.operator_or v
    ∧ v.operator_or v = dot v v
    ∧ dot v v = v.values_ 0 ^ 2 + v.values_ 1 ^ 2 + v.values_ 2 ^ 2
    ∧ 0 ≤ v.sqrnorm
    ∧ (v.sqrnorm = 0 ↔ ∀ i, v.values_ i = 0) := by
  have hs : v.sqrnorm
      = v.values_ 0 * v.values_ 0 + v.values_ 1 * v.values_ 1
        + v.values_ 2 * v.values_ 2 := by
    simp [VectorT.sqrnorm, accumulate_op, List.ofFn_succ]
  have hd : v.operator_or v
      = v.values_ 0 * v.values_ 0 + v.values_ 1 * v.values_ 1
        + v.values_ 2 * v.values_ 2 := by
    simp [VectorT.operator_or]
  have h0 := mul_self_nonneg (v.values_ 0)
  have h1 := mul_self_nonneg (v.values_ 1)
  have h2 := mul_self_nonneg (v.values_ 2)
  refine ⟨hs.trans hd.symm, rfl, ?_, ?_, ?_⟩
  · rw [dot, hd, pow_two, pow_two, pow_two]
  · rw [hs]
    exact add_nonneg (add_nonneg h0 h1) h2
  · rw [hs]
    constructor
    · intro h i
      have h01 := add_nonneg h0 h1
      have e2 : v.values_ 2 * v.values_ 2 = 0 := by
        apply le_antisymm _ h2
        calc v.values_ 2 * v.values_ 2
            ≤ (v.values_ 0 * v.values_ 0 + v.values_ 1 * v.values_ 1)
              + v.values_ 2 * v.values_ 2 := le_add_of_nonneg_left h01
          _ = 0 := h
      rw [e2, add_zero] at h
      have e1 : v.values_ 1 * v.values_ 1 = 0 := by
        apply le_antisymm _ h1
        calc v.values_ 1 * v.values_ 1
            ≤ v.values_ 0 * v.values_ 0 + v.values_ 1 * v.values_ 1 :=
              le_add_of_nonneg_left h0
          _ = 0 := h
      rw [e1, add_zero] at h
      fin_cases i
      · exact mul_self_eq_zero.1 h
      · exact mul_self_eq_zero.1 e1
      · exact mul_self_eq_zero.1 e2
    · intro h
      rw [h 0, h 1, h 2]
      simp

theorem equal_ofFn {Scalar : Type} [DecidableEq Scalar] :
    ∀ (n : Nat) (a b : Fin n → Scalar),
      equal (List.ofFn b) (List.ofFn a) = true ↔ ∀ i, a i = b i := by
  intro n
  induction n with
  | zero =>
    intro a b
    simp [equal]
  | succ n ih =>
    intro a b
    rw [List.ofFn_succ, List.ofFn_succ, equal]
    by_cases h : b 0 = a 0
    · rw [if_pos h, ih]
      constructor
      · intro hi i
        refine Fin.cases h.symm (fun j => hi j) i
      · intro hi j
        exact hi j.succ
    · rw [if_neg h]
      simp only [Bool.false_eq_true, false_iff]
      intro hi
      exact h (hi 0).symm

theorem lexicographical_compare_ofFn {Scalar : Type} [LinearOrder Scalar] :
    ∀ (n : Nat) (a b : Fin n → Scalar),
      lexicographical_compare (List.ofFn a) (List.ofFn b) = true
        ↔ ∃ k, (∀ i, i < k → a i = b i) ∧ a k < b k := by
  intro n
  induction n with
  | zero =>
    intro a b
    simp [lexicographical_compare]
  | succ n ih =>
    intro a b
    rw [List.ofFn_succ, List.ofFn_succ, lexicographical_compare]
    by_cases h : a 0 < b 0
    · rw [if_pos h]
      simp only [true_iff]
      exact ⟨0, fun i hi => absurd hi (Fin.not_lt_zero i), h⟩
    · rw [if_neg h]
      by_cases h' : b 0 < a 0
      · rw [if_pos h']
        simp only [Bool.false_eq_true, false_iff]
        rintro ⟨k, hk, hlt⟩
        by_cases hk0 : k = 0
        · subst hk0
          exact h hlt
        · have := hk 0 (Fin.pos_of_ne_zero hk0)
          rw [this] at h'
          exact lt_irrefl _ h'
      · rw [if_neg h', ih]
        have heq : a 0 = b 0 := le_antisymm (not_lt.1 h') (not_lt.1 h)
        constructor
        · rintro ⟨k, hk, hlt⟩
          refine ⟨k.succ, fun i hi => ?_, hlt⟩
          refine Fin.cases (fun _ => heq) (fun j hj => ?_) i hi
          exact hk j (Fin.succ_lt_succ_iff.1 hj)
        · rintro ⟨k, hk, hlt⟩
          by_cases hk0 : k = 0
          · subst hk0
            exact absurd hlt h
          · obtain ⟨j, rfl⟩ := Fin.exists_succ_eq.2 hk0
            exact ⟨j, fun i hi => hk i.succ (Fin.succ_lt_succ_iff.2 hi), hlt⟩

theorem lexicographical_trichotomy {Scalar : Type} [LinearOrder Scalar] :
    ∀ (n : Nat) (a b : Fin n → Scalar),
      (lexicographical_compare (List.ofFn a) (List.ofFn b) = true
          ∧ equal (List.ofFn b) (List.ofFn a) = false
          ∧ lexicographical_compare (List.ofFn b) (List.ofFn a) = false)
      ∨ (lexicographical_compare (List.ofFn a) (List.ofFn b) = false
          ∧ equal (List.ofFn b) (List.ofFn a) = true
          ∧ lexicographical_compare (List.ofFn b) (List.ofFn a) = false)
      ∨ (lexicographical_compare (List.ofFn a) (List.ofFn b) = false
          ∧ equal (List.ofFn b) (List.ofFn a) = false
          ∧ lexicographical_compare (List.ofFn b) (List.ofFn a) = true) := by
  intro n
  induction n with
  | zero =>
    intro a b
    simp [lexicographical_compare, equal]
  | succ n ih =>
    intro a b
    simp only [List.ofFn_succ, lexicographical_compare, equal]
    by_cases h : a 0 < b 0
    · have h' : ¬ b 0 < a 0 := not_lt.2 (le_of_lt h)
      have hne : ¬ b 0 = a 0 := fun e => (ne_of_lt h) e.symm
      simp [h, h', hne]
    · by_cases h' : b 0 < a 0
      · have hne : ¬ b 0 = a 0 := ne_of_lt h'
        simp [h, h', hne]
      · have heq : b 0 = a 0 := le_antisymm (not_lt.1 h) (not_lt.1 h')
        simp only [h, h', heq, if_true, if_false]
        simpa [heq] using ih (fun i => a i.succ) (fun i => b i.succ)

/-- C33. Over a linearly ordered scalar type `a < b` holds if and only if at
some index `k` the component of `a` is less than that of `b` and all components
before `k` are equal; `a == b` holds if and only if all components are equal;
exactly one of `a < b`, `a == b`, `b < a` holds; `a != b` is the negation of
`a == b`. -/
theorem lexicographical_order {Scalar : Type} {DIM : Nat} [LinearOrder Scalar]
    (a b : VectorT Scalar DIM) :
    (a.operator_lt b = true
      ↔ ∃ k, (∀ i, i < k → a.values_ i = b.values_ i) ∧ a.values_ k < b.values_ k)
    ∧ (a.operator_eq b = true ↔ ∀ i, a.values_ i = b.values_ i)
    ∧ ((a.operator_lt b = true ∧ a.operator_eq b = false ∧ b.operator_lt a = false)
      ∨ (a.operator_lt b = false ∧ a.operator_eq b = true ∧ b.operator_lt a = false)
      ∨ (a.operator_lt b = false ∧ a.operator_eq b = false ∧ b.operator_lt a = true))
    ∧ a.operator_ne b = !a.operator_eq b :=
  ⟨lexicographical_compare_ofFn DIM a.values_ b.values_,
    equal_ofFn DIM a.values_ b.values_,
    lexicographical_trichotomy DIM a.values_ b.values_, rfl⟩

set_option maxRecDepth 100000 in
theorem float_div_255 : ∀ x < 256,
    (float_div x 255).val < 2147483648
    ∧ float_numerator (float_div x 255) ≤ 2 ^ 150
    ∧ 255 * float_numerator (float_div x 255) ≤ x * 2 ^ 150 + 255 * 2 ^ 125
    ∧ x * 2 ^ 150 ≤ 255 * float_numerator (float_div x 255) + 255 * 2 ^ 125 := by
  decide

theorem float_value_div_255 (x : Nat) (hx : x < 256) :
    |float_value (float_div x 255) - (x : ℚ) / 255| ≤ 1 / 2 ^ 25
    ∧ 0 ≤ float_value (float_div x 255) ∧ float_value (float_div x 255) ≤ 1 := by
  obtain ⟨hs, hN, hu, hl⟩ := float_div_255 x hx
  have hsign : ¬ (float_div x 255).val / 2 ^ 31 = 1 := by
    have : (float_div x 255).val / 2 ^ 31 = 0 := Nat.div_eq_of_lt hs
    omega
  have hv : float_value (float_div x 255)
      = (float_numerator (float_div x 255) : ℚ) / 2 ^ 150 := by
    unfold float_value
    rw [if_neg hsign]
  have hN' : (float_numerator (float_div x 255) : ℚ) ≤ 2 ^ 150 := by exact_mod_cast hN
  have hu' : (255 : ℚ) * float_numerator (float_div x 255) ≤ x * 2 ^ 150 + 255 * 2 ^ 125 := by
    exact_mod_cast hu
  have hl' : (x : ℚ) * 2 ^ 150 ≤ 255 * float_numerator (float_div x 255) + 255 * 2 ^ 125 := by
    exact_mod_cast hl
  have hpos : (0 : ℚ) < 2 ^ 150 := by positivity
  rw [hv]
  refine ⟨?_, div_nonneg (Nat.cast_nonneg _) (le_of_lt hpos), (div_le_one hpos).2 hN'⟩
  rw [abs_sub_le_iff]
  constructor
  · rw [sub_le_iff_le_add, div_le_iff₀ hpos]
    have e : (1 / 2 ^ 25 + (x : ℚ) / 255) * 2 ^ 150
        = (x * 2 ^ 150 + 255 * 2 ^ 125) / 255 := by
      field_simp
      ring
    rw [e, le_div_iff₀ (by norm_num)]
    linarith
  · rw [sub_le_iff_le_add, div_le_iff₀ (by norm_num)]
    have e : (1 / 2 ^ 25 + (float_numerator (float_div x 255) : ℚ) / 2 ^ 150) * 255
        = (255 * float_numerator (float_div x 255) + 255 * 2 ^ 125) / 2 ^ 150 := by
      field_simp
      ring
    rw [e, le_div_iff₀ hpos]
    exact hl'

theorem mask_shift_lt (raw sh : Nat) : (raw >>> sh) &&& 0xFF < 256 :=
  Nat.lt_succ_of_le Nat.and_le_right

theorem mask_shift_low (raw sh : Nat) (h : sh ≤ 24) :
    (raw >>> sh) &&& 0xFF = ((raw % 4294967296) >>> sh) &&& 0xFF := by
  have e : ∀ n : Nat, n &&& 0xFF = n % 2 ^ 8 := fun n => Nat.and_pow_two_sub_one_eq_mod n 8
  rw [e, e, Nat.shiftRight_eq_div_pow, Nat.shiftRight_eq_div_pow]
  have h32 : (4294967296 : Nat) = 2 ^ sh * 2 ^ (32 - sh) := by
    rw [← Nat.pow_add, Nat.add_sub_cancel' (by omega : sh ≤ 32)]
  rw [h32, Nat.mod_mul_right_div_self]
  have h8 : 2 ^ (32 - sh) = 2 ^ 8 * 2 ^ (24 - sh) := by
    rw [← Nat.pow_add]
    congr 1
    omega
  rw [h8, Nat.mod_mul_right_mod]

/-- C34. For every raw value component `k` of the `_htmlColor` literal is the
`float` quotient of the byte `(raw >> (24 - 8 k)) & 0xFF` by 255, that is the
`float` nearest to the quotient (within `2^-25` of it); every component lies in
`[0, 1]`; the result depends only on the low 32 bits of the raw value;
`0x1FCFFFFF` gives the components `0x1F / 255`, `0xCF / 255`, 1 and 1, where 1 is
the `float` of bit pattern `0x3F800000`. -/
theorem htmlColor_components (raw_color : Nat) :
    (∀ k : Fin 4, (_htmlColor raw_color).values_ k
        = float_div ((raw_color >>> (24 - 8 * k.val)) &&& 0xFF) 255)
    ∧ (∀ k : Fin 4,
        |float_value ((_htmlColor raw_color).values_ k)
            - (((raw_color >>> (24 - 8 * k.val)) &&& 0xFF : Nat) : ℚ) / 255| ≤ 1 / 2 ^ 25)
    ∧ (∀ k : Fin 4, 0 ≤ float_value ((_htmlColor raw_color).values_ k)
        ∧ float_value ((_htmlColor raw_color).values_ k) ≤ 1)
    ∧ _htmlColor raw_color = _htmlColor (raw_color % 4294967296)
    ∧ _htmlColor 0x1FCFFFFF
        = ⟨![float_div 0x1F 255, float_div 0xCF 255, 1065353216, 1065353216]⟩
    ∧ float_value 1065353216 = 1 := by
  have hk : ∀ k : Fin 4, (_htmlColor raw_color).values_ k
      = float_div ((raw_color >>> (24 - 8 * k.val)) &&& 0xFF) 255 := by
    intro k
    fin_cases k <;> rfl
  refine ⟨hk, fun k => ?_, fun k => ?_, ?_, by decide, ?_⟩
  · rw [hk]
    exact (float_value_div_255 _ (mask_shift_lt _ _)).1
  · rw [hk]
    exact (float_value_div_255 _ (mask_shift_lt _ _)).2
  · unfold _htmlColor
    rw [mask_shift_low raw_color 24 (by decide), mask_shift_low raw_color 16 (by decide),
      mask_shift_low raw_color 8 (by decide), mask_shift_low raw_color 0 (by decide)]
  · have hn : float_numerator (1065353216 : float) = 2 ^ 150 := by decide
    have hs : ¬ (1065353216 : float).val / 2 ^ 31 = 1 := by decide
    unfold float_value
    rw [if_neg hs, hn]
    norm_num

/-! ## Losslessness of the encoder -/

end OpenMesh
